import Mathlib

/-!
# SaferCPlusPlus: `mse::msearray`, its position-tracking iterators and the checked scalars

A shallow embedding of `msearray.h` in its default build
(`MSE_MSEARRAY_USE_MSE_PRIMITIVES` undefined, `MSE_DISABLE_MSEAR_POINTER_CHECKS`
undefined, `assert` active), on an LP64 target:

* `msear_size_t = size_t` is an unsigned 64-bit integer, a `Nat` reduced modulo `2 ^ 64`;
* `msear_int = long long int` and `difference_type = ptrdiff_t` are signed 64-bit
  integers, an `Int` in two's complement (`to_int64`);
* a `throw` is the `Except.error` of the result; a member function that mutates
  `*this` returns the result together with the iterator as the call leaves it, so
  that the state after a failing call is part of the model;
* a container lives at an address (`Nat`); `msear_pointer` holds `none` for `nullptr`.
-/

namespace mse

/-! ## Exceptions -/

/-- The place a `std::out_of_range` is thrown from (the `what()` text names it). -/
inductive Site where
  | null_deref
  | array_at
  | front
  | back
  | points_to_an_item
  | points_to_end_marker
  | set_to_next
  | set_to_previous
  | advance
  | difference
  | dereference
  | previous_item
  | arrow
  | less
  | shift_inclusive_range
  | range_check
  | safer_ptr_null_deref
  | safer_ptr_for_legacy_null_deref
  deriving DecidableEq, Repr

/-- The ways a call ends other than by returning. -/
inductive Exn where
  /-- The call did `throw(std::out_of_range(...))`. -/
  | out_of_range (site : Site)
  /-- An `assert(...)` did not hold. -/
  | assert_failure
  /-- The call read an object outside its bounds or used a singular native iterator. -/
  | undefined_behavior
  deriving DecidableEq, Repr

/-! ## Machine integers -/

/-- Conversion to `size_t`: reduction modulo `2 ^ 64`. -/
def to_size_t (z : Int) : Nat := (z % 2 ^ 64).toNat

/-- Conversion to `long long` (and the result of signed 64-bit arithmetic): two's complement. -/
def to_int64 (z : Int) : Int := (z + 2 ^ 63) % 2 ^ 64 - 2 ^ 63

/-- Conversion to `int`: two's complement on 32 bits. -/
def to_int32 (z : Int) : Int := (z + 2 ^ 31) % 2 ^ 32 - 2 ^ 31

/-! ## msear_pointer -/

/-- The class `msear_pointer<_Ty>`: `m_ptr` is `none` for `nullptr`, else the address. -/
structure msear_pointer where
  m_ptr : Option Nat := none
  deriving DecidableEq, Repr

namespace msear_pointer

/-- The member `operator->`: the held address, after the null check. -/
def arrow (p : msear_pointer) : Except Exn Nat :=
  match p.m_ptr with
  | none => .error (.out_of_range .null_deref)
  | some a => .ok a

/-- The member `operator*`: the referent in the store `mem`, after the null check. -/
def deref {α : Type} (mem : Nat → α) (p : msear_pointer) : Except Exn α :=
  match p.m_ptr with
  | none => .error (.out_of_range .null_deref)
  | some a => .ok (mem a)

end msear_pointer

/-! ## msearray -/

/-- The class `msearray<_Ty, _Size>`: the `_Size` slots of the `std::array` base. -/
structure msearray (T : Type) (N : Nat) where
  elems : Fin N → T

namespace msearray

variable {T : Type} {N : Nat}

/-- The member `size()` of the base: the capacity, whatever the contents. -/
def size (_a : msearray T N) : Nat := N

/-- The member `std::array::at` of the base: range-checked access. -/
def «at» (a : msearray T N) (_P : Nat) : Except Exn T :=
  if h : _P < N then .ok (a.elems ⟨_P, h⟩) else .error (.out_of_range .array_at)

/-- The member `operator[]` (both overloads): `return (*this).at(_P);`. -/
def index (a : msearray T N) (_P : Nat) : Except Exn T := a.at _P

/-- The first loop of the initializer-list constructor. The condition
`_Ilist.end() != Il_it, count < _Size` is a comma expression: its value is
`count < _Size` alone. `Il_it` and `target_it` are both `count` steps from their
beginnings; reading `*Il_it` at or past `_Ilist.end()` is outside the list. -/
def ctor_copy_loop (_Ilist : List T) : Nat → Nat → (Fin N → T) → Except Exn (Nat × (Fin N → T))
  | 0, count, target => .ok (count, target)
  | fuel + 1, count, target =>
    if h : count < N then
      match _Ilist[count]? with
      | none => .error .undefined_behavior
      | some v => ctor_copy_loop _Ilist fuel (count + 1) (Function.update target ⟨count, h⟩ v)
    else .ok (count, target)

/-- The second loop of the initializer-list constructor: `default_Ty` in the slots left. -/
def ctor_fill_loop (default_Ty : T) : Nat → Nat → (Fin N → T) → Nat × (Fin N → T)
  | 0, count, target => (count, target)
  | fuel + 1, count, target =>
    if h : count < N then
      ctor_fill_loop default_Ty fuel (count + 1) (Function.update target ⟨count, h⟩ default_Ty)
    else (count, target)

/-- The constructor `msearray(initializer_list)`. `storage` is the content of the
default-initialized base before the loops run; each loop runs at most `_Size` times. -/
def from_initializer_list [Inhabited T] (storage : Fin N → T) (_Ilist : List T) :
    Except Exn (msearray T N) :=
  if ¬ (N ≥ _Ilist.length) then .error .assert_failure
  else
    match ctor_copy_loop _Ilist N 0 storage with
    | .error e => .error e
    | .ok (count, target) =>
      .ok ⟨(ctor_fill_loop (default : T) N count target).2⟩

end msearray

/-! ## The native iterator of the base -/

/-- The base `std::array<_Ty, _Size>::iterator` (and `const_iterator`) an iterator
inherits from: `none` while singular (default-constructed), else the address of the
array it points into and its offset from that array's `begin()`. -/
abbrev native_iterator := Option (Nat × Int)

/-- The native `begin()` of the array at address `a`. -/
def native_begin (a : Nat) : native_iterator := some (a, 0)

/-- The native `end()` of the array at address `a`, of capacity `N`. -/
def native_end (N : Nat) (a : Nat) : native_iterator := some (a, (N : Int))

/-- The native `operator+=(n)`; `operator++` is `+= 1` and `operator--` is `+= -1`. -/
def native_add (c : native_iterator) (n : Int) : native_iterator :=
  c.map (fun p => (p.1, p.2 + n))

/-- The native `operator-` of two iterators, defined when both point into one array. -/
def native_sub (c d : native_iterator) : Except Exn Int :=
  match c, d with
  | some (a, i), some (b, j) => if a = b then .ok (i - j) else .error .undefined_behavior
  | _, _ => .error .undefined_behavior

/-! ## ss_iterator_type -/

/-- The class `msearray<_Ty, _Size>::ss_iterator_type`: the inherited native
iterator, `m_index` and `m_owner_ptr`, with their default member initializers. -/
structure ss_iterator_type where
  base : native_iterator := none
  m_index : Nat := 0
  m_owner_ptr : msear_pointer := {}
  deriving DecidableEq, Repr

namespace ss_iterator_type

/-- The member `points_to_an_item`; `m_owner_ptr->size()` is `_Size` after the null check. -/
def points_to_an_item (N : Nat) (it : ss_iterator_type) : Except Exn Bool :=
  match it.m_owner_ptr.arrow with
  | .error e => .error e
  | .ok _ =>
    if 1 ≤ N ∧ it.m_index < N then .ok true
    else if it.m_index = N then .ok false
    else .error (.out_of_range .points_to_an_item)

/-- The member `points_to_end_marker`. -/
def points_to_end_marker (N : Nat) (it : ss_iterator_type) : Except Exn Bool :=
  match it.points_to_an_item N with
  | .error e => .error e
  | .ok false =>
    match it.m_owner_ptr.arrow with
    | .error e => .error e
    | .ok _ =>
      if it.m_index = N then .ok true
      else .error (.out_of_range .points_to_end_marker)
  | .ok true => .ok false

/-- The member `points_to_beginning`. -/
def points_to_beginning (it : ss_iterator_type) : Bool :=
  if 0 = it.m_index then true else false

/-- The member `has_next_item_or_end_marker`. -/
def has_next_item_or_end_marker (N : Nat) (it : ss_iterator_type) : Except Exn Bool :=
  it.points_to_an_item N

/-- The member `has_next`. -/
def has_next (N : Nat) (it : ss_iterator_type) : Except Exn Bool :=
  it.has_next_item_or_end_marker N

/-- The member `has_previous`. -/
def has_previous (it : ss_iterator_type) : Bool := !it.points_to_beginning

/-- The member `set_to_beginning`: `m_index = 0;` and then the base is set to
`m_owner_ptr->begin()`, which throws on a null owner. -/
def set_to_beginning (it : ss_iterator_type) : Except Exn Unit × ss_iterator_type :=
  let it1 := { it with m_index := 0 }
  match it1.m_owner_ptr.arrow with
  | .error e => (.error e, it1)
  | .ok a => (.ok (), { it1 with base := native_begin a })

/-- The member `set_to_end_marker`: `m_index = m_owner_ptr->size();` and then the
base is set to `m_owner_ptr->end()`. -/
def set_to_end_marker (N : Nat) (it : ss_iterator_type) : Except Exn Unit × ss_iterator_type :=
  match it.m_owner_ptr.arrow with
  | .error e => (.error e, it)
  | .ok a => (.ok (), { it with m_index := N, base := native_end N a })

/-- The member `reset`. -/
def reset (N : Nat) (it : ss_iterator_type) : Except Exn Unit × ss_iterator_type :=
  it.set_to_end_marker N

/-- The member `set_to_next`. -/
def set_to_next (N : Nat) (it : ss_iterator_type) : Except Exn Unit × ss_iterator_type :=
  match it.points_to_an_item N with
  | .error e => (.error e, it)
  | .ok true =>
    let it1 := { it with m_index := (it.m_index + 1) % 2 ^ 64 }
    let it2 := { it1 with base := native_add it1.base 1 }
    match it2.m_owner_ptr.arrow with
    | .error e => (.error e, it2)
    | .ok _ =>
      if N ≤ it2.m_index then
        if N < it2.m_index then (.error .assert_failure, it2)
        else (.ok (), it2)
      else (.ok (), it2)
  | .ok false => (.error (.out_of_range .set_to_next), it)

/-- The member `set_to_previous`. -/
def set_to_previous (it : ss_iterator_type) : Except Exn Unit × ss_iterator_type :=
  if it.has_previous then
    let it1 := { it with m_index := to_size_t ((it.m_index : Int) - 1) }
    (.ok (), { it1 with base := native_add it1.base (-1) })
  else (.error (.out_of_range .set_to_previous), it)

/-- The member `advance`: `new_index` is a `long long`; the right operand of `||`
(with its null check of the owner) is evaluated only when the left one is false. -/
def advance (N : Nat) (n : Int) (it : ss_iterator_type) : Except Exn Unit × ss_iterator_type :=
  let new_index := to_int64 (to_int64 it.m_index + n)
  if 0 > new_index then (.error (.out_of_range .advance), it)
  else
    match it.m_owner_ptr.arrow with
    | .error e => (.error e, it)
    | .ok _ =>
      if N < to_size_t new_index then (.error (.out_of_range .advance), it)
      else (.ok (), { it with m_index := to_size_t new_index, base := native_add it.base n })

/-- The member `regress`: `advance(-n)`. -/
def regress (N : Nat) (n : Int) (it : ss_iterator_type) : Except Exn Unit × ss_iterator_type :=
  it.advance N (to_int64 (-n))

/-- The member `operator=`. -/
def assign (_this _Right_cref : ss_iterator_type) : ss_iterator_type :=
  let it1 := { _this with m_owner_ptr := _Right_cref.m_owner_ptr }
  let it2 := { it1 with m_index := _Right_cref.m_index }
  { it2 with base := _Right_cref.base }

/-- The member `position`. -/
def position (it : ss_iterator_type) : Nat := it.m_index

/-- The member `operator+=`. -/
def operator_plus_assign (N : Nat) (n : Int) (it : ss_iterator_type) :
    Except Exn Unit × ss_iterator_type := it.advance N n

/-- The member `operator-=`. -/
def operator_minus_assign (N : Nat) (n : Int) (it : ss_iterator_type) :
    Except Exn Unit × ss_iterator_type := it.regress N n

/-- The prefix `operator++`. -/
def operator_increment (N : Nat) (it : ss_iterator_type) :
    Except Exn Unit × ss_iterator_type := it.set_to_next N

/-- The prefix `operator--`. -/
def operator_decrement (it : ss_iterator_type) :
    Except Exn Unit × ss_iterator_type := it.set_to_previous

/-- The member `operator+(n)`, which leaves `*this` as it is. -/
def operator_plus (N : Nat) (n : Int) (it : ss_iterator_type) : Except Exn ss_iterator_type :=
  let retval : ss_iterator_type := {}
  let retval := { retval with m_owner_ptr := it.m_owner_ptr }
  let retval := retval.assign it
  match retval.advance N n with
  | (.error e, _) => .error e
  | (.ok _, retval) => .ok retval

/-- The member `operator-(n)`. -/
def operator_minus (N : Nat) (n : Int) (it : ss_iterator_type) : Except Exn ss_iterator_type :=
  it.operator_plus N (to_int64 (-n))

/-- The member `operator-(rhs)`: the difference of the two native iterators; the
assertion compares it with the size cast to `int`. -/
def difference (N : Nat) (it rhs : ss_iterator_type) : Except Exn Int :=
  if rhs.m_owner_ptr ≠ it.m_owner_ptr then .error (.out_of_range .difference)
  else
    match native_sub it.base rhs.base with
    | .error e => .error e
    | .ok retval =>
      match it.m_owner_ptr.arrow with
      | .error e => .error e
      | .ok _ =>
        if ¬ (to_int32 (N : Int) ≥ retval) then .error .assert_failure
        else .ok retval

/-- The member `operator*`: `m_owner_ptr->at(m_index)` in the store `mem`. -/
def operator_star {T : Type} {N : Nat} (mem : Nat → msearray T N) (it : ss_iterator_type) :
    Except Exn T :=
  match it.points_to_an_item N with
  | .error e => .error e
  | .ok true =>
    match it.m_owner_ptr.arrow with
    | .error e => .error e
    | .ok a => (mem a).at it.m_index
  | .ok false => .error (.out_of_range .dereference)

/-- The member `item`. -/
def item {T : Type} {N : Nat} (mem : Nat → msearray T N) (it : ss_iterator_type) :
    Except Exn T := it.operator_star mem

/-- The member `previous_item`. -/
def previous_item {T : Type} {N : Nat} (mem : Nat → msearray T N) (it : ss_iterator_type) :
    Except Exn T :=
  if it.has_previous then
    match it.m_owner_ptr.arrow with
    | .error e => .error e
    | .ok a => (mem a).at (to_size_t ((it.m_index : Int) - 1))
  else .error (.out_of_range .previous_item)

/-- The member `operator==`. -/
def operator_eq (it _Right_cref : ss_iterator_type) : Bool :=
  decide (_Right_cref.m_index = it.m_index) && decide (_Right_cref.m_owner_ptr = it.m_owner_ptr)

/-- The member `operator!=`. -/
def operator_ne (it _Right_cref : ss_iterator_type) : Bool :=
  !(_Right_cref.operator_eq it)

/-- The member `operator<`. -/
def operator_lt (it _Right : ss_iterator_type) : Except Exn Bool :=
  if it.m_owner_ptr ≠ _Right.m_owner_ptr then .error (.out_of_range .less)
  else .ok (decide (it.m_index < _Right.m_index))

/-- The member `operator<=`: `((*this) < _Right) || (_Right == (*this))`. -/
def operator_le (it _Right : ss_iterator_type) : Except Exn Bool :=
  match it.operator_lt _Right with
  | .error e => .error e
  | .ok true => .ok true
  | .ok false => .ok (_Right.operator_eq it)

/-- The member `operator>`. -/
def operator_gt (it _Right : ss_iterator_type) : Except Exn Bool :=
  match it.operator_le _Right with
  | .error e => .error e
  | .ok b => .ok (!b)

/-- The member `operator>=`. -/
def operator_ge (it _Right : ss_iterator_type) : Except Exn Bool :=
  match it.operator_lt _Right with
  | .error e => .error e
  | .ok b => .ok (!b)

/-- The member `invalidate_inclusive_range`. -/
def invalidate_inclusive_range (N : Nat) (index_of_first index_of_last : Nat)
    (it : ss_iterator_type) : Except Exn Unit × ss_iterator_type :=
  if index_of_first ≤ it.m_index ∧ index_of_last ≥ it.m_index then it.reset N
  else (.ok (), it)

/-- The private member `sync_iterator_to_index`. -/
def sync_iterator_to_index (N : Nat) (it : ss_iterator_type) :
    Except Exn Unit × ss_iterator_type :=
  match it.m_owner_ptr.arrow with
  | .error e => (.error e, it)
  | .ok a =>
    if ¬ (N ≥ it.m_index) then (.error .assert_failure, it)
    else (.ok (), { it with base := native_add (native_begin a) (to_int64 it.m_index) })

/-- The member `shift_inclusive_range`: `m_index + shift` is formed in the
unsigned 64-bit type, so `new_index` is a `size_t` and `0 > new_index` is a
comparison of unsigned values. -/
def shift_inclusive_range (N : Nat) (index_of_first index_of_last : Nat) (shift : Int)
    (it : ss_iterator_type) : Except Exn Unit × ss_iterator_type :=
  if index_of_first ≤ it.m_index ∧ index_of_last ≥ it.m_index then
    let new_index : Nat := to_size_t ((it.m_index : Int) + shift)
    if 0 > new_index then (.error (.out_of_range .shift_inclusive_range), it)
    else
      match it.m_owner_ptr.arrow with
      | .error e => (.error e, it)
      | .ok _ =>
        if N < new_index then (.error (.out_of_range .shift_inclusive_range), it)
        else ({ it with m_index := new_index }).sync_iterator_to_index N
  else (.ok (), it)

end ss_iterator_type

/-- The member `msearray::ss_begin()` of the container at address `this`. -/
def msearray.ss_begin (this : Nat) : Except Exn ss_iterator_type :=
  let retval : ss_iterator_type := {}
  let retval := { retval with m_owner_ptr := ⟨some this⟩ }
  match retval.set_to_beginning with
  | (.error e, _) => .error e
  | (.ok _, retval) => .ok retval

/-- The member `msearray::ss_end()` of the container of capacity `N` at address `this`. -/
def msearray.ss_end (N : Nat) (this : Nat) : Except Exn ss_iterator_type :=
  let retval : ss_iterator_type := {}
  let retval := { retval with m_owner_ptr := ⟨some this⟩ }
  match retval.set_to_end_marker N with
  | (.error e, _) => .error e
  | (.ok _, retval) => .ok retval

/-! ## ss_const_iterator_type -/

/-- The class `msearray<_Ty, _Size>::ss_const_iterator_type`: the inherited native
const_iterator, `m_index` and `m_owner_cptr`, with their default member initializers. -/
structure ss_const_iterator_type where
  base : native_iterator := none
  m_index : Nat := 0
  m_owner_cptr : msear_pointer := {}
  deriving DecidableEq, Repr

namespace ss_const_iterator_type

/-- The member `points_to_an_item`; `m_owner_cptr->size()` is `_Size` after the null check. -/
def points_to_an_item (N : Nat) (it : ss_const_iterator_type) : Except Exn Bool :=
  match it.m_owner_cptr.arrow with
  | .error e => .error e
  | .ok _ =>
    if 1 ≤ N ∧ it.m_index < N then .ok true
    else if it.m_index = N then .ok false
    else .error (.out_of_range .points_to_an_item)

/-- The member `points_to_end_marker`. -/
def points_to_end_marker (N : Nat) (it : ss_const_iterator_type) : Except Exn Bool :=
  match it.points_to_an_item N with
  | .error e => .error e
  | .ok false =>
    match it.m_owner_cptr.arrow with
    | .error e => .error e
    | .ok _ =>
      if it.m_index = N then .ok true
      else .error (.out_of_range .points_to_end_marker)
  | .ok true => .ok false

/-- The member `points_to_beginning`. -/
def points_to_beginning (it : ss_const_iterator_type) : Bool :=
  if 0 = it.m_index then true else false

/-- The member `has_next_item_or_end_marker`. -/
def has_next_item_or_end_marker (N : Nat) (it : ss_const_iterator_type) : Except Exn Bool :=
  it.points_to_an_item N

/-- The member `has_next`. -/
def has_next (N : Nat) (it : ss_const_iterator_type) : Except Exn Bool :=
  it.has_next_item_or_end_marker N

/-- The member `has_previous`. -/
def has_previous (it : ss_const_iterator_type) : Bool := !it.points_to_beginning

/-- The member `set_to_beginning`: `m_index = 0;` and then the base is set to
`m_owner_cptr->begin()`, which throws on a null owner. -/
def set_to_beginning (it : ss_const_iterator_type) : Except Exn Unit × ss_const_iterator_type :=
  let it1 := { it with m_index := 0 }
  match it1.m_owner_cptr.arrow with
  | .error e => (.error e, it1)
  | .ok a => (.ok (), { it1 with base := native_begin a })

/-- The member `set_to_end_marker`: `m_index = m_owner_cptr->size();` and then the
base is set to `m_owner_cptr->end()`. -/
def set_to_end_marker (N : Nat) (it : ss_const_iterator_type) : Except Exn Unit × ss_const_iterator_type :=
  match it.m_owner_cptr.arrow with
  | .error e => (.error e, it)
  | .ok a => (.ok (), { it with m_index := N, base := native_end N a })

/-- The member `reset`. -/
def reset (N : Nat) (it : ss_const_iterator_type) : Except Exn Unit × ss_const_iterator_type :=
  it.set_to_end_marker N

/-- The member `set_to_next`. -/
def set_to_next (N : Nat) (it : ss_const_iterator_type) : Except Exn Unit × ss_const_iterator_type :=
  match it.points_to_an_item N with
  | .error e => (.error e, it)
  | .ok true =>
    let it1 := { it with m_index := (it.m_index + 1) % 2 ^ 64 }
    let it2 := { it1 with base := native_add it1.base 1 }
    match it2.m_owner_cptr.arrow with
    | .error e => (.error e, it2)
    | .ok _ =>
      if N ≤ it2.m_index then
        if N < it2.m_index then (.error .assert_failure, it2)
        else (.ok (), it2)
      else (.ok (), it2)
  | .ok false => (.error (.out_of_range .set_to_next), it)

/-- The member `set_to_previous`. -/
def set_to_previous (it : ss_const_iterator_type) : Except Exn Unit × ss_const_iterator_type :=
  if it.has_previous then
    let it1 := { it with m_index := to_size_t ((it.m_index : Int) - 1) }
    (.ok (), { it1 with base := native_add it1.base (-1) })
  else (.error (.out_of_range .set_to_previous), it)

/-- The member `advance`: `new_index` is a `long long`; the right operand of `||`
(with its null check of the owner) is evaluated only when the left one is false. -/
def advance (N : Nat) (n : Int) (it : ss_const_iterator_type) : Except Exn Unit × ss_const_iterator_type :=
  let new_index := to_int64 (to_int64 it.m_index + n)
  if 0 > new_index then (.error (.out_of_range .advance), it)
  else
    match it.m_owner_cptr.arrow with
    | .error e => (.error e, it)
    | .ok _ =>
      if N < to_size_t new_index then (.error (.out_of_range .advance), it)
      else (.ok (), { it with m_index := to_size_t new_index, base := native_add it.base n })

/-- The member `regress`: `advance(-n)`. -/
def regress (N : Nat) (n : Int) (it : ss_const_iterator_type) : Except Exn Unit × ss_const_iterator_type :=
  it.advance N (to_int64 (-n))

/-- The member `operator=`. -/
def assign (_this _Right_cref : ss_const_iterator_type) : ss_const_iterator_type :=
  let it1 := { _this with m_owner_cptr := _Right_cref.m_owner_cptr }
  let it2 := { it1 with m_index := _Right_cref.m_index }
  { it2 with base := _Right_cref.base }

/-- The member `position`. -/
def position (it : ss_const_iterator_type) : Nat := it.m_index

/-- The member `operator+=`. -/
def operator_plus_assign (N : Nat) (n : Int) (it : ss_const_iterator_type) :
    Except Exn Unit × ss_const_iterator_type := it.advance N n

/-- The member `operator-=`. -/
def operator_minus_assign (N : Nat) (n : Int) (it : ss_const_iterator_type) :
    Except Exn Unit × ss_const_iterator_type := it.regress N n

/-- The prefix `operator++`. -/
def operator_increment (N : Nat) (it : ss_const_iterator_type) :
    Except Exn Unit × ss_const_iterator_type := it.set_to_next N

/-- The prefix `operator--`. -/
def operator_decrement (it : ss_const_iterator_type) :
    Except Exn Unit × ss_const_iterator_type := it.set_to_previous

/-- The member `operator+(n)`, which leaves `*this` as it is. -/
def operator_plus (N : Nat) (n : Int) (it : ss_const_iterator_type) : Except Exn ss_const_iterator_type :=
  let retval : ss_const_iterator_type := {}
  let retval := { retval with m_owner_cptr := it.m_owner_cptr }
  let retval := retval.assign it
  match retval.advance N n with
  | (.error e, _) => .error e
  | (.ok _, retval) => .ok retval

/-- The member `operator-(n)`. -/
def operator_minus (N : Nat) (n : Int) (it : ss_const_iterator_type) : Except Exn ss_const_iterator_type :=
  it.operator_plus N (to_int64 (-n))

/-- The member `operator-(rhs)`: the difference of the two native iterators; the
assertion compares it with the size cast to `int`. -/
def difference (N : Nat) (it rhs : ss_const_iterator_type) : Except Exn Int :=
  if rhs.m_owner_cptr ≠ it.m_owner_cptr then .error (.out_of_range .difference)
  else
    match native_sub it.base rhs.base with
    | .error e => .error e
    | .ok retval =>
      match it.m_owner_cptr.arrow with
      | .error e => .error e
      | .ok _ =>
        if ¬ (to_int32 (N : Int) ≥ retval) then .error .assert_failure
        else .ok retval

/-- The member `operator*`: `m_owner_cptr->at(m_index)` in the store `mem`. -/
def operator_star {T : Type} {N : Nat} (mem : Nat → msearray T N) (it : ss_const_iterator_type) :
    Except Exn T :=
  match it.points_to_an_item N with
  | .error e => .error e
  | .ok true =>
    match it.m_owner_cptr.arrow with
    | .error e => .error e
    | .ok a => (mem a).at it.m_index
  | .ok false => .error (.out_of_range .dereference)

/-- The member `item`. -/
def item {T : Type} {N : Nat} (mem : Nat → msearray T N) (it : ss_const_iterator_type) :
    Except Exn T := it.operator_star mem

/-- The member `previous_item`. -/
def previous_item {T : Type} {N : Nat} (mem : Nat → msearray T N) (it : ss_const_iterator_type) :
    Except Exn T :=
  if it.has_previous then
    match it.m_owner_cptr.arrow with
    | .error e => .error e
    | .ok a => (mem a).at (to_size_t ((it.m_index : Int) - 1))
  else .error (.out_of_range .previous_item)

/-- The member `operator==`. -/
def operator_eq (it _Right_cref : ss_const_iterator_type) : Bool :=
  decide (_Right_cref.m_index = it.m_index) && decide (_Right_cref.m_owner_cptr = it.m_owner_cptr)

/-- The member `operator!=`. -/
def operator_ne (it _Right_cref : ss_const_iterator_type) : Bool :=
  !(_Right_cref.operator_eq it)

/-- The member `operator<`. -/
def operator_lt (it _Right : ss_const_iterator_type) : Except Exn Bool :=
  if it.m_owner_cptr ≠ _Right.m_owner_cptr then .error (.out_of_range .less)
  else .ok (decide (it.m_index < _Right.m_index))

/-- The member `operator<=`: `((*this) < _Right) || (_Right == (*this))`. -/
def operator_le (it _Right : ss_const_iterator_type) : Except Exn Bool :=
  match it.operator_lt _Right with
  | .error e => .error e
  | .ok true => .ok true
  | .ok false => .ok (_Right.operator_eq it)

/-- The member `operator>`. -/
def operator_gt (it _Right : ss_const_iterator_type) : Except Exn Bool :=
  match it.operator_le _Right with
  | .error e => .error e
  | .ok b => .ok (!b)

/-- The member `operator>=`. -/
def operator_ge (it _Right : ss_const_iterator_type) : Except Exn Bool :=
  match it.operator_lt _Right with
  | .error e => .error e
  | .ok b => .ok (!b)

/-- The member `invalidate_inclusive_range`. -/
def invalidate_inclusive_range (N : Nat) (index_of_first index_of_last : Nat)
    (it : ss_const_iterator_type) : Except Exn Unit × ss_const_iterator_type :=
  if index_of_first ≤ it.m_index ∧ index_of_last ≥ it.m_index then it.reset N
  else (.ok (), it)

/-- The private member `sync_const_iterator_to_index`. -/
def sync_const_iterator_to_index (N : Nat) (it : ss_const_iterator_type) :
    Except Exn Unit × ss_const_iterator_type :=
  match it.m_owner_cptr.arrow with
  | .error e => (.error e, it)
  | .ok a =>
    if ¬ (N ≥ it.m_index) then (.error .assert_failure, it)
    else (.ok (), { it with base := native_add (native_begin a) (to_int64 it.m_index) })

/-- The member `shift_inclusive_range`: `m_index + shift` is formed in the
unsigned 64-bit type, so `new_index` is a `size_t` and `0 > new_index` is a
comparison of unsigned values. -/
def shift_inclusive_range (N : Nat) (index_of_first index_of_last : Nat) (shift : Int)
    (it : ss_const_iterator_type) : Except Exn Unit × ss_const_iterator_type :=
  if index_of_first ≤ it.m_index ∧ index_of_last ≥ it.m_index then
    let new_index : Nat := to_size_t ((it.m_index : Int) + shift)
    if 0 > new_index then (.error (.out_of_range .shift_inclusive_range), it)
    else
      match it.m_owner_cptr.arrow with
      | .error e => (.error e, it)
      | .ok _ =>
        if N < new_index then (.error (.out_of_range .shift_inclusive_range), it)
        else ({ it with m_index := new_index }).sync_const_iterator_to_index N
  else (.ok (), it)

end ss_const_iterator_type

/-- The member `msearray::ss_begin() const` of the container at address `this`. -/
def msearray.ss_begin_const (this : Nat) : Except Exn ss_const_iterator_type :=
  let retval : ss_const_iterator_type := {}
  let retval := { retval with m_owner_cptr := ⟨some this⟩ }
  match retval.set_to_beginning with
  | (.error e, _) => .error e
  | (.ok _, retval) => .ok retval

/-- The member `msearray::ss_cbegin()` of the container at address `this`. -/
def msearray.ss_cbegin (this : Nat) : Except Exn ss_const_iterator_type :=
  let retval : ss_const_iterator_type := {}
  let retval := { retval with m_owner_cptr := ⟨some this⟩ }
  match retval.set_to_beginning with
  | (.error e, _) => .error e
  | (.ok _, retval) => .ok retval

/-! ## front and back -/

/-- The member `front()`, mutable overload; `base_class::front()` is the first slot. -/
def msearray.front {T : Type} {N : Nat} (a : msearray T N) : Except Exn T :=
  if h : 0 = N then .error (.out_of_range .front)
  else .ok (a.elems ⟨0, Nat.pos_of_ne_zero (fun h0 => h h0.symm)⟩)

/-- The member `front() const`. -/
def msearray.front_const {T : Type} {N : Nat} (a : msearray T N) : Except Exn T :=
  if h : 0 = N then .error (.out_of_range .front)
  else .ok (a.elems ⟨0, Nat.pos_of_ne_zero (fun h0 => h h0.symm)⟩)

/-- The member `back()`, mutable overload; `base_class::back()` is the last slot. -/
def msearray.back {T : Type} {N : Nat} (a : msearray T N) : Except Exn T :=
  if h : 0 = N then .error (.out_of_range .back)
  else .ok (a.elems ⟨N - 1, Nat.sub_lt (Nat.pos_of_ne_zero (fun h0 => h h0.symm)) Nat.one_pos⟩)

/-- The member `back() const`. -/
def msearray.back_const {T : Type} {N : Nat} (a : msearray T N) : Except Exn T :=
  if h : 0 = N then .error (.out_of_range .back)
  else .ok (a.elems ⟨N - 1, Nat.sub_lt (Nat.pos_of_ne_zero (fun h0 => h h0.symm)) Nat.one_pos⟩)

/-! ## Conversion to the read-only iterator and the read-only end accessors -/

/-- The member `operator ss_const_iterator_type()` of the mutable iterator. The
test is `m_owner_ptr == nullptr`: the branch that rebuilds the iterator from
`m_owner_ptr->ss_cbegin()` runs when the owner is null. -/
def ss_iterator_type.operator_ss_const_iterator_type (N : Nat) (it : ss_iterator_type) :
    Except Exn ss_const_iterator_type :=
  let retval : ss_const_iterator_type := {}
  if it.m_owner_ptr.m_ptr = none then
    match it.m_owner_ptr.arrow with
    | .error e => .error e
    | .ok a =>
      match msearray.ss_cbegin a with
      | .error e => .error e
      | .ok r =>
        let retval := retval.assign r
        match retval.advance N (to_int64 (it.m_index : Int)) with
        | (.error e, _) => .error e
        | (.ok _, retval) => .ok retval
  else .ok retval

/-- The name `set_to_set_to_end_marker` that `ss_end() const` and `ss_cend()` call
on a read-only iterator, looked up in `ss_const_iterator_type`: the class
declares `set_to_end_marker` and no member of this name. -/
def ss_const_iterator_type.set_to_set_to_end_marker :
    Option (Nat → ss_const_iterator_type → Except Exn Unit × ss_const_iterator_type) :=
  none

/-- The member `msearray::ss_end() const` of the container of capacity `N` at
address `this`; `none` when the member its body calls does not exist, in which
case the function has no instantiation and a call of it does not compile. -/
def msearray.ss_end_const (N : Nat) (this : Nat) : Option (Except Exn ss_const_iterator_type) :=
  let retval : ss_const_iterator_type := {}
  let retval := { retval with m_owner_cptr := ⟨some this⟩ }
  match ss_const_iterator_type.set_to_set_to_end_marker with
  | none => none
  | some member =>
    match member N retval with
    | (.error e, _) => some (.error e)
    | (.ok _, retval) => some (.ok retval)

/-- The member `msearray::ss_cend()`, with the same body as `ss_end() const`. -/
def msearray.ss_cend (N : Nat) (this : Nat) : Option (Except Exn ss_const_iterator_type) :=
  let retval : ss_const_iterator_type := {}
  let retval := { retval with m_owner_cptr := ⟨some this⟩ }
  match ss_const_iterator_type.set_to_set_to_end_marker with
  | none => none
  | some member =>
    match member N retval with
    | (.error e, _) => some (.error e)
    | (.ok _, retval) => some (.ok retval)

/-! ## Iterators over a container -/

/-- The iterator `it` is bound to the container of capacity `N` at address `this`
and its position is in `[0, N]`. -/
def ss_iterator_type.over (N this : Nat) (it : ss_iterator_type) : Prop :=
  it.m_owner_ptr = ⟨some this⟩ ∧ it.m_index ≤ N

/-- The read-only iterator `it` is bound to the container of capacity `N` at
address `this` and its position is in `[0, N]`. -/
def ss_const_iterator_type.over (N this : Nat) (it : ss_const_iterator_type) : Prop :=
  it.m_owner_cptr = ⟨some this⟩ ∧ it.m_index ≤ N

/-! ## Call sequences on the two iterator classes -/

/-- A call of one of the navigation members or notification hooks both iterator
classes have, with its arguments. -/
inductive Call where
  | set_to_beginning
  | set_to_end_marker
  | set_to_next
  | set_to_previous
  | advance (n : Int)
  | regress (n : Int)
  | invalidate_inclusive_range (index_of_first index_of_last : Nat)
  | shift_inclusive_range (index_of_first index_of_last : Nat) (shift : Int)

/-- One call of the navigation members and notification hooks, on the iterator `it`. -/
def ss_iterator_type.call (N : Nat) (c : Call) (it : ss_iterator_type) :
    Except Exn Unit × ss_iterator_type :=
  match c with
  | .set_to_beginning => it.set_to_beginning
  | .set_to_end_marker => it.set_to_end_marker N
  | .set_to_next => it.set_to_next N
  | .set_to_previous => it.set_to_previous
  | .advance n => it.advance N n
  | .regress n => it.regress N n
  | .invalidate_inclusive_range index_of_first index_of_last =>
    it.invalidate_inclusive_range N index_of_first index_of_last
  | .shift_inclusive_range index_of_first index_of_last shift =>
    it.shift_inclusive_range N index_of_first index_of_last shift

/-- What a caller reads off the iterator: `position()`, `points_to_an_item()` and
`points_to_end_marker()`. -/
def ss_iterator_type.observe (N : Nat) (it : ss_iterator_type) :
    Nat × Except Exn Bool × Except Exn Bool :=
  (it.position, it.points_to_an_item N, it.points_to_end_marker N)

/-- The calls of `calls` made one after the other on `it`: for each call, whether
it returned or threw, and what the caller reads off the iterator after it. -/
def ss_iterator_type.trace (N : Nat) :
    List Call → ss_iterator_type → List (Except Exn Unit × Nat × Except Exn Bool × Except Exn Bool)
  | [], _ => []
  | c :: calls, it =>
    ((it.call N c).1, (it.call N c).2.observe N) :: trace N calls (it.call N c).2

/-- One call of the navigation members and notification hooks, on the iterator `it`. -/
def ss_const_iterator_type.call (N : Nat) (c : Call) (it : ss_const_iterator_type) :
    Except Exn Unit × ss_const_iterator_type :=
  match c with
  | .set_to_beginning => it.set_to_beginning
  | .set_to_end_marker => it.set_to_end_marker N
  | .set_to_next => it.set_to_next N
  | .set_to_previous => it.set_to_previous
  | .advance n => it.advance N n
  | .regress n => it.regress N n
  | .invalidate_inclusive_range index_of_first index_of_last =>
    it.invalidate_inclusive_range N index_of_first index_of_last
  | .shift_inclusive_range index_of_first index_of_last shift =>
    it.shift_inclusive_range N index_of_first index_of_last shift

/-- What a caller reads off the iterator: `position()`, `points_to_an_item()` and
`points_to_end_marker()`. -/
def ss_const_iterator_type.observe (N : Nat) (it : ss_const_iterator_type) :
    Nat × Except Exn Bool × Except Exn Bool :=
  (it.position, it.points_to_an_item N, it.points_to_end_marker N)

/-- The calls of `calls` made one after the other on `it`: for each call, whether
it returned or threw, and what the caller reads off the iterator after it. -/
def ss_const_iterator_type.trace (N : Nat) :
    List Call → ss_const_iterator_type → List (Except Exn Unit × Nat × Except Exn Bool × Except Exn Bool)
  | [], _ => []
  | c :: calls, it =>
    ((it.call N c).1, (it.call N c).2.observe N) :: trace N calls (it.call N c).2

/-! ## Reachable iterator states -/

/-- The states of a mutable iterator over containers of capacity `N` that a
program can reach: it starts from `ss_begin()` or `ss_end()` of a container and
goes through any sequence of calls, each leaving the iterator in the state the
call ends in, whether it returns or throws; the right-hand side of an assignment
is itself such an iterator. -/
inductive ss_iterator_type.reachable (N : Nat) : ss_iterator_type → Prop
  | ss_begin (this : Nat) (it : ss_iterator_type) :
      msearray.ss_begin this = .ok it → reachable N it
  | ss_end (this : Nat) (it : ss_iterator_type) :
      msearray.ss_end N this = .ok it → reachable N it
  | set_to_beginning (it : ss_iterator_type) :
      reachable N it → reachable N (it.set_to_beginning).2
  | set_to_end_marker (it : ss_iterator_type) :
      reachable N it → reachable N (it.set_to_end_marker N).2
  | set_to_next (it : ss_iterator_type) :
      reachable N it → reachable N (it.set_to_next N).2
  | set_to_previous (it : ss_iterator_type) :
      reachable N it → reachable N (it.set_to_previous).2
  | advance (n : Int) (it : ss_iterator_type) :
      reachable N it → reachable N (it.advance N n).2
  | regress (n : Int) (it : ss_iterator_type) :
      reachable N it → reachable N (it.regress N n).2
  | invalidate_inclusive_range (index_of_first index_of_last : Nat) (it : ss_iterator_type) :
      reachable N it → reachable N (it.invalidate_inclusive_range N index_of_first index_of_last).2
  | shift_inclusive_range (index_of_first index_of_last : Nat) (shift : Int)
      (it : ss_iterator_type) :
      reachable N it →
        reachable N (it.shift_inclusive_range N index_of_first index_of_last shift).2
  | assign (it _Right_cref : ss_iterator_type) :
      reachable N it → reachable N _Right_cref → reachable N (it.assign _Right_cref)

/-! ## Sequences of calls -/

/-- The iterator after `k` successive calls of the member `f`, with the result of
the last one; the sequence stops at the first call that fails. -/
def call_times {σ : Type} (f : σ → Except Exn Unit × σ) : Nat → σ → Except Exn Unit × σ
  | 0, s => (.ok (), s)
  | k + 1, s =>
    match call_times f k s with
    | (.ok _, s1) => f s1
    | (.error e, s1) => (.error e, s1)

/-! ## mseprimitives.h: integer types and the range check

The checked scalars are modelled with `MSE_PRIMITIVES_DISABLED` undefined, on an
LP64 target (`MSE_CINT_BASE_INTEGER_TYPE` is `long int`). The parameter `check`
says whether `MSE_CHECK_USE_BEFORE_SET` is defined (the debug configuration);
without it the member `m_initialized` does not exist, and the model leaves the
field alone. -/

/-- A standard integer type as `std::numeric_limits` describes it: `is_signed`
and `digits`, the number of value bits. -/
structure IntType where
  is_signed : Bool
  digits : Nat
  deriving DecidableEq, Repr

namespace IntType

/-- The type `char`, signed on this target. -/
def char : IntType := ⟨true, 7⟩

/-- The type `short`. -/
def short : IntType := ⟨true, 15⟩

/-- The type `int`. -/
def int : IntType := ⟨true, 31⟩

/-- The type `long`. -/
def long : IntType := ⟨true, 63⟩

/-- The type `long long`. -/
def long_long : IntType := ⟨true, 63⟩

/-- The type `size_t`. -/
def size_t : IntType := ⟨false, 64⟩

/-- The value `std::numeric_limits<T>::max()`. -/
def max (t : IntType) : Int := 2 ^ t.digits - 1

/-- The value `std::numeric_limits<T>::lowest()`. -/
def lowest (t : IntType) : Int := if t.is_signed then -(2 ^ t.digits) else 0

/-- Conversion of an integer value to the type (`T(x)`, `static_cast<T>(x)`):
the value modulo `2 ^ width` that the type represents. -/
def cast (t : IntType) (z : Int) : Int :=
  if t.is_signed then (z + 2 ^ t.digits) % 2 ^ (t.digits + 1) - 2 ^ t.digits
  else z % 2 ^ t.digits

end IntType

/-- The function template `sg_can_exceed_upper_bound<_TDestination, _TSource>()`. -/
def sg_can_exceed_upper_bound (_TDestination _TSource : IntType) : Bool :=
  ((_TSource.is_signed == _TDestination.is_signed)
      && decide (_TSource.digits > _TDestination.digits))
    || ((_TSource.is_signed != _TDestination.is_signed)
      && ((_TSource.is_signed && decide (_TSource.digits > 1 + _TDestination.digits))
        || ((!_TSource.is_signed) && decide (1 + _TSource.digits > _TDestination.digits))))

/-- The function template `sg_can_exceed_lower_bound<_TDestination, _TSource>()`. -/
def sg_can_exceed_lower_bound (_TDestination _TSource : IntType) : Bool :=
  (_TSource.is_signed && (!_TDestination.is_signed))
    || (_TSource.is_signed && decide (_TSource.digits > _TDestination.digits))

/-- The function template `g_assign_check_range<_TDestination, _TSource>(x)`, for a
value `x` of the type `_TSource`. Both comparisons with a bound are made in
`_TSource`, to which the bound is converted. -/
def g_assign_check_range (_TDestination _TSource : IntType) (x : Int) : Except Exn Unit :=
  let rhs_can_exceed_upper_bound := sg_can_exceed_upper_bound _TDestination _TSource
  let rhs_can_exceed_lower_bound := sg_can_exceed_lower_bound _TDestination _TSource
  let can_exceed_bounds := rhs_can_exceed_upper_bound || rhs_can_exceed_lower_bound
  if can_exceed_bounds then
    if rhs_can_exceed_upper_bound ∧ x > _TSource.cast _TDestination.max then
      .error (.out_of_range .range_check)
    else if rhs_can_exceed_lower_bound then
      if 0 > x then
        if 0 = _TDestination.lowest then .error (.out_of_range .range_check)
        else if x < _TSource.cast _TDestination.lowest then .error (.out_of_range .range_check)
        else .ok ()
      else .ok ()
    else .ok ()
  else .ok ()

/-! ## TIntBase1, CInt and CSize_t -/

/-- The class template `TIntBase1<_Ty>`: `m_val` and, in the debug configuration,
`m_initialized`; the default constructor gives `m_val(0)`. -/
structure TIntBase1 where
  m_val : Int := 0
  m_initialized : Bool := false
  deriving DecidableEq, Repr

namespace TIntBase1

/-- The member `note_value_assignment`. -/
def note_value_assignment (check : Bool) (self : TIntBase1) : TIntBase1 :=
  if check then { self with m_initialized := true } else self

/-- The member `assert_initialized`. -/
def assert_initialized (check : Bool) (self : TIntBase1) : Except Exn Unit :=
  if check then
    if self.m_initialized then .ok () else .error .assert_failure
  else .ok ()

/-- The copy constructor `TIntBase1(const TIntBase1 &x)`. -/
def copy (check : Bool) (x : TIntBase1) : TIntBase1 :=
  ({ m_val := x.m_val } : TIntBase1).note_value_assignment check

/-- The member template `assign_check_range<_Tz>(x)` of `TIntBase1<_Ty>`: the
assignment is noted before the range is checked. -/
def assign_check_range (check : Bool) (_Ty _Tz : IntType) (x : Int) (self : TIntBase1) :
    Except Exn Unit × TIntBase1 :=
  let self1 := self.note_value_assignment check
  (g_assign_check_range _Ty _Tz x, self1)

end TIntBase1

/-- The class `CInt`, a `TIntBase1<long int>`. -/
structure CInt extends TIntBase1
  deriving DecidableEq, Repr

namespace CInt

/-- The base integer type `_Ty` of `CInt`. -/
def _Ty : IntType := IntType.long

/-- The copy constructor `CInt(const CInt &x)`, which a by-value parameter runs when
the argument is an lvalue. -/
def copy (check : Bool) (x : CInt) : CInt := ⟨TIntBase1.copy check x.toTIntBase1⟩

/-- The constructors `CInt(long long)`, `CInt(long)`, `CInt(int)`, `CInt(short)`,
`CInt(char)` and `CInt(size_t)`, for the argument type `_Tz`. -/
def from_native (check : Bool) (_Tz : IntType) (x : Int) : Except Exn CInt :=
  let self : CInt := {}
  match self.toTIntBase1.assign_check_range check _Ty _Tz x with
  | (.error e, _) => .error e
  | (.ok _, base) => .ok ⟨{ base with m_val := _Ty.cast x }⟩

/-- The conversion `operator _Ty()`. -/
def operator_Ty (check : Bool) (self : CInt) : Except Exn Int :=
  match self.toTIntBase1.assert_initialized check with
  | .error e => .error e
  | .ok _ => .ok self.m_val

end CInt

/-- The class `CSize_t`, a `TIntBase1<size_t>`. -/
structure CSize_t extends TIntBase1
  deriving DecidableEq, Repr

namespace CSize_t

/-- The base integer type `_Ty` of `CSize_t`. -/
def _Ty : IntType := IntType.size_t

/-- The copy constructor `CSize_t(const CSize_t &x)`, which a by-value parameter runs
when the argument is an lvalue. -/
def copy (check : Bool) (x : CSize_t) : CSize_t := ⟨TIntBase1.copy check x.toTIntBase1⟩

/-- The constructors `CSize_t(long long)`, `CSize_t(long)`, `CSize_t(int)`,
`CSize_t(short)`, `CSize_t(char)` and `CSize_t(size_t)`, for the argument type `_Tz`. -/
def from_native (check : Bool) (_Tz : IntType) (x : Int) : Except Exn CSize_t :=
  let self : CSize_t := {}
  match self.toTIntBase1.assign_check_range check _Ty _Tz x with
  | (.error e, _) => .error e
  | (.ok _, base) => .ok ⟨{ base with m_val := _Ty.cast x }⟩

/-- The constructor `CSize_t(CInt x)`, on its parameter object `x`: a call with an
lvalue argument `a` copy-constructs the parameter, `from_CInt check (CInt.copy check a)`,
and a call with a temporary constructs the parameter in place, so that `x` is the
temporary itself. `x` is converted to `long` for the range check and again for
the `static_cast`. -/
def from_CInt (check : Bool) (x : CInt) : Except Exn CSize_t :=
  let self : CSize_t := {}
  match x.operator_Ty check with
  | .error e => .error e
  | .ok v =>
    match self.toTIntBase1.assign_check_range check _Ty CInt._Ty v with
    | (.error e, _) => .error e
    | (.ok _, base) =>
      match x.operator_Ty check with
      | .error e => .error e
      | .ok w => .ok ⟨{ base with m_val := _Ty.cast w }⟩

/-- The assignment operators `operator=(long long)`, `operator=(long)`,
`operator=(int)`, `operator=(short)`, `operator=(char)` and `operator=(size_t)`,
for the argument type `_Tz`. -/
def assign_native (check : Bool) (_Tz : IntType) (x : Int) (self : CSize_t) :
    Except Exn Unit × CSize_t :=
  match self.toTIntBase1.assign_check_range check _Ty _Tz x with
  | (.error e, base) => (.error e, ⟨base⟩)
  | (.ok _, base) => (.ok (), ⟨{ base with m_val := _Ty.cast x }⟩)

/-- The assignment operator `operator=(CInt x)`, on its parameter object `x`: a
call with an lvalue argument `a` copy-constructs the parameter,
`assign_CInt check (CInt.copy check a)`, and a call with a temporary constructs
it in place. -/
def assign_CInt (check : Bool) (x : CInt) (self : CSize_t) : Except Exn Unit × CSize_t :=
  match x.operator_Ty check with
  | .error e => (.error e, self)
  | .ok v =>
    match self.toTIntBase1.assign_check_range check _Ty CInt._Ty v with
    | (.error e, base) => (.error e, ⟨base⟩)
    | (.ok _, base) =>
      match x.operator_Ty check with
      | .error e => (.error e, ⟨base⟩)
      | .ok w => (.ok (), ⟨{ base with m_val := _Ty.cast w }⟩)

/-- The conversion `explicit operator size_t()`. -/
def operator_size_t (check : Bool) (self : CSize_t) : Except Exn Int :=
  match self.toTIntBase1.assert_initialized check with
  | .error e => .error e
  | .ok _ => .ok self.m_val

end CSize_t

/-- The function `as_a_size_t(CSize_t n)`, on its parameter object `n`: a call
with an lvalue argument `a` copy-constructs the parameter,
`as_a_size_t check (CSize_t.copy check a)`, and a call with a temporary
constructs it in place. -/
def as_a_size_t (check : Bool) (n : CSize_t) : Except Exn Int :=
  match n.toTIntBase1.assert_initialized check with
  | .error e => .error e
  | .ok _ => .ok n.m_val

/-! ## CBool -/

/-- The class `CBool`: `m_val` and, in the debug configuration, `m_initialized`;
the default constructor gives `m_val(false)`. -/
structure CBool where
  m_val : Bool := false
  m_initialized : Bool := false
  deriving DecidableEq, Repr

namespace CBool

/-- The member `note_value_assignment`. -/
def note_value_assignment (check : Bool) (self : CBool) : CBool :=
  if check then { self with m_initialized := true } else self

/-- The member `assert_initialized`. -/
def assert_initialized (check : Bool) (self : CBool) : Except Exn Unit :=
  if check then
    if self.m_initialized then .ok () else .error .assert_failure
  else .ok ()

/-- The copy constructor `CBool(const CBool &x)`. -/
def copy (check : Bool) (x : CBool) : CBool :=
  ({ m_val := x.m_val } : CBool).note_value_assignment check

/-- The assignment operator `operator=(const CBool &x)`. -/
def assign (check : Bool) (self : CBool) (x : CBool) : CBool :=
  let self1 := self.note_value_assignment check
  { self1 with m_val := x.m_val }

/-- The conversion `operator bool()`. -/
def operator_bool (check : Bool) (self : CBool) : Except Exn Bool :=
  match self.assert_initialized check with
  | .error e => .error e
  | .ok _ => .ok self.m_val

end CBool

/-! ## Operators of CInt and CSize_t -/

/-- The six comparison operators `<`, `>`, `<=`, `>=`, `==`, `!=`, which every
family of comparison overloads defines with one body each. -/
inductive Cmp where
  | lt
  | gt
  | le
  | ge
  | eq
  | ne
  deriving DecidableEq, Repr

/-- The built-in comparison of two integer values of one type. -/
def Cmp.eval : Cmp → Int → Int → Bool
  | .lt, a, b => decide (a < b)
  | .gt, a, b => decide (a > b)
  | .le, a, b => decide (a ≤ b)
  | .ge, a, b => decide (a ≥ b)
  | .eq, a, b => decide (a = b)
  | .ne, a, b => decide (a ≠ b)

namespace CInt

/-- The assignment operator `operator=(const CInt &x)`. -/
def assign (check : Bool) (self : CInt) (x : CInt) : CInt :=
  let base := self.toTIntBase1.note_value_assignment check
  ⟨{ base with m_val := x.m_val }⟩

/-- The assignment operators `operator=(long long)`, `operator=(long)`,
`operator=(int)`, `operator=(short)`, `operator=(char)` and `operator=(size_t)`,
for the argument type `_Tz`. -/
def assign_native (check : Bool) (_Tz : IntType) (x : Int) (self : CInt) :
    Except Exn Unit × CInt :=
  match self.toTIntBase1.assign_check_range check _Ty _Tz x with
  | (.error e, base) => (.error e, ⟨base⟩)
  | (.ok _, base) => (.ok (), ⟨{ base with m_val := _Ty.cast x }⟩)

/-- The members `operator<(const CInt &x)`, `operator>`, `operator<=`, `operator>=`,
`operator==` and `operator!=`: `assert_initialized(); return (m_val OP x.m_val);`. -/
def compare (check : Bool) (op : Cmp) (self : CInt) (x : CInt) : Except Exn Bool :=
  match self.toTIntBase1.assert_initialized check with
  | .error e => .error e
  | .ok _ => .ok (op.eval self.m_val x.m_val)

/-- The members `operator OP(_Tz x)` for a native `_Tz` (`long long`, `long`, `int`,
`short`, `char`, `size_t`): `assert_initialized(); return ((*this) OP CInt(x));`. -/
def compare_native (check : Bool) (op : Cmp) (self : CInt) (_Tz : IntType) (x : Int) :
    Except Exn Bool :=
  match self.toTIntBase1.assert_initialized check with
  | .error e => .error e
  | .ok _ =>
    match from_native check _Tz x with
    | .error e => .error e
    | .ok c => self.compare check op c

/-- The member `operator+(const CInt &x)`: the sum is formed in `_Ty` and passed
to the constructor `CInt(long)`. -/
def operator_plus (check : Bool) (self : CInt) (x : CInt) : Except Exn CInt :=
  match self.toTIntBase1.assert_initialized check with
  | .error e => .error e
  | .ok _ => from_native check _Ty (_Ty.cast (self.m_val + x.m_val))

/-- The member `operator-(const CInt &x)`. -/
def operator_minus (check : Bool) (self : CInt) (x : CInt) : Except Exn CInt :=
  match self.toTIntBase1.assert_initialized check with
  | .error e => .error e
  | .ok _ => from_native check _Ty (_Ty.cast (self.m_val - x.m_val))

/-- The members `operator-(_Tz x)` for a native `_Tz`:
`assert_initialized(); return ((*this) - CInt(x));`. -/
def operator_minus_native (check : Bool) (self : CInt) (_Tz : IntType) (x : Int) :
    Except Exn CInt :=
  match self.toTIntBase1.assert_initialized check with
  | .error e => .error e
  | .ok _ =>
    match from_native check _Tz x with
    | .error e => .error e
    | .ok c => self.operator_minus check c

/-- The member `operator+=(const CInt &x)`. -/
def operator_plus_assign (check : Bool) (self : CInt) (x : CInt) : Except Exn Unit × CInt :=
  match self.toTIntBase1.assert_initialized check with
  | .error e => (.error e, self)
  | .ok _ => (.ok (), ⟨{ self.toTIntBase1 with m_val := _Ty.cast (self.m_val + x.m_val) }⟩)

/-- The member `operator-=(const CInt &x)`; the `assert_initialized()` calls inside
the branches repeat the first one. -/
def operator_minus_assign (check : Bool) (self : CInt) (x : CInt) : Except Exn Unit × CInt :=
  match self.toTIntBase1.assert_initialized check with
  | .error e => (.error e, self)
  | .ok _ =>
    if 0 ≤ _Ty.lowest ∧ x.m_val > self.m_val then
      (.error (.out_of_range .range_check), self)
    else (.ok (), ⟨{ self.toTIntBase1 with m_val := _Ty.cast (self.m_val - x.m_val) }⟩)

end CInt

namespace CSize_t

/-- The assignment operator `operator=(const CSize_t &x)`: `m_val = x.m_val;`. -/
def assign (self : CSize_t) (x : CSize_t) : CSize_t :=
  ⟨{ self.toTIntBase1 with m_val := x.m_val }⟩

/-- The members `operator<(const CSize_t &x)`, `operator>`, `operator<=`,
`operator>=`, `operator==` and `operator!=`:
`assert_initialized(); return (m_val OP x.m_val);`. -/
def compare (check : Bool) (op : Cmp) (self : CSize_t) (x : CSize_t) : Except Exn Bool :=
  match self.toTIntBase1.assert_initialized check with
  | .error e => .error e
  | .ok _ => .ok (op.eval self.m_val x.m_val)

/-- The members `operator OP(const CInt &x)`:
`assert_initialized(); return (CInt(m_val) OP x);`, with the constructor `CInt(size_t)`. -/
def compare_CInt (check : Bool) (op : Cmp) (self : CSize_t) (x : CInt) : Except Exn Bool :=
  match self.toTIntBase1.assert_initialized check with
  | .error e => .error e
  | .ok _ =>
    match CInt.from_native check IntType.size_t self.m_val with
    | .error e => .error e
    | .ok c => c.compare check op x

/-- The members `operator OP(_Tz x)` for a native signed `_Tz` (`long long`, `long`,
`int`, `short`, `char`): `assert_initialized(); return ((*this) OP CInt(x));`. -/
def compare_native (check : Bool) (op : Cmp) (self : CSize_t) (_Tz : IntType) (x : Int) :
    Except Exn Bool :=
  match self.toTIntBase1.assert_initialized check with
  | .error e => .error e
  | .ok _ =>
    match CInt.from_native check _Tz x with
    | .error e => .error e
    | .ok c => self.compare_CInt check op c

/-- The member `operator+(const CSize_t &x)`: the sum is formed in `size_t` and
converted to the result by the constructor `CSize_t(size_t)`. -/
def operator_plus (check : Bool) (self : CSize_t) (x : CSize_t) : Except Exn CSize_t :=
  match self.toTIntBase1.assert_initialized check with
  | .error e => .error e
  | .ok _ => from_native check _Ty (_Ty.cast (self.m_val + x.m_val))

/-- The member `operator-(const CSize_t &x)`:
`assert_initialized(); return (CInt(m_val) - CInt(x.m_val));`. -/
def operator_minus (check : Bool) (self : CSize_t) (x : CSize_t) : Except Exn CInt :=
  match self.toTIntBase1.assert_initialized check with
  | .error e => .error e
  | .ok _ =>
    match CInt.from_native check IntType.size_t self.m_val with
    | .error e => .error e
    | .ok a =>
      match CInt.from_native check IntType.size_t x.m_val with
      | .error e => .error e
      | .ok b => a.operator_minus check b

/-- The member `operator+=(const CSize_t &x)`. -/
def operator_plus_assign (check : Bool) (self : CSize_t) (x : CSize_t) :
    Except Exn Unit × CSize_t :=
  match self.toTIntBase1.assert_initialized check with
  | .error e => (.error e, self)
  | .ok _ => (.ok (), ⟨{ self.toTIntBase1 with m_val := _Ty.cast (self.m_val + x.m_val) }⟩)

/-- The member `operator-=(const CSize_t &x)`; the `assert_initialized()` calls
inside the branches repeat the first one. -/
def operator_minus_assign (check : Bool) (self : CSize_t) (x : CSize_t) :
    Except Exn Unit × CSize_t :=
  match self.toTIntBase1.assert_initialized check with
  | .error e => (.error e, self)
  | .ok _ =>
    if 0 ≤ _Ty.lowest ∧ x.m_val > self.m_val then
      (.error (.out_of_range .range_check), self)
    else (.ok (), ⟨{ self.toTIntBase1 with m_val := _Ty.cast (self.m_val - x.m_val) }⟩)

end CSize_t

/-- The free functions `operator OP(int lhs, const CSize_t &rhs)` and
`operator OP(long long lhs, const CSize_t &rhs)`, for the left type `_Tz`:
`rhs.assert_initialized(); return CInt(lhs) OP as_a_size_t(rhs);`, where the
lvalue `rhs` is copied into the parameter of `as_a_size_t`. -/
def compare_native_CSize_t (check : Bool) (op : Cmp) (_Tz : IntType) (lhs : Int)
    (rhs : CSize_t) : Except Exn Bool :=
  match rhs.toTIntBase1.assert_initialized check with
  | .error e => .error e
  | .ok _ =>
    match CInt.from_native check _Tz lhs with
    | .error e => .error e
    | .ok c =>
      match as_a_size_t check (CSize_t.copy check rhs) with
      | .error e => .error e
      | .ok v => c.compare_native check op IntType.size_t v

/-- The copy-initialization `CSize_t s = x;` from a value `x` of a native integer
type. The constructors from `long long`, `long`, `int`, `short` and `char` are
`explicit` and so are no candidates, and `CSize_t(CInt)` would need a second
user-defined conversion: overload resolution is left with `CSize_t(size_t)`, for
which `x` is converted to `size_t`. -/
def CSize_t.copy_initialize (check : Bool) (x : Int) : Except Exn CSize_t :=
  CSize_t.from_native check IntType.size_t (IntType.size_t.cast x)

/-- The native signed integer types by name: overload resolution tells `long` from
`long long`, which have one representation on this target. -/
inductive SignedNative where
  | char
  | short
  | int
  | long
  | long_long
  deriving DecidableEq, Repr

/-- The representation of a native signed type. -/
def SignedNative.type : SignedNative → IntType
  | .char => IntType.char
  | .short => IntType.short
  | .int => IntType.int
  | .long => IntType.long
  | .long_long => IntType.long_long

/-- Overload resolution for `lhs OP rhs`, a comparison with `lhs` of a native
signed type and `rhs` a `CSize_t`: the left parameter type of the free function
selected. The free functions that take a `CSize_t` on the right are declared for
`size_t`, `int` and `long long` on the left (and for `const CInt &`, which needs
a user-defined conversion). An `int` or `long long` operand is an exact match;
`char` and `short` go to `int` by integral promotion; for `long` each of the
three needs an integral conversion, none is better than the others, and the call
is ambiguous: the expression is ill-formed and has no function to call. -/
def free_compare_overload : SignedNative → Option IntType
  | .char => some IntType.int
  | .short => some IntType.int
  | .int => some IntType.int
  | .long => none
  | .long_long => some IntType.long_long

/-- The expression `lhs OP rhs` for `lhs` of the native signed type `T` and `rhs`
a `CSize_t`: `none` when overload resolution selects no function. -/
def compare_signed_native_CSize_t (check : Bool) (op : Cmp) (T : SignedNative) (lhs : Int)
    (rhs : CSize_t) : Option (Except Exn Bool) :=
  match free_compare_overload T with
  | none => none
  | some _Tz => some (compare_native_CSize_t check op _Tz lhs rhs)

/-! ## Multiplication and decrement of CSize_t -/

namespace CSize_t

/-- The member `operator*(const CSize_t &x)`: the product is formed in `size_t` and
converted to the result by the constructor `CSize_t(size_t)`. -/
def operator_multiply (check : Bool) (self : CSize_t) (x : CSize_t) : Except Exn CSize_t :=
  match self.toTIntBase1.assert_initialized check with
  | .error e => .error e
  | .ok _ => from_native check _Ty (_Ty.cast (self.m_val * x.m_val))

/-- The member `operator-(const CInt &x)`:
`assert_initialized(); return (CInt(m_val) - x);`, with the constructor `CInt(size_t)`. -/
def operator_minus_CInt (check : Bool) (self : CSize_t) (x : CInt) : Except Exn CInt :=
  match self.toTIntBase1.assert_initialized check with
  | .error e => .error e
  | .ok _ =>
    match CInt.from_native check IntType.size_t self.m_val with
    | .error e => .error e
    | .ok c => c.operator_minus check x

/-- The members `operator-(_Tz x)` for a native signed `_Tz` (`long long`, `long`,
`int`, `short`, `char`): `assert_initialized(); return ((*this) - CInt(x));`. -/
def operator_minus_native (check : Bool) (self : CSize_t) (_Tz : IntType) (x : Int) :
    Except Exn CInt :=
  match self.toTIntBase1.assert_initialized check with
  | .error e => .error e
  | .ok _ =>
    match CInt.from_native check _Tz x with
    | .error e => .error e
    | .ok c => self.operator_minus_CInt check c

/-- The prefix `operator--`: as `size_t` has `lowest() == 0`, the first branch runs,
`(*this) = (*this) - 1;` with `operator-(int)` and then `operator=(CInt)`, whose
parameter is the temporary that `(*this) - 1` returns. -/
def operator_decrement (check : Bool) (self : CSize_t) : Except Exn Unit × CSize_t :=
  match self.toTIntBase1.assert_initialized check with
  | .error e => (.error e, self)
  | .ok _ =>
    if 0 ≤ _Ty.lowest then
      match self.operator_minus_native check IntType.int 1 with
      | .error e => (.error e, self)
      | .ok d => self.assign_CInt check d
    else (.ok (), ⟨{ self.toTIntBase1 with m_val := _Ty.cast (self.m_val - 1) }⟩)

/-- The postfix `operator--(int)`: `CSize_t tmp(*this); operator--(); return tmp;`. -/
def operator_post_decrement (check : Bool) (self : CSize_t) : Except Exn CSize_t × CSize_t :=
  match self.toTIntBase1.assert_initialized check with
  | .error e => (.error e, self)
  | .ok _ =>
    let tmp := CSize_t.copy check self
    match self.operator_decrement check with
    | (.error e, self1) => (.error e, self1)
    | (.ok _, self1) => (.ok tmp, self1)

end CSize_t

/-! ## Default construction of the checked scalars -/

/-- The default constructor `TIntBase1() : m_val(0) {}`; `m_initialized` has its
default member initializer. -/
def TIntBase1.ctor : TIntBase1 := { m_val := 0 }

/-- The default constructor `CInt() : _Myt() {}`. -/
def CInt.ctor : CInt := ⟨TIntBase1.ctor⟩

/-- The default constructor `CSize_t() : _Myt() {}`. -/
def CSize_t.ctor : CSize_t := ⟨TIntBase1.ctor⟩

/-- The default constructor `CBool() : m_val(false) {}`. -/
def CBool.ctor : CBool := { m_val := false }

/-! ## The standard integer types -/

/-- The standard integer type of the given signedness and width in bits, in two's
complement: a signed type has one value bit less than its width. -/
def IntType.of_width (is_signed : Bool) (bits : Nat) : IntType :=
  ⟨is_signed, if is_signed then bits - 1 else bits⟩

/-! ## TSaferPtr and TSaferPtrForLegacy

The two pointer wrappers of `mseprimitives.h`, with `MSE_SAFERPTR_DISABLED`,
`MSE_DISABLE_TSAFERPTR_CHECKS` and `MSE_DISABLE_TSAFERPTRFORLEGACY_CHECKS`
undefined. The parameter `check` says whether `MSE_TSAFERPTR_CHECK_USE_BEFORE_SET`
is defined (it is unless `NDEBUG` is); both classes use this one macro. -/

/-- The class template `TSaferPtr<_Ty>`: `m_ptr` is `none` for `nullptr`, else the
address; `m_initialized` has its default member initializer. -/
structure TSaferPtr where
  m_ptr : Option Nat := none
  m_initialized : Bool := false
  deriving DecidableEq, Repr

namespace TSaferPtr

/-- The member `note_value_assignment`. -/
def note_value_assignment (check : Bool) (self : TSaferPtr) : TSaferPtr :=
  if check then { self with m_initialized := true } else self

/-- The member `assert_initialized`. -/
def assert_initialized (check : Bool) (self : TSaferPtr) : Except Exn Unit :=
  if check then
    if self.m_initialized then .ok () else .error .assert_failure
  else .ok ()

/-- The default constructor `TSaferPtr() : m_ptr(nullptr) {}`. -/
def ctor : TSaferPtr := { m_ptr := none }

/-- The constructor `TSaferPtr(_Ty* ptr)`. -/
def from_ptr (check : Bool) (ptr : Option Nat) : TSaferPtr :=
  ({ m_ptr := ptr } : TSaferPtr).note_value_assignment check

/-- The copy constructor `TSaferPtr(const TSaferPtr<_Ty>& src)`. -/
def copy (check : Bool) (src : TSaferPtr) : TSaferPtr :=
  ({ m_ptr := src.m_ptr } : TSaferPtr).note_value_assignment check

/-- The member `raw_pointer(_Ty* ptr)`. -/
def set_raw_pointer (check : Bool) (self : TSaferPtr) (ptr : Option Nat) : TSaferPtr :=
  let self1 := self.note_value_assignment check
  { self1 with m_ptr := ptr }

/-- The members `raw_pointer() const` and `get() const`. -/
def get (self : TSaferPtr) : Option Nat := self.m_ptr

/-- The member `operator*`: the referent in the store `mem`. -/
def deref {α : Type} (check : Bool) (mem : Nat → α) (self : TSaferPtr) : Except Exn α :=
  match self.assert_initialized check with
  | .error e => .error e
  | .ok _ =>
    match self.m_ptr with
    | none => .error (.out_of_range .safer_ptr_null_deref)
    | some a => .ok (mem a)

/-- The member `operator->`: the held address. -/
def arrow (check : Bool) (self : TSaferPtr) : Except Exn Nat :=
  match self.assert_initialized check with
  | .error e => .error e
  | .ok _ =>
    match self.m_ptr with
    | none => .error (.out_of_range .safer_ptr_null_deref)
    | some a => .ok a

/-- The assignment operator `operator=(_Ty* ptr)`. -/
def assign_ptr (check : Bool) (self : TSaferPtr) (ptr : Option Nat) : TSaferPtr :=
  let self1 := self.note_value_assignment check
  { self1 with m_ptr := ptr }

/-- The assignment operator `operator=(const TSaferPtr<_Ty>& _Right_cref)`. -/
def assign (check : Bool) (self : TSaferPtr) (_Right_cref : TSaferPtr) : TSaferPtr :=
  let self1 := self.note_value_assignment check
  { self1 with m_ptr := _Right_cref.m_ptr }

end TSaferPtr

/-- The class template `TSaferPtrForLegacy<_Ty>`, with the same members. -/
structure TSaferPtrForLegacy where
  m_ptr : Option Nat := none
  m_initialized : Bool := false
  deriving DecidableEq, Repr

namespace TSaferPtrForLegacy

/-- The member `note_value_assignment`. -/
def note_value_assignment (check : Bool) (self : TSaferPtrForLegacy) : TSaferPtrForLegacy :=
  if check then { self with m_initialized := true } else self

/-- The member `assert_initialized`. -/
def assert_initialized (check : Bool) (self : TSaferPtrForLegacy) : Except Exn Unit :=
  if check then
    if self.m_initialized then .ok () else .error .assert_failure
  else .ok ()

/-- The default constructor `TSaferPtrForLegacy() : m_ptr(nullptr) {}`. -/
def ctor : TSaferPtrForLegacy := { m_ptr := none }

/-- The constructor `TSaferPtrForLegacy(_Ty* ptr)`. -/
def from_ptr (check : Bool) (ptr : Option Nat) : TSaferPtrForLegacy :=
  ({ m_ptr := ptr } : TSaferPtrForLegacy).note_value_assignment check

/-- The member `raw_pointer(_Ty* ptr)`. -/
def set_raw_pointer (check : Bool) (self : TSaferPtrForLegacy) (ptr : Option Nat) :
    TSaferPtrForLegacy :=
  let self1 := self.note_value_assignment check
  { self1 with m_ptr := ptr }

/-- The members `raw_pointer() const` and `get() const`. -/
def get (self : TSaferPtrForLegacy) : Option Nat := self.m_ptr

/-- The member `operator*`: the referent in the store `mem`. -/
def deref {α : Type} (check : Bool) (mem : Nat → α) (self : TSaferPtrForLegacy) :
    Except Exn α :=
  match self.assert_initialized check with
  | .error e => .error e
  | .ok _ =>
    match self.m_ptr with
    | none => .error (.out_of_range .safer_ptr_for_legacy_null_deref)
    | some a => .ok (mem a)

/-- The member `operator->`: the held address. -/
def arrow (check : Bool) (self : TSaferPtrForLegacy) : Except Exn Nat :=
  match self.assert_initialized check with
  | .error e => .error e
  | .ok _ =>
    match self.m_ptr with
    | none => .error (.out_of_range .safer_ptr_for_legacy_null_deref)
    | some a => .ok a

/-- The assignment operator `operator=(_Ty* ptr)`. -/
def assign_ptr (check : Bool) (self : TSaferPtrForLegacy) (ptr : Option Nat) :
    TSaferPtrForLegacy :=
  let self1 := self.note_value_assignment check
  { self1 with m_ptr := ptr }

end TSaferPtrForLegacy

/-! ## The native cursor and the index -/

/-- The inherited native cursor of `it` points into the array at address `this`,
`m_index` steps from its `begin()`. -/
def ss_iterator_type.in_sync (this : Nat) (it : ss_iterator_type) : Prop :=
  it.base = some (this, (it.m_index : Int))

instance (this : Nat) (it : ss_iterator_type) : Decidable (it.in_sync this) := by
  unfold ss_iterator_type.in_sync
  infer_instance

/-! ## Indexed access (C1) -/

section indexed_access

variable {T : Type} {N : Nat}

theorem ctor_copy_loop_spec (il : List T) (hlen : N ≤ il.length) :
    ∀ (fuel count : Nat) (target : Fin N → T), count + fuel = N →
      ∃ t : Fin N → T, msearray.ctor_copy_loop il fuel count target = .ok (N, t) ∧
        ∀ i : Fin N, (count ≤ i.val → il[i.val]? = some (t i)) ∧
          (i.val < count → t i = target i) := by
  intro fuel
  induction fuel with
  | zero =>
    intro count target h
    refine ⟨target, ?_, ?_⟩
    · simp only [msearray.ctor_copy_loop]
      have : count = N := by omega
      rw [this]
    · intro i
      have := i.isLt
      exact ⟨fun h1 => by omega, fun _ => rfl⟩
  | succ fuel ih =>
    intro count target h
    have hc : count < N := by omega
    have hcl : count < il.length := by omega
    obtain ⟨t, ht, hspec⟩ :=
      ih (count + 1) (Function.update target ⟨count, hc⟩ il[count]) (by omega)
    refine ⟨t, ?_, ?_⟩
    · simp only [msearray.ctor_copy_loop, hc, dite_true, List.getElem?_eq_getElem hcl]
      exact ht
    · intro i
      obtain ⟨h1, h2⟩ := hspec i
      constructor
      · intro hci
        rcases Nat.eq_or_lt_of_le hci with heq | hlt
        · have hi : i = ⟨count, hc⟩ := Fin.ext heq.symm
          rw [h2 (by omega), hi, Function.update_same]
          exact List.getElem?_eq_getElem hcl
        · exact h1 hlt
      · intro hic
        rw [h2 (by omega)]
        have hne : i ≠ ⟨count, hc⟩ := fun he => by
          have := congrArg Fin.val he
          simp at this
          omega
        exact Function.update_noteq hne _ _

theorem ctor_fill_loop_done (d : T) (fuel : Nat) (target : Fin N → T) :
    msearray.ctor_fill_loop d fuel N target = (N, target) := by
  cases fuel <;> simp [msearray.ctor_fill_loop]

/-- C1: the container built from a sequence `s` of exactly `N = |s|` values
exists (construction returns), and for every index `i`, `at(i)` and
`operator[](i)` both return the `i`-th value of `s` when `i < N` and both fail
with `std::out_of_range` when `i >= N`. -/
theorem C1_at_and_index_range_checked [Inhabited T] (s : List T)
    (storage : Fin s.length → T) :
    ∃ a : msearray T s.length,
      msearray.from_initializer_list storage s = .ok a ∧
      ∀ i : Nat,
        a.at i = (if h : i < s.length then .ok (s.get ⟨i, h⟩)
                  else .error (.out_of_range .array_at)) ∧
        a.index i = (if h : i < s.length then .ok (s.get ⟨i, h⟩)
                  else .error (.out_of_range .array_at)) := by
  obtain ⟨t, ht, hspec⟩ := ctor_copy_loop_spec s (Nat.le_refl _) s.length 0 storage (by omega)
  refine ⟨⟨t⟩, ?_, ?_⟩
  · simp [msearray.from_initializer_list, ht, ctor_fill_loop_done]
  · intro i
    have key : (⟨t⟩ : msearray T s.length).at i =
        (if h : i < s.length then .ok (s.get ⟨i, h⟩)
         else .error (.out_of_range .array_at)) := by
      unfold msearray.«at»
      by_cases h : i < s.length
      · have h1 := (hspec ⟨i, h⟩).1 (Nat.zero_le _)
        rw [List.getElem?_eq_getElem h] at h1
        simp only [h, dite_true]
        congr 1
        exact (Option.some.inj h1).symm
      · simp only [h, dite_false]
    exact ⟨key, key⟩

end indexed_access

/-! ## Stepping to the end marker (C2) -/

theorem ss_begin_eq (this : Nat) :
    msearray.ss_begin this = .ok ⟨some (this, 0), 0, ⟨some this⟩⟩ := rfl

theorem set_to_next_at_item (N this i : Nat) (hN : N < 2 ^ 64) (hi : i < N) :
    ss_iterator_type.set_to_next N ⟨some (this, (i : Int)), i, ⟨some this⟩⟩ =
      (.ok (), ⟨some (this, ((i + 1 : Nat) : Int)), i + 1, ⟨some this⟩⟩) := by
  have h1 : 1 ≤ N := by omega
  have h2 : (i + 1) % 18446744073709551616 = i + 1 := Nat.mod_eq_of_lt (by omega)
  have h3 : ¬ (N < i + 1) := by omega
  simp [ss_iterator_type.set_to_next, ss_iterator_type.points_to_an_item, msear_pointer.arrow,
    native_add, h1, hi, h2, h3]

theorem call_times_set_to_next (N this : Nat) (hN : N < 2 ^ 64) :
    ∀ k : Nat, k ≤ N →
      call_times (ss_iterator_type.set_to_next N) k ⟨some (this, 0), 0, ⟨some this⟩⟩ =
        (.ok (), ⟨some (this, (k : Int)), k, ⟨some this⟩⟩) := by
  intro k
  induction k with
  | zero => intro _; rfl
  | succ k ih =>
    intro hk
    simp only [call_times, ih (by omega)]
    exact set_to_next_at_item N this k hN (by omega)

/-- C2: from `ss_begin()` of a container of capacity `N`, each of the first `N`
calls of `set_to_next()` succeeds and after `k` of them `position() == k`; after
exactly `N` calls `points_to_end_marker()` is true, and one further
`set_to_next()` fails with `std::out_of_range`, leaving the position at `N`. -/
theorem C2_set_to_next_reaches_end_marker (N this : Nat) (hN : N < 2 ^ 64) :
    ∃ it0 : ss_iterator_type, msearray.ss_begin this = .ok it0 ∧
      (∀ k : Nat, k ≤ N →
        (call_times (ss_iterator_type.set_to_next N) k it0).1 = .ok () ∧
        (call_times (ss_iterator_type.set_to_next N) k it0).2.position = k) ∧
      (call_times (ss_iterator_type.set_to_next N) N it0).2.points_to_end_marker N = .ok true ∧
      (call_times (ss_iterator_type.set_to_next N) (N + 1) it0).1 =
        .error (.out_of_range .set_to_next) ∧
      (call_times (ss_iterator_type.set_to_next N) (N + 1) it0).2.position = N := by
  refine ⟨_, ss_begin_eq this, ?_, ?_, ?_, ?_⟩
  · intro k hk
    rw [call_times_set_to_next N this hN k hk]
    exact ⟨rfl, rfl⟩
  · rw [call_times_set_to_next N this hN N (Nat.le_refl _)]
    simp [ss_iterator_type.points_to_end_marker, ss_iterator_type.points_to_an_item,
      msear_pointer.arrow]
  · simp only [call_times, call_times_set_to_next N this hN N (Nat.le_refl _)]
    simp [ss_iterator_type.set_to_next, ss_iterator_type.points_to_an_item,
      msear_pointer.arrow]
  · simp only [call_times, call_times_set_to_next N this hN N (Nat.le_refl _)]
    simp [ss_iterator_type.set_to_next, ss_iterator_type.points_to_an_item,
      msear_pointer.arrow, ss_iterator_type.position]

/-- C2 at capacity 3, for the container at address 7. -/
theorem C2_set_to_next_reaches_end_marker_witness :
    (3 : Nat) < 2 ^ 64 ∧
    ∃ it0 : ss_iterator_type, msearray.ss_begin 7 = .ok it0 ∧
      (∀ k : Nat, k ≤ 3 →
        (call_times (ss_iterator_type.set_to_next 3) k it0).1 = .ok () ∧
        (call_times (ss_iterator_type.set_to_next 3) k it0).2.position = k) ∧
      (call_times (ss_iterator_type.set_to_next 3) 3 it0).2.points_to_end_marker 3 = .ok true ∧
      (call_times (ss_iterator_type.set_to_next 3) (3 + 1) it0).1 =
        .error (.out_of_range .set_to_next) ∧
      (call_times (ss_iterator_type.set_to_next 3) (3 + 1) it0).2.position = 3 :=
  ⟨by norm_num, C2_set_to_next_reaches_end_marker 3 7 (by norm_num)⟩

/-! ## Machine arithmetic -/

theorem to_int64_of_range (z : Int) (h1 : -2 ^ 63 ≤ z) (h2 : z < 2 ^ 63) : to_int64 z = z := by
  unfold to_int64
  norm_num at h1 h2 ⊢
  omega

theorem to_int64_of_high (z : Int) (h1 : 2 ^ 63 ≤ z) (h2 : z < 2 ^ 64 + 2 ^ 63) :
    to_int64 z = z - 2 ^ 64 := by
  unfold to_int64
  norm_num at h1 h2 ⊢
  omega

theorem to_size_t_of_range (z : Int) (h1 : 0 ≤ z) (h2 : z < 2 ^ 64) :
    to_size_t z = z.toNat := by
  unfold to_size_t
  norm_num at h2 ⊢
  omega

theorem to_size_t_of_neg (z : Int) (h1 : -2 ^ 64 ≤ z) (h2 : z < 0) :
    to_size_t z = (z + 2 ^ 64).toNat := by
  unfold to_size_t
  norm_num at h1 ⊢
  omega

/-! ## advance (C3) -/

theorem advance_spec (N : Nat) (hN : N < 2 ^ 63) (n : Int) (hn1 : -2 ^ 63 ≤ n) (hn2 : n ≤ 2 ^ 63)
    (this : Nat) (it : ss_iterator_type) (hit : it.over N this) :
    it.advance N n =
      if 0 ≤ (it.m_index : Int) + n ∧ (it.m_index : Int) + n ≤ N then
        (.ok (), { it with m_index := ((it.m_index : Int) + n).toNat,
                           base := native_add it.base n })
      else (.error (.out_of_range .advance), it) := by
  obtain ⟨hown, hi⟩ := hit
  have e1 : to_int64 (it.m_index : Int) = it.m_index :=
    to_int64_of_range _ (by norm_num; omega) (by norm_num at hN ⊢; omega)
  norm_num at hN hn1 hn2
  unfold ss_iterator_type.advance
  simp only [e1, hown, msear_pointer.arrow]
  by_cases hhi : (it.m_index : Int) + n < 2 ^ 63
  · have e2 := to_int64_of_range ((it.m_index : Int) + n) (by norm_num; omega) hhi
    rw [e2]
    by_cases hneg : 0 > (it.m_index : Int) + n
    · have : ¬ (0 ≤ (it.m_index : Int) + n ∧ (it.m_index : Int) + n ≤ N) := by omega
      simp only [hneg, this, if_true, if_false]
    · have e3 := to_size_t_of_range ((it.m_index : Int) + n) (by omega)
        (by norm_num at hhi ⊢; omega)
      simp only [hneg, if_false, e3]
      by_cases hle : (it.m_index : Int) + n ≤ N
      · have h4 : ¬ (N < ((it.m_index : Int) + n).toNat) := by omega
        have h5 : 0 ≤ (it.m_index : Int) + n ∧ (it.m_index : Int) + n ≤ N := by omega
        simp only [h4, h5, if_false, and_self, if_true]
      · have h4 : N < ((it.m_index : Int) + n).toNat := by omega
        have h5 : ¬ (0 ≤ (it.m_index : Int) + n ∧ (it.m_index : Int) + n ≤ N) := by omega
        simp only [h4, h5, if_true, if_false]
  · have e2 := to_int64_of_high ((it.m_index : Int) + n) (by omega) (by norm_num; omega)
    rw [e2]
    have hneg : 0 > (it.m_index : Int) + n - 2 ^ 64 := by norm_num; norm_num at hhi; omega
    have h5 : ¬ (0 ≤ (it.m_index : Int) + n ∧ (it.m_index : Int) + n ≤ N) := by
      norm_num at hhi; omega
    simp only [hneg, h5, if_true, if_false]

theorem advance_spec_const (N : Nat) (hN : N < 2 ^ 63) (n : Int) (hn1 : -2 ^ 63 ≤ n) (hn2 : n ≤ 2 ^ 63)
    (this : Nat) (it : ss_const_iterator_type) (hit : it.over N this) :
    it.advance N n =
      if 0 ≤ (it.m_index : Int) + n ∧ (it.m_index : Int) + n ≤ N then
        (.ok (), { it with m_index := ((it.m_index : Int) + n).toNat,
                           base := native_add it.base n })
      else (.error (.out_of_range .advance), it) := by
  obtain ⟨hown, hi⟩ := hit
  have e1 : to_int64 (it.m_index : Int) = it.m_index :=
    to_int64_of_range _ (by norm_num; omega) (by norm_num at hN ⊢; omega)
  norm_num at hN hn1 hn2
  unfold ss_const_iterator_type.advance
  simp only [e1, hown, msear_pointer.arrow]
  by_cases hhi : (it.m_index : Int) + n < 2 ^ 63
  · have e2 := to_int64_of_range ((it.m_index : Int) + n) (by norm_num; omega) hhi
    rw [e2]
    by_cases hneg : 0 > (it.m_index : Int) + n
    · have : ¬ (0 ≤ (it.m_index : Int) + n ∧ (it.m_index : Int) + n ≤ N) := by omega
      simp only [hneg, this, if_true, if_false]
    · have e3 := to_size_t_of_range ((it.m_index : Int) + n) (by omega)
        (by norm_num at hhi ⊢; omega)
      simp only [hneg, if_false, e3]
      by_cases hle : (it.m_index : Int) + n ≤ N
      · have h4 : ¬ (N < ((it.m_index : Int) + n).toNat) := by omega
        have h5 : 0 ≤ (it.m_index : Int) + n ∧ (it.m_index : Int) + n ≤ N := by omega
        simp only [h4, h5, if_false, and_self, if_true]
      · have h4 : N < ((it.m_index : Int) + n).toNat := by omega
        have h5 : ¬ (0 ≤ (it.m_index : Int) + n ∧ (it.m_index : Int) + n ≤ N) := by omega
        simp only [h4, h5, if_true, if_false]
  · have e2 := to_int64_of_high ((it.m_index : Int) + n) (by omega) (by norm_num; omega)
    rw [e2]
    have hneg : 0 > (it.m_index : Int) + n - 2 ^ 64 := by norm_num; norm_num at hhi; omega
    have h5 : ¬ (0 ≤ (it.m_index : Int) + n ∧ (it.m_index : Int) + n ≤ N) := by
      norm_num at hhi; omega
    simp only [hneg, h5, if_true, if_false]

theorem ss_cbegin_eq (this : Nat) :
    msearray.ss_cbegin this = .ok ⟨some (this, 0), 0, ⟨some this⟩⟩ := rfl


theorem advance_from_begin (N : Nat) (hN : N < 2 ^ 63) (this : Nat) :
    (ss_iterator_type.advance N (N : Int) ⟨some (this, 0), 0, ⟨some this⟩⟩).1 = .ok () ∧
    (ss_iterator_type.advance N (N : Int)
      ⟨some (this, 0), 0, ⟨some this⟩⟩).2.points_to_end_marker N = .ok true ∧
    (ss_iterator_type.advance N ((N : Int) + 1) ⟨some (this, 0), 0, ⟨some this⟩⟩).1 =
      .error (.out_of_range .advance) := by
  have hover : ss_iterator_type.over N this ⟨some (this, 0), 0, ⟨some this⟩⟩ :=
    ⟨rfl, Nat.zero_le _⟩
  have hN2 : (N : Int) < 2 ^ 63 := by exact_mod_cast hN
  have e := advance_spec N hN (N : Int) (by norm_num; omega) (le_of_lt hN2) this _ hover
  have e1 := advance_spec N hN ((N : Int) + 1) (by norm_num; omega) (by omega) this _ hover
  refine ⟨?_, ?_, ?_⟩
  · rw [e]; simp
  · rw [e]
    simp [ss_iterator_type.points_to_end_marker, ss_iterator_type.points_to_an_item,
      msear_pointer.arrow]
  · rw [e1]; simp

theorem advance_from_begin_const (N : Nat) (hN : N < 2 ^ 63) (this : Nat) :
    (ss_const_iterator_type.advance N (N : Int) ⟨some (this, 0), 0, ⟨some this⟩⟩).1 = .ok () ∧
    (ss_const_iterator_type.advance N (N : Int)
      ⟨some (this, 0), 0, ⟨some this⟩⟩).2.points_to_end_marker N = .ok true ∧
    (ss_const_iterator_type.advance N ((N : Int) + 1) ⟨some (this, 0), 0, ⟨some this⟩⟩).1 =
      .error (.out_of_range .advance) := by
  have hover : ss_const_iterator_type.over N this ⟨some (this, 0), 0, ⟨some this⟩⟩ :=
    ⟨rfl, Nat.zero_le _⟩
  have hN2 : (N : Int) < 2 ^ 63 := by exact_mod_cast hN
  have e := advance_spec_const N hN (N : Int) (by norm_num; omega) (le_of_lt hN2) this _ hover
  have e1 := advance_spec_const N hN ((N : Int) + 1) (by norm_num; omega) (by omega) this _ hover
  refine ⟨?_, ?_, ?_⟩
  · rw [e]; simp
  · rw [e]
    simp [ss_const_iterator_type.points_to_end_marker, ss_const_iterator_type.points_to_an_item,
      msear_pointer.arrow]
  · rw [e1]; simp

/-- C3: for an iterator (mutable or read-only) at position `i` in `[0, N]` over a
container of capacity `N` and a signed 64-bit offset `n`, `advance(n)` succeeds
iff `0 <= i + n <= N`, and then `position() == i + n`; otherwise it fails with
`std::out_of_range`. From `ss_begin()` (`ss_cbegin()`), `advance(N)` lands on the
end marker and `advance(N + 1)` fails. The sum `msear_int(m_index) + n` is formed
on 64 bits in two's complement, and `N < 2 ^ 63` as for every array object. -/
theorem C3_advance_succeeds_iff_in_bounds (N : Nat) (hN : N < 2 ^ 63) (n : Int)
    (hn1 : -2 ^ 63 ≤ n) (hn2 : n < 2 ^ 63) (this : Nat)
    (it : ss_iterator_type) (hit : it.over N this)
    (cit : ss_const_iterator_type) (hcit : cit.over N this) :
    (((it.advance N n).1 = .ok () ↔ 0 ≤ (it.position : Int) + n ∧ (it.position : Int) + n ≤ N) ∧
      ((it.advance N n).1 = .ok () → ((it.advance N n).2.position : Int) = it.position + n) ∧
      ((it.advance N n).1 ≠ .ok () → (it.advance N n).1 = .error (.out_of_range .advance))) ∧
    (((cit.advance N n).1 = .ok () ↔
        0 ≤ (cit.position : Int) + n ∧ (cit.position : Int) + n ≤ N) ∧
      ((cit.advance N n).1 = .ok () → ((cit.advance N n).2.position : Int) = cit.position + n) ∧
      ((cit.advance N n).1 ≠ .ok () → (cit.advance N n).1 = .error (.out_of_range .advance))) ∧
    (∃ it0 : ss_iterator_type, msearray.ss_begin this = .ok it0 ∧
      (it0.advance N (N : Int)).1 = .ok () ∧
      (it0.advance N (N : Int)).2.points_to_end_marker N = .ok true ∧
      (it0.advance N ((N : Int) + 1)).1 = .error (.out_of_range .advance)) ∧
    (∃ cit0 : ss_const_iterator_type, msearray.ss_cbegin this = .ok cit0 ∧
      (cit0.advance N (N : Int)).1 = .ok () ∧
      (cit0.advance N (N : Int)).2.points_to_end_marker N = .ok true ∧
      (cit0.advance N ((N : Int) + 1)).1 = .error (.out_of_range .advance)) := by
  have e := advance_spec N hN n hn1 (le_of_lt hn2) this it hit
  have ec := advance_spec_const N hN n hn1 (le_of_lt hn2) this cit hcit
  refine ⟨?_, ?_, ⟨_, ss_begin_eq this, advance_from_begin N hN this⟩,
    ⟨_, ss_cbegin_eq this, advance_from_begin_const N hN this⟩⟩
  · rw [e]
    simp only [ss_iterator_type.position]
    by_cases h : 0 ≤ (it.m_index : Int) + n ∧ (it.m_index : Int) + n ≤ N
    · simp only [h, and_self, if_true, true_iff, forall_true_left, ne_eq, not_true_eq_false,
        false_implies, and_true, true_and]
      omega
    · simp [h]
  · rw [ec]
    simp only [ss_const_iterator_type.position]
    by_cases h : 0 ≤ (cit.m_index : Int) + n ∧ (cit.m_index : Int) + n ≤ N
    · simp only [h, and_self, if_true, true_iff, forall_true_left, ne_eq, not_true_eq_false,
        false_implies, and_true, true_and]
      omega
    · simp [h]

/-- C3 at capacity 3: offset 2 from position 1, for the container at address 7. -/
theorem C3_advance_succeeds_iff_in_bounds_witness :
    (((ss_iterator_type.advance 3 2 ⟨some (7, 1), 1, ⟨some 7⟩⟩).1 = .ok () ↔
        0 ≤ ((ss_iterator_type.position ⟨some (7, 1), 1, ⟨some 7⟩⟩ : Nat) : Int) + 2 ∧
        ((ss_iterator_type.position ⟨some (7, 1), 1, ⟨some 7⟩⟩ : Nat) : Int) + 2 ≤ (3 : Nat)) ∧
      ((ss_iterator_type.advance 3 2 ⟨some (7, 1), 1, ⟨some 7⟩⟩).1 = .ok () →
        ((ss_iterator_type.advance 3 2 ⟨some (7, 1), 1, ⟨some 7⟩⟩).2.position : Int) =
          (ss_iterator_type.position ⟨some (7, 1), 1, ⟨some 7⟩⟩ : Nat) + 2) ∧
      ((ss_iterator_type.advance 3 2 ⟨some (7, 1), 1, ⟨some 7⟩⟩).1 ≠ .ok () →
        (ss_iterator_type.advance 3 2 ⟨some (7, 1), 1, ⟨some 7⟩⟩).1 =
          .error (.out_of_range .advance))) :=
  (C3_advance_succeeds_iff_in_bounds 3 (by norm_num) 2 (by norm_num) (by norm_num) 7
    ⟨some (7, 1), 1, ⟨some 7⟩⟩ ⟨rfl, by decide⟩
    ⟨some (7, 1), 1, ⟨some 7⟩⟩ ⟨rfl, by decide⟩).1

/-! ## Dereference (C4) -/

theorem operator_star_spec {T : Type} {N : Nat} (mem : Nat → msearray T N) (this : Nat)
    (it : ss_iterator_type) (hit : it.over N this) :
    it.operator_star mem =
      if h : it.m_index < N then .ok ((mem this).elems ⟨it.m_index, h⟩)
      else .error (.out_of_range .dereference) := by
  obtain ⟨hown, hi⟩ := hit
  unfold ss_iterator_type.operator_star ss_iterator_type.points_to_an_item
  simp only [hown, msear_pointer.arrow]
  by_cases h : it.m_index < N
  · have h1 : 1 ≤ N ∧ it.m_index < N := ⟨by omega, h⟩
    simp only [h1, and_self, if_true, h, dite_true, msearray.«at»]
  · have h1 : ¬ (1 ≤ N ∧ it.m_index < N) := fun hh => h hh.2
    have h2 : it.m_index = N := by omega
    simp [h1, h2]

theorem operator_star_spec_const {T : Type} {N : Nat} (mem : Nat → msearray T N) (this : Nat)
    (it : ss_const_iterator_type) (hit : it.over N this) :
    it.operator_star mem =
      if h : it.m_index < N then .ok ((mem this).elems ⟨it.m_index, h⟩)
      else .error (.out_of_range .dereference) := by
  obtain ⟨hown, hi⟩ := hit
  unfold ss_const_iterator_type.operator_star ss_const_iterator_type.points_to_an_item
  simp only [hown, msear_pointer.arrow]
  by_cases h : it.m_index < N
  · have h1 : 1 ≤ N ∧ it.m_index < N := ⟨by omega, h⟩
    simp only [h1, and_self, if_true, h, dite_true, msearray.«at»]
  · have h1 : ¬ (1 ≤ N ∧ it.m_index < N) := fun hh => h hh.2
    have h2 : it.m_index = N := by omega
    simp [h1, h2]

/-- C4: for an iterator (mutable or read-only) at position `i` in `[0, N]` over
the container of capacity `N` at address `this`, `operator*` and `item()` return
the element of that container at index `i` when `i < N`, and fail with
`std::out_of_range`, producing no value, when `i == N` (the end marker). -/
theorem C4_item_returns_element_or_fails_at_end {T : Type} {N : Nat}
    (mem : Nat → msearray T N) (this : Nat)
    (it : ss_iterator_type) (hit : it.over N this)
    (cit : ss_const_iterator_type) (hcit : cit.over N this) :
    (it.operator_star mem =
        (if h : it.position < N then .ok ((mem this).elems ⟨it.position, h⟩)
         else .error (.out_of_range .dereference)) ∧
      it.item mem =
        (if h : it.position < N then .ok ((mem this).elems ⟨it.position, h⟩)
         else .error (.out_of_range .dereference))) ∧
    (cit.operator_star mem =
        (if h : cit.position < N then .ok ((mem this).elems ⟨cit.position, h⟩)
         else .error (.out_of_range .dereference)) ∧
      cit.item mem =
        (if h : cit.position < N then .ok ((mem this).elems ⟨cit.position, h⟩)
         else .error (.out_of_range .dereference))) :=
  ⟨⟨operator_star_spec mem this it hit, operator_star_spec mem this it hit⟩,
   ⟨operator_star_spec_const mem this cit hcit, operator_star_spec_const mem this cit hcit⟩⟩

/-- C4 on the container `[11, 12, 13]` at address 7: the mutable iterator at
position 1 reads 12, and `item()` at the end marker fails. -/
theorem C4_item_returns_element_or_fails_at_end_witness :
    ss_iterator_type.item (fun _ => (⟨![11, 12, 13]⟩ : msearray Nat 3))
        ⟨some (7, 1), 1, ⟨some 7⟩⟩ = .ok 12 ∧
    ss_iterator_type.item (fun _ => (⟨![11, 12, 13]⟩ : msearray Nat 3))
        ⟨some (7, 3), 3, ⟨some 7⟩⟩ = .error (.out_of_range .dereference) :=
  ⟨(C4_item_returns_element_or_fails_at_end (fun _ => (⟨![11, 12, 13]⟩ : msearray Nat 3)) 7
      ⟨some (7, 1), 1, ⟨some 7⟩⟩ ⟨rfl, by decide⟩
      ⟨some (7, 1), 1, ⟨some 7⟩⟩ ⟨rfl, by decide⟩).1.2,
   (C4_item_returns_element_or_fails_at_end (fun _ => (⟨![11, 12, 13]⟩ : msearray Nat 3)) 7
      ⟨some (7, 3), 3, ⟨some 7⟩⟩ ⟨rfl, by decide⟩
      ⟨some (7, 3), 3, ⟨some 7⟩⟩ ⟨rfl, by decide⟩).1.2⟩

/-! ## Comparing iterators of different containers (C5, C6) -/

/-- C5: for two iterators `a`, `b` (mutable or read-only) whose owner references
differ, each of `a < b`, `a <= b`, `a > b`, `a >= b` and the difference `a - b`
fails with `std::out_of_range`, whatever the positions; none returns a value. -/
theorem C5_ordering_and_difference_reject_owner_mismatch (N : Nat)
    (a b : ss_iterator_type) (hab : a.m_owner_ptr ≠ b.m_owner_ptr)
    (ca cb : ss_const_iterator_type) (hcab : ca.m_owner_cptr ≠ cb.m_owner_cptr) :
    (a.operator_lt b = .error (.out_of_range .less) ∧
      a.operator_le b = .error (.out_of_range .less) ∧
      a.operator_gt b = .error (.out_of_range .less) ∧
      a.operator_ge b = .error (.out_of_range .less) ∧
      a.difference N b = .error (.out_of_range .difference)) ∧
    (ca.operator_lt cb = .error (.out_of_range .less) ∧
      ca.operator_le cb = .error (.out_of_range .less) ∧
      ca.operator_gt cb = .error (.out_of_range .less) ∧
      ca.operator_ge cb = .error (.out_of_range .less) ∧
      ca.difference N cb = .error (.out_of_range .difference)) := by
  have hba : b.m_owner_ptr ≠ a.m_owner_ptr := fun h => hab h.symm
  have hcba : cb.m_owner_cptr ≠ ca.m_owner_cptr := fun h => hcab h.symm
  have h1 : a.operator_lt b = .error (.out_of_range .less) := by
    simp [ss_iterator_type.operator_lt, hab]
  have h2 : ca.operator_lt cb = .error (.out_of_range .less) := by
    simp [ss_const_iterator_type.operator_lt, hcab]
  refine ⟨⟨h1, ?_, ?_, ?_, ?_⟩, ⟨h2, ?_, ?_, ?_, ?_⟩⟩
  · simp [ss_iterator_type.operator_le, h1]
  · simp [ss_iterator_type.operator_gt, ss_iterator_type.operator_le, h1]
  · simp [ss_iterator_type.operator_ge, h1]
  · simp [ss_iterator_type.difference, hba]
  · simp [ss_const_iterator_type.operator_le, h2]
  · simp [ss_const_iterator_type.operator_gt, ss_const_iterator_type.operator_le, h2]
  · simp [ss_const_iterator_type.operator_ge, h2]
  · simp [ss_const_iterator_type.difference, hcba]

/-- C5 for iterators at position 0 of the containers at addresses 1 and 2. -/
theorem C5_ordering_and_difference_reject_owner_mismatch_witness :
    ss_iterator_type.operator_lt ⟨some (1, 0), 0, ⟨some 1⟩⟩ ⟨some (2, 0), 0, ⟨some 2⟩⟩ =
        .error (.out_of_range .less) ∧
    ss_iterator_type.difference 3 ⟨some (1, 0), 0, ⟨some 1⟩⟩ ⟨some (2, 0), 0, ⟨some 2⟩⟩ =
        .error (.out_of_range .difference) :=
  have h := (C5_ordering_and_difference_reject_owner_mismatch 3
    ⟨some (1, 0), 0, ⟨some 1⟩⟩ ⟨some (2, 0), 0, ⟨some 2⟩⟩ (by decide)
    ⟨some (1, 0), 0, ⟨some 1⟩⟩ ⟨some (2, 0), 0, ⟨some 2⟩⟩ (by decide)).1
  ⟨h.1, h.2.2.2.2⟩

/-- C6 fails as stated: for iterators at position 0 of the containers at
addresses 1 and 2, `a == b` returns `false` and `a != b` returns `true`; neither
comparison fails. -/
theorem C6_equality_owner_mismatch_counterexample :
    ss_iterator_type.operator_eq ⟨some (1, 0), 0, ⟨some 1⟩⟩ ⟨some (2, 0), 0, ⟨some 2⟩⟩ = false ∧
    ss_iterator_type.operator_ne ⟨some (1, 0), 0, ⟨some 1⟩⟩ ⟨some (2, 0), 0, ⟨some 2⟩⟩ = true ∧
    ss_const_iterator_type.operator_eq
      ⟨some (1, 0), 0, ⟨some 1⟩⟩ ⟨some (2, 0), 0, ⟨some 2⟩⟩ = false ∧
    ss_const_iterator_type.operator_ne
      ⟨some (1, 0), 0, ⟨some 1⟩⟩ ⟨some (2, 0), 0, ⟨some 2⟩⟩ = true := by
  decide

/-- C6, amended: for two iterators `a`, `b` (mutable or read-only) whose owner
references differ, `a == b` returns `false` and `a != b` returns `true`; the
equality operators do not fail (only ordering and subtraction require an
identical owner). -/
theorem C6_equality_is_false_on_owner_mismatch
    (a b : ss_iterator_type) (hab : a.m_owner_ptr ≠ b.m_owner_ptr)
    (ca cb : ss_const_iterator_type) (hcab : ca.m_owner_cptr ≠ cb.m_owner_cptr) :
    (a.operator_eq b = false ∧ a.operator_ne b = true) ∧
    (ca.operator_eq cb = false ∧ ca.operator_ne cb = true) := by
  have hba : b.m_owner_ptr ≠ a.m_owner_ptr := fun h => hab h.symm
  have hcba : cb.m_owner_cptr ≠ ca.m_owner_cptr := fun h => hcab h.symm
  simp [ss_iterator_type.operator_eq, ss_iterator_type.operator_ne,
    ss_const_iterator_type.operator_eq, ss_const_iterator_type.operator_ne, hab, hba, hcab, hcba]

/-- C6, amended, for iterators at position 4 of the containers at addresses 1 and 2. -/
theorem C6_equality_is_false_on_owner_mismatch_witness :
    (ss_iterator_type.operator_eq ⟨some (1, 4), 4, ⟨some 1⟩⟩ ⟨some (2, 4), 4, ⟨some 2⟩⟩ = false ∧
      ss_iterator_type.operator_ne ⟨some (1, 4), 4, ⟨some 1⟩⟩ ⟨some (2, 4), 4, ⟨some 2⟩⟩ = true) ∧
    (ss_const_iterator_type.operator_eq
        ⟨some (1, 4), 4, ⟨some 1⟩⟩ ⟨some (2, 4), 4, ⟨some 2⟩⟩ = false ∧
      ss_const_iterator_type.operator_ne
        ⟨some (1, 4), 4, ⟨some 1⟩⟩ ⟨some (2, 4), 4, ⟨some 2⟩⟩ = true) :=
  C6_equality_is_false_on_owner_mismatch
    ⟨some (1, 4), 4, ⟨some 1⟩⟩ ⟨some (2, 4), 4, ⟨some 2⟩⟩ (by decide)
    ⟨some (1, 4), 4, ⟨some 1⟩⟩ ⟨some (2, 4), 4, ⟨some 2⟩⟩ (by decide)

/-! ## The notification hooks (C7, C8, C9) -/

theorem invalidate_inclusive_range_spec (N this first last : Nat)
    (it : ss_iterator_type) (hit : it.over N this) :
    it.invalidate_inclusive_range N first last =
      if first ≤ it.m_index ∧ it.m_index ≤ last then
        (.ok (), { it with m_index := N, base := native_end N this })
      else (.ok (), it) := by
  obtain ⟨hown, _⟩ := hit
  unfold ss_iterator_type.invalidate_inclusive_range ss_iterator_type.reset
    ss_iterator_type.set_to_end_marker
  simp only [hown, msear_pointer.arrow, ge_iff_le]

theorem shift_inclusive_range_in_bounds (N : Nat) (hN : N < 2 ^ 64) (this first last : Nat)
    (shift : Int) (it : ss_iterator_type) (hit : it.over N this)
    (hr : first ≤ it.m_index ∧ it.m_index ≤ last)
    (hb : 0 ≤ (it.m_index : Int) + shift ∧ (it.m_index : Int) + shift ≤ N) :
    it.shift_inclusive_range N first last shift =
      (.ok (), { it with m_index := ((it.m_index : Int) + shift).toNat,
                         base := native_add (native_begin this)
                           (to_int64 (((it.m_index : Int) + shift).toNat : Int)) }) := by
  obtain ⟨hown, hi⟩ := hit
  have hN2 : (N : Int) < 2 ^ 64 := by exact_mod_cast hN
  have e := to_size_t_of_range ((it.m_index : Int) + shift) hb.1 (by omega)
  have hr2 : first ≤ it.m_index ∧ last ≥ it.m_index := hr
  have h1 : ¬ (0 > ((it.m_index : Int) + shift).toNat) := by omega
  have h2 : ¬ (N < ((it.m_index : Int) + shift).toNat) := by omega
  have h3 : N ≥ ((it.m_index : Int) + shift).toNat := by omega
  unfold ss_iterator_type.shift_inclusive_range ss_iterator_type.sync_iterator_to_index
  simp only [hr2, and_self, if_true, e, h1, if_false, hown, msear_pointer.arrow, h2, h3,
    not_true_eq_false]

theorem shift_inclusive_range_outside (N first last : Nat) (shift : Int)
    (it : ss_iterator_type) (hr : ¬ (first ≤ it.m_index ∧ it.m_index ≤ last)) :
    it.shift_inclusive_range N first last shift = (.ok (), it) := by
  have hr2 : ¬ (first ≤ it.m_index ∧ last ≥ it.m_index) := hr
  unfold ss_iterator_type.shift_inclusive_range
  simp only [hr2, if_false]

theorem shift_inclusive_range_out_of_bounds (N : Nat) (hN : N < 2 ^ 63) (this first last : Nat)
    (shift : Int) (hs1 : -2 ^ 63 ≤ shift) (hs2 : shift < 2 ^ 63)
    (it : ss_iterator_type) (hit : it.over N this)
    (hr : first ≤ it.m_index ∧ it.m_index ≤ last)
    (hb : (it.m_index : Int) + shift < 0 ∨ (N : Int) < (it.m_index : Int) + shift) :
    it.shift_inclusive_range N first last shift =
      (.error (.out_of_range .shift_inclusive_range), it) := by
  obtain ⟨hown, hi⟩ := hit
  have hr2 : first ≤ it.m_index ∧ last ≥ it.m_index := hr
  norm_num at hN hs1 hs2
  have h2 : N < to_size_t ((it.m_index : Int) + shift) := by
    rcases hb with hb | hb
    · rw [to_size_t_of_neg _ (by norm_num; omega) hb]
      norm_num
      omega
    · rw [to_size_t_of_range _ (by omega) (by norm_num; omega)]
      omega
  have h1 : ¬ (0 > to_size_t ((it.m_index : Int) + shift)) := by omega
  unfold ss_iterator_type.shift_inclusive_range
  simp only [hr2, and_self, if_true, h1, if_false, hown, msear_pointer.arrow, h2]

theorem invalidate_inclusive_range_spec_const (N this first last : Nat)
    (it : ss_const_iterator_type) (hit : it.over N this) :
    it.invalidate_inclusive_range N first last =
      if first ≤ it.m_index ∧ it.m_index ≤ last then
        (.ok (), { it with m_index := N, base := native_end N this })
      else (.ok (), it) := by
  obtain ⟨hown, _⟩ := hit
  unfold ss_const_iterator_type.invalidate_inclusive_range ss_const_iterator_type.reset
    ss_const_iterator_type.set_to_end_marker
  simp only [hown, msear_pointer.arrow, ge_iff_le]

theorem shift_inclusive_range_in_bounds_const (N : Nat) (hN : N < 2 ^ 64) (this first last : Nat)
    (shift : Int) (it : ss_const_iterator_type) (hit : it.over N this)
    (hr : first ≤ it.m_index ∧ it.m_index ≤ last)
    (hb : 0 ≤ (it.m_index : Int) + shift ∧ (it.m_index : Int) + shift ≤ N) :
    it.shift_inclusive_range N first last shift =
      (.ok (), { it with m_index := ((it.m_index : Int) + shift).toNat,
                         base := native_add (native_begin this)
                           (to_int64 (((it.m_index : Int) + shift).toNat : Int)) }) := by
  obtain ⟨hown, hi⟩ := hit
  have hN2 : (N : Int) < 2 ^ 64 := by exact_mod_cast hN
  have e := to_size_t_of_range ((it.m_index : Int) + shift) hb.1 (by omega)
  have hr2 : first ≤ it.m_index ∧ last ≥ it.m_index := hr
  have h1 : ¬ (0 > ((it.m_index : Int) + shift).toNat) := by omega
  have h2 : ¬ (N < ((it.m_index : Int) + shift).toNat) := by omega
  have h3 : N ≥ ((it.m_index : Int) + shift).toNat := by omega
  unfold ss_const_iterator_type.shift_inclusive_range ss_const_iterator_type.sync_const_iterator_to_index
  simp only [hr2, and_self, if_true, e, h1, if_false, hown, msear_pointer.arrow, h2, h3,
    not_true_eq_false]

theorem shift_inclusive_range_outside_const (N first last : Nat) (shift : Int)
    (it : ss_const_iterator_type) (hr : ¬ (first ≤ it.m_index ∧ it.m_index ≤ last)) :
    it.shift_inclusive_range N first last shift = (.ok (), it) := by
  have hr2 : ¬ (first ≤ it.m_index ∧ last ≥ it.m_index) := hr
  unfold ss_const_iterator_type.shift_inclusive_range
  simp only [hr2, if_false]

theorem shift_inclusive_range_out_of_bounds_const (N : Nat) (hN : N < 2 ^ 63) (this first last : Nat)
    (shift : Int) (hs1 : -2 ^ 63 ≤ shift) (hs2 : shift < 2 ^ 63)
    (it : ss_const_iterator_type) (hit : it.over N this)
    (hr : first ≤ it.m_index ∧ it.m_index ≤ last)
    (hb : (it.m_index : Int) + shift < 0 ∨ (N : Int) < (it.m_index : Int) + shift) :
    it.shift_inclusive_range N first last shift =
      (.error (.out_of_range .shift_inclusive_range), it) := by
  obtain ⟨hown, hi⟩ := hit
  have hr2 : first ≤ it.m_index ∧ last ≥ it.m_index := hr
  norm_num at hN hs1 hs2
  have h2 : N < to_size_t ((it.m_index : Int) + shift) := by
    rcases hb with hb | hb
    · rw [to_size_t_of_neg _ (by norm_num; omega) hb]
      norm_num
      omega
    · rw [to_size_t_of_range _ (by omega) (by norm_num; omega)]
      omega
  have h1 : ¬ (0 > to_size_t ((it.m_index : Int) + shift)) := by omega
  unfold ss_const_iterator_type.shift_inclusive_range
  simp only [hr2, and_self, if_true, h1, if_false, hown, msear_pointer.arrow, h2]

/-- C7: for an iterator (mutable or read-only) at position `i` in `[0, N]` over a
container of capacity `N`, `invalidate_inclusive_range(first, last)` never
fails, leaves the owner unchanged, and leaves the position at `N` (the end
marker) if `first <= i <= last` and at `i` otherwise. -/
theorem C7_invalidate_inclusive_range_resets_inside_range (N this first last : Nat)
    (it : ss_iterator_type) (hit : it.over N this)
    (cit : ss_const_iterator_type) (hcit : cit.over N this) :
    ((it.invalidate_inclusive_range N first last).1 = .ok () ∧
      (it.invalidate_inclusive_range N first last).2.position =
        (if first ≤ it.position ∧ it.position ≤ last then N else it.position) ∧
      (it.invalidate_inclusive_range N first last).2.m_owner_ptr = it.m_owner_ptr) ∧
    ((cit.invalidate_inclusive_range N first last).1 = .ok () ∧
      (cit.invalidate_inclusive_range N first last).2.position =
        (if first ≤ cit.position ∧ cit.position ≤ last then N else cit.position) ∧
      (cit.invalidate_inclusive_range N first last).2.m_owner_cptr = cit.m_owner_cptr) := by
  rw [invalidate_inclusive_range_spec N this first last it hit,
    invalidate_inclusive_range_spec_const N this first last cit hcit]
  simp only [ss_iterator_type.position, ss_const_iterator_type.position]
  constructor
  · by_cases h : first ≤ it.m_index ∧ it.m_index ≤ last <;> simp [h]
  · by_cases h : first ≤ cit.m_index ∧ cit.m_index ≤ last <;> simp [h]

/-- C7 at capacity 6: `invalidate_inclusive_range(2, 4)` at position 3 resets the
iterator to the end marker, and at position 5 leaves it where it is. -/
theorem C7_invalidate_inclusive_range_resets_inside_range_witness :
    (ss_iterator_type.invalidate_inclusive_range 6 2 4 ⟨some (7, 3), 3, ⟨some 7⟩⟩).2.position = 6 ∧
    (ss_iterator_type.invalidate_inclusive_range 6 2 4 ⟨some (7, 5), 5, ⟨some 7⟩⟩).2.position = 5 :=
  ⟨(C7_invalidate_inclusive_range_resets_inside_range 6 7 2 4
      ⟨some (7, 3), 3, ⟨some 7⟩⟩ ⟨rfl, by decide⟩
      ⟨some (7, 3), 3, ⟨some 7⟩⟩ ⟨rfl, by decide⟩).1.2.1,
   (C7_invalidate_inclusive_range_resets_inside_range 6 7 2 4
      ⟨some (7, 5), 5, ⟨some 7⟩⟩ ⟨rfl, by decide⟩
      ⟨some (7, 5), 5, ⟨some 7⟩⟩ ⟨rfl, by decide⟩).1.2.1⟩

/-- C8: for an iterator (mutable or read-only) at position `i` in `[0, N]` over
the container of capacity `N` at address `this`: if `first <= i <= last` and
`0 <= i + delta <= N`, then `shift_inclusive_range(first, last, delta)` succeeds,
afterwards `position() == i + delta` and, when `i + delta < N`, `item()` returns
the element of the container at index `i + delta`; if `i` is outside
`[first, last]` the call succeeds and leaves the iterator as it is, whatever
`delta` is. -/
theorem C8_shift_inclusive_range_moves_inside_range {T : Type} {N : Nat} (hN : N < 2 ^ 64)
    (mem : Nat → msearray T N) (this first last : Nat) (delta : Int)
    (it : ss_iterator_type) (hit : it.over N this)
    (cit : ss_const_iterator_type) (hcit : cit.over N this) :
    ((first ≤ it.position ∧ it.position ≤ last ∧
        0 ≤ (it.position : Int) + delta ∧ (it.position : Int) + delta ≤ N →
        (it.shift_inclusive_range N first last delta).1 = .ok () ∧
        ((it.shift_inclusive_range N first last delta).2.position : Int) = it.position + delta ∧
        ((it.position : Int) + delta < N →
          ∃ h : ((it.position : Int) + delta).toNat < N,
            (it.shift_inclusive_range N first last delta).2.item mem =
              .ok ((mem this).elems ⟨((it.position : Int) + delta).toNat, h⟩))) ∧
      (¬ (first ≤ it.position ∧ it.position ≤ last) →
        it.shift_inclusive_range N first last delta = (.ok (), it))) ∧
    ((first ≤ cit.position ∧ cit.position ≤ last ∧
        0 ≤ (cit.position : Int) + delta ∧ (cit.position : Int) + delta ≤ N →
        (cit.shift_inclusive_range N first last delta).1 = .ok () ∧
        ((cit.shift_inclusive_range N first last delta).2.position : Int) =
          cit.position + delta ∧
        ((cit.position : Int) + delta < N →
          ∃ h : ((cit.position : Int) + delta).toNat < N,
            (cit.shift_inclusive_range N first last delta).2.item mem =
              .ok ((mem this).elems ⟨((cit.position : Int) + delta).toNat, h⟩))) ∧
      (¬ (first ≤ cit.position ∧ cit.position ≤ last) →
        cit.shift_inclusive_range N first last delta = (.ok (), cit))) := by
  refine ⟨⟨?_, fun h => shift_inclusive_range_outside N first last delta it h⟩,
    ⟨?_, fun h => shift_inclusive_range_outside_const N first last delta cit h⟩⟩
  · rintro ⟨h1, h2, h3, h4⟩
    simp only [ss_iterator_type.position] at h1 h2 h3 h4 ⊢
    rw [shift_inclusive_range_in_bounds N hN this first last delta it hit ⟨h1, h2⟩ ⟨h3, h4⟩]
    refine ⟨rfl, by simp only [ss_iterator_type.position]; omega, fun h5 => ?_⟩
    have hlt : ((it.m_index : Int) + delta).toNat < N := by omega
    refine ⟨hlt, ?_⟩
    unfold ss_iterator_type.item
    have e := operator_star_spec mem this
      { it with m_index := ((it.m_index : Int) + delta).toNat,
                base := native_add (native_begin this)
                  (to_int64 (((it.m_index : Int) + delta).toNat : Int)) }
      ⟨hit.1, le_of_lt hlt⟩
    simp only [hlt, dite_true] at e
    exact e
  · rintro ⟨h1, h2, h3, h4⟩
    simp only [ss_const_iterator_type.position] at h1 h2 h3 h4 ⊢
    rw [shift_inclusive_range_in_bounds_const N hN this first last delta cit hcit ⟨h1, h2⟩
      ⟨h3, h4⟩]
    refine ⟨rfl, by simp only [ss_const_iterator_type.position]; omega, fun h5 => ?_⟩
    have hlt : ((cit.m_index : Int) + delta).toNat < N := by omega
    refine ⟨hlt, ?_⟩
    unfold ss_const_iterator_type.item
    have e := operator_star_spec_const mem this
      { cit with m_index := ((cit.m_index : Int) + delta).toNat,
                 base := native_add (native_begin this)
                   (to_int64 (((cit.m_index : Int) + delta).toNat : Int)) }
      ⟨hcit.1, le_of_lt hlt⟩
    simp only [hlt, dite_true] at e
    exact e

/-- C8 on the container `[10, 11, 12, 13, 14, 15]` at address 7:
`shift_inclusive_range(2, 4, -1)` at position 3 moves the iterator to position 2,
where `item()` reads 12; at position 5 it leaves the iterator as it is. -/
theorem C8_shift_inclusive_range_moves_inside_range_witness :
    ((ss_iterator_type.shift_inclusive_range 6 2 4 (-1) ⟨some (7, 3), 3, ⟨some 7⟩⟩).1 = .ok () ∧
      ((ss_iterator_type.shift_inclusive_range 6 2 4 (-1)
        ⟨some (7, 3), 3, ⟨some 7⟩⟩).2.position : Int) = 2 ∧
      (ss_iterator_type.shift_inclusive_range 6 2 4 (-1) ⟨some (7, 3), 3, ⟨some 7⟩⟩).2.item
        (fun _ => (⟨![10, 11, 12, 13, 14, 15]⟩ : msearray Nat 6)) = .ok 12) ∧
    ss_iterator_type.shift_inclusive_range 6 2 4 (-1) ⟨some (7, 5), 5, ⟨some 7⟩⟩ =
      (.ok (), ⟨some (7, 5), 5, ⟨some 7⟩⟩) := by
  have h := (C8_shift_inclusive_range_moves_inside_range (by norm_num)
    (fun _ => (⟨![10, 11, 12, 13, 14, 15]⟩ : msearray Nat 6)) 7 2 4 (-1)
    ⟨some (7, 3), 3, ⟨some 7⟩⟩ ⟨rfl, by decide⟩
    ⟨some (7, 3), 3, ⟨some 7⟩⟩ ⟨rfl, by decide⟩).1.1 (by decide)
  have h5 := (C8_shift_inclusive_range_moves_inside_range (by norm_num)
    (fun _ => (⟨![10, 11, 12, 13, 14, 15]⟩ : msearray Nat 6)) 7 2 4 (-1)
    ⟨some (7, 5), 5, ⟨some 7⟩⟩ ⟨rfl, by decide⟩
    ⟨some (7, 5), 5, ⟨some 7⟩⟩ ⟨rfl, by decide⟩).1.2 (by decide)
  obtain ⟨_, hitem⟩ := h.2.2 (by decide)
  exact ⟨⟨h.1, h.2.1, hitem.trans rfl⟩, h5⟩

/-- C9: in the default build, where `m_index + shift` is formed modulo `2 ^ 64`
and compared as an unsigned value, for an iterator (mutable or read-only) at
position `i` in `[0, N]` with `N < 2 ^ 63` and `first <= i <= last`, and a signed
64-bit `delta`, `shift_inclusive_range(first, last, delta)` fails with
`std::out_of_range` exactly when the mathematical value `i + delta` is `< 0` or
`> N`. -/
theorem C9_shift_inclusive_range_fails_iff_out_of_bounds (N : Nat) (hN : N < 2 ^ 63)
    (this first last : Nat) (delta : Int) (hd1 : -2 ^ 63 ≤ delta) (hd2 : delta < 2 ^ 63)
    (it : ss_iterator_type) (hit : it.over N this)
    (hr : first ≤ it.position ∧ it.position ≤ last)
    (cit : ss_const_iterator_type) (hcit : cit.over N this)
    (hcr : first ≤ cit.position ∧ cit.position ≤ last) :
    ((it.shift_inclusive_range N first last delta).1 =
        .error (.out_of_range .shift_inclusive_range) ↔
      ((it.position : Int) + delta < 0 ∨ (N : Int) < (it.position : Int) + delta)) ∧
    ((cit.shift_inclusive_range N first last delta).1 =
        .error (.out_of_range .shift_inclusive_range) ↔
      ((cit.position : Int) + delta < 0 ∨ (N : Int) < (cit.position : Int) + delta)) := by
  have hN64 : N < 2 ^ 64 := lt_trans hN (by norm_num)
  simp only [ss_iterator_type.position, ss_const_iterator_type.position] at hr hcr ⊢
  constructor
  · by_cases hb : (it.m_index : Int) + delta < 0 ∨ (N : Int) < (it.m_index : Int) + delta
    · rw [shift_inclusive_range_out_of_bounds N hN this first last delta hd1 hd2 it hit hr hb]
      simp only [hb]
    · rw [shift_inclusive_range_in_bounds N hN64 this first last delta it hit hr (by omega)]
      simp only [hb, iff_false]
      exact fun h => nomatch h
  · by_cases hb : (cit.m_index : Int) + delta < 0 ∨ (N : Int) < (cit.m_index : Int) + delta
    · rw [shift_inclusive_range_out_of_bounds_const N hN this first last delta hd1 hd2 cit hcit
        hcr hb]
      simp only [hb]
    · rw [shift_inclusive_range_in_bounds_const N hN64 this first last delta cit hcit hcr
        (by omega)]
      simp only [hb, iff_false]
      exact fun h => nomatch h

/-- C9 at capacity 6: from position 3 inside `[2, 4]`, a shift by `-4` would move
the index below 0, and the call fails. -/
theorem C9_shift_inclusive_range_fails_iff_out_of_bounds_witness :
    (ss_iterator_type.shift_inclusive_range 6 2 4 (-4) ⟨some (7, 3), 3, ⟨some 7⟩⟩).1 =
      .error (.out_of_range .shift_inclusive_range) :=
  (C9_shift_inclusive_range_fails_iff_out_of_bounds 6 (by norm_num) 7 2 4 (-4)
    (by norm_num) (by norm_num)
    ⟨some (7, 3), 3, ⟨some 7⟩⟩ ⟨rfl, by decide⟩ (by decide)
    ⟨some (7, 3), 3, ⟨some 7⟩⟩ ⟨rfl, by decide⟩ (by decide)).1.2 (by decide)

/-! ## The index invariant (C10) -/

theorem to_size_t_le (z : Int) (h : 0 ≤ z) : (to_size_t z : Int) ≤ z := by
  unfold to_size_t
  norm_num
  omega

theorem set_to_beginning_keeps (N : Nat) (it : ss_iterator_type) :
    ∀ r, it.set_to_beginning = r → r.2.m_index ≤ N ∧ r.2.m_owner_ptr = it.m_owner_ptr := by
  intro r hr
  unfold ss_iterator_type.set_to_beginning at hr
  dsimp only at hr
  cases hp : it.m_owner_ptr.arrow with
  | error e => rw [hp] at hr; subst hr; exact ⟨Nat.zero_le _, rfl⟩
  | ok a => rw [hp] at hr; subst hr; exact ⟨Nat.zero_le _, rfl⟩

theorem set_to_end_marker_keeps (N : Nat) (it : ss_iterator_type) (h : it.m_index ≤ N) :
    ∀ r, it.set_to_end_marker N = r → r.2.m_index ≤ N ∧ r.2.m_owner_ptr = it.m_owner_ptr := by
  intro r hr
  unfold ss_iterator_type.set_to_end_marker at hr
  cases hp : it.m_owner_ptr.arrow with
  | error e => rw [hp] at hr; subst hr; exact ⟨h, rfl⟩
  | ok a => rw [hp] at hr; subst hr; exact ⟨Nat.le_refl _, rfl⟩

theorem set_to_next_keeps (N : Nat) (it : ss_iterator_type) (h : it.m_index ≤ N) :
    ∀ r, it.set_to_next N = r →
      r.2.m_index ≤ N ∧ r.2.m_owner_ptr = it.m_owner_ptr ∧ r.1 ≠ .error .assert_failure := by
  intro r hr
  unfold ss_iterator_type.set_to_next ss_iterator_type.points_to_an_item at hr
  cases hp : it.m_owner_ptr.arrow with
  | error e =>
    simp only [hp] at hr
    subst hr
    refine ⟨h, rfl, ?_⟩
    unfold msear_pointer.arrow at hp
    split at hp
    · cases hp; simp
    · cases hp
  | ok a =>
    simp only [hp] at hr
    by_cases h1 : 1 ≤ N ∧ it.m_index < N
    · have h2 : (it.m_index + 1) % 2 ^ 64 ≤ it.m_index + 1 := Nat.mod_le _ _
      have h3 : ¬ (N < (it.m_index + 1) % 2 ^ 64) := by omega
      simp only [h1, and_self, if_true, h3, if_false, ite_self] at hr
      subst hr
      exact ⟨by dsimp only; omega, rfl, by simp⟩
    · simp only [h1, if_false] at hr
      have h4 : it.m_index = N := by omega
      simp only [h4, if_true] at hr
      subst hr
      exact ⟨by dsimp only; omega, rfl, by simp⟩

theorem set_to_previous_keeps (N : Nat) (it : ss_iterator_type) (h : it.m_index ≤ N) :
    ∀ r, it.set_to_previous = r → r.2.m_index ≤ N ∧ r.2.m_owner_ptr = it.m_owner_ptr := by
  intro r hr
  unfold ss_iterator_type.set_to_previous ss_iterator_type.has_previous
    ss_iterator_type.points_to_beginning at hr
  by_cases h0 : 0 = it.m_index
  · simp only [h0, if_true, Bool.not_true, Bool.false_eq_true, if_false] at hr
    subst hr
    exact ⟨h, rfl⟩
  · simp only [h0, if_false, Bool.not_false, if_true] at hr
    subst hr
    refine ⟨?_, rfl⟩
    have := to_size_t_le ((it.m_index : Int) - 1) (by omega)
    dsimp only
    omega

theorem advance_keeps (N : Nat) (n : Int) (it : ss_iterator_type) (h : it.m_index ≤ N) :
    ∀ r, it.advance N n = r → r.2.m_index ≤ N ∧ r.2.m_owner_ptr = it.m_owner_ptr := by
  intro r hr
  unfold ss_iterator_type.advance at hr
  dsimp only at hr
  cases hp : it.m_owner_ptr.arrow with
  | error e =>
    rw [hp] at hr
    dsimp only at hr
    split_ifs at hr
    · subst hr; exact ⟨h, rfl⟩
    · subst hr; exact ⟨h, rfl⟩
  | ok a =>
    rw [hp] at hr
    dsimp only at hr
    split_ifs at hr with h1 h2
    · subst hr; exact ⟨h, rfl⟩
    · subst hr; exact ⟨h, rfl⟩
    · subst hr
      refine ⟨?_, rfl⟩
      dsimp only
      exact Nat.le_of_not_lt h2

theorem invalidate_inclusive_range_keeps (N first last : Nat) (it : ss_iterator_type)
    (h : it.m_index ≤ N) :
    ∀ r, it.invalidate_inclusive_range N first last = r →
      r.2.m_index ≤ N ∧ r.2.m_owner_ptr = it.m_owner_ptr := by
  intro r hr
  unfold ss_iterator_type.invalidate_inclusive_range ss_iterator_type.reset at hr
  split_ifs at hr
  · exact set_to_end_marker_keeps N it h r hr
  · subst hr; exact ⟨h, rfl⟩

theorem shift_inclusive_range_keeps (N first last : Nat) (shift : Int) (it : ss_iterator_type)
    (h : it.m_index ≤ N) :
    ∀ r, it.shift_inclusive_range N first last shift = r →
      r.2.m_index ≤ N ∧ r.2.m_owner_ptr = it.m_owner_ptr := by
  intro r hr
  unfold ss_iterator_type.shift_inclusive_range ss_iterator_type.sync_iterator_to_index at hr
  dsimp only at hr
  cases hp : it.m_owner_ptr.arrow with
  | error e =>
    rw [hp] at hr
    dsimp only at hr
    split_ifs at hr
    · subst hr; exact ⟨h, rfl⟩
    · subst hr; exact ⟨h, rfl⟩
    · subst hr; exact ⟨h, rfl⟩
  | ok a =>
    rw [hp] at hr
    dsimp only at hr
    split_ifs at hr with h1 h2 h3 h4
    · subst hr; exact ⟨h, rfl⟩
    · subst hr; exact ⟨h, rfl⟩
    · subst hr
      refine ⟨?_, rfl⟩
      dsimp only
      exact Nat.le_of_not_lt h3
    · exact absurd (Nat.le_of_not_lt h3) h4
    · subst hr; exact ⟨h, rfl⟩

theorem reachable_invariant (N : Nat) (it : ss_iterator_type)
    (h : ss_iterator_type.reachable N it) :
    it.m_index ≤ N ∧ ∃ a, it.m_owner_ptr = ⟨some a⟩ := by
  induction h with
  | ss_begin this it h =>
    rw [ss_begin_eq] at h
    cases h
    exact ⟨Nat.zero_le _, this, rfl⟩
  | ss_end this it h =>
    have e : msearray.ss_end N this = .ok ⟨some (this, (N : Int)), N, ⟨some this⟩⟩ := rfl
    rw [e] at h
    cases h
    exact ⟨Nat.le_refl _, this, rfl⟩
  | set_to_beginning it _ ih =>
    obtain ⟨h1, h2⟩ := set_to_beginning_keeps N it _ rfl
    exact ⟨h1, by rw [h2]; exact ih.2⟩
  | set_to_end_marker it _ ih =>
    obtain ⟨h1, h2⟩ := set_to_end_marker_keeps N it ih.1 _ rfl
    exact ⟨h1, by rw [h2]; exact ih.2⟩
  | set_to_next it _ ih =>
    obtain ⟨h1, h2, _⟩ := set_to_next_keeps N it ih.1 _ rfl
    exact ⟨h1, by rw [h2]; exact ih.2⟩
  | set_to_previous it _ ih =>
    obtain ⟨h1, h2⟩ := set_to_previous_keeps N it ih.1 _ rfl
    exact ⟨h1, by rw [h2]; exact ih.2⟩
  | advance n it _ ih =>
    obtain ⟨h1, h2⟩ := advance_keeps N n it ih.1 _ rfl
    exact ⟨h1, by rw [h2]; exact ih.2⟩
  | regress n it _ ih =>
    have e : it.regress N n = it.advance N (to_int64 (-n)) := rfl
    obtain ⟨h1, h2⟩ := advance_keeps N (to_int64 (-n)) it ih.1 _ rfl
    rw [e]
    exact ⟨h1, by rw [h2]; exact ih.2⟩
  | invalidate_inclusive_range f l it _ ih =>
    obtain ⟨h1, h2⟩ := invalidate_inclusive_range_keeps N f l it ih.1 _ rfl
    exact ⟨h1, by rw [h2]; exact ih.2⟩
  | shift_inclusive_range f l s it _ ih =>
    obtain ⟨h1, h2⟩ := shift_inclusive_range_keeps N f l s it ih.1 _ rfl
    exact ⟨h1, by rw [h2]; exact ih.2⟩
  | assign it src _ _ _ ih2 => exact ih2

/-- C10: every state of a mutable iterator reachable from `ss_begin()` or
`ss_end()` of a container of capacity `N` by any sequence of `set_to_beginning`,
`set_to_end_marker`, `set_to_next`, `set_to_previous`, `advance`, `regress`,
`invalidate_inclusive_range`, `shift_inclusive_range` and iterator assignment,
calls that fail included, satisfies `0 <= m_index <= N`; in such a state
`points_to_an_item()` and `points_to_end_marker()` return (their "invalid
iterator" `throw` branches are not taken) and `set_to_next()` does not reach its
`assert(false)`. -/
theorem C10_reachable_index_within_bounds (N : Nat) (it : ss_iterator_type)
    (h : ss_iterator_type.reachable N it) :
    ((0 : Int) ≤ (it.m_index : Int) ∧ it.m_index ≤ N) ∧
    it.points_to_an_item N = .ok (decide (it.m_index < N)) ∧
    it.points_to_an_item N ≠ .error (.out_of_range .points_to_an_item) ∧
    it.points_to_end_marker N = .ok (decide (it.m_index = N)) ∧
    it.points_to_end_marker N ≠ .error (.out_of_range .points_to_end_marker) ∧
    it.points_to_end_marker N ≠ .error (.out_of_range .points_to_an_item) ∧
    (it.set_to_next N).1 ≠ .error .assert_failure := by
  obtain ⟨hle, a, hown⟩ := reachable_invariant N it h
  have h1 : it.points_to_an_item N = .ok (decide (it.m_index < N)) := by
    unfold ss_iterator_type.points_to_an_item
    simp only [hown, msear_pointer.arrow]
    by_cases hlt : it.m_index < N
    · have : 1 ≤ N ∧ it.m_index < N := ⟨by omega, hlt⟩
      simp [this, hlt]
    · have h2 : ¬ (1 ≤ N ∧ it.m_index < N) := fun hh => hlt hh.2
      have h3 : it.m_index = N := by omega
      simp [h2, h3]
  have h2 : it.points_to_end_marker N = .ok (decide (it.m_index = N)) := by
    unfold ss_iterator_type.points_to_end_marker
    rw [h1]
    simp only [hown, msear_pointer.arrow]
    by_cases hlt : it.m_index < N
    · have hne : it.m_index ≠ N := by omega
      simp [hlt, hne]
    · have h3 : it.m_index = N := by omega
      simp [h3]
  refine ⟨⟨Int.ofNat_nonneg _, hle⟩, h1, ?_, h2, ?_, ?_, (set_to_next_keeps N it hle _ rfl).2.2⟩
  · rw [h1]; exact fun hh => nomatch hh
  · rw [h2]; exact fun hh => nomatch hh
  · rw [h2]; exact fun hh => nomatch hh

/-- C10 at capacity 3: the state after `ss_begin()` of the container at address 7
and one `set_to_next()`. -/
theorem C10_reachable_index_within_bounds_witness :
    (ss_iterator_type.set_to_next 3 ⟨some (7, 0), 0, ⟨some 7⟩⟩).2.m_index ≤ 3 ∧
    ((ss_iterator_type.set_to_next 3 ⟨some (7, 0), 0, ⟨some 7⟩⟩).2.set_to_next 3).1 ≠
      .error .assert_failure :=
  have h := C10_reachable_index_within_bounds 3
    (ss_iterator_type.set_to_next 3 ⟨some (7, 0), 0, ⟨some 7⟩⟩).2
    (ss_iterator_type.reachable.set_to_next _ (ss_iterator_type.reachable.ss_begin 7 _ rfl))
  ⟨h.1.2, h.2.2.2.2.2.2⟩

/-! ## The state predicates and stepping back (C11, C12, C13) -/

theorem points_to_an_item_spec (N this : Nat) (it : ss_iterator_type) (hit : it.over N this) :
    it.points_to_an_item N = .ok (decide (it.m_index < N)) := by
  obtain ⟨hown, hle⟩ := hit
  unfold ss_iterator_type.points_to_an_item
  simp only [hown, msear_pointer.arrow]
  by_cases hlt : it.m_index < N
  · have : 1 ≤ N ∧ it.m_index < N := ⟨by omega, hlt⟩
    simp [this, hlt]
  · have h2 : ¬ (1 ≤ N ∧ it.m_index < N) := fun hh => hlt hh.2
    have h3 : it.m_index = N := by omega
    simp [h2, h3]

theorem points_to_end_marker_spec (N this : Nat) (it : ss_iterator_type) (hit : it.over N this) :
    it.points_to_end_marker N = .ok (decide (it.m_index = N)) := by
  have h1 := points_to_an_item_spec N this it hit
  obtain ⟨hown, hle⟩ := hit
  unfold ss_iterator_type.points_to_end_marker
  rw [h1]
  simp only [hown, msear_pointer.arrow]
  by_cases hlt : it.m_index < N
  · have hne : it.m_index ≠ N := by omega
    simp [hlt, hne]
  · have h3 : it.m_index = N := by omega
    simp [h3]

theorem set_to_previous_spec (N this : Nat) (hN : N < 2 ^ 64) (it : ss_iterator_type)
    (hit : it.over N this) :
    it.set_to_previous =
      if it.m_index = 0 then (.error (.out_of_range .set_to_previous), it)
      else (.ok (), { it with m_index := it.m_index - 1, base := native_add it.base (-1) }) := by
  obtain ⟨_, hle⟩ := hit
  unfold ss_iterator_type.set_to_previous ss_iterator_type.has_previous
    ss_iterator_type.points_to_beginning
  by_cases h0 : it.m_index = 0
  · simp [h0]
  · have h1 : ¬ (0 = it.m_index) := fun h => h0 h.symm
    have e : to_size_t ((it.m_index : Int) - 1) = it.m_index - 1 := by
      rw [to_size_t_of_range _ (by omega) (by norm_num at hN ⊢; omega)]
      omega
    simp only [h1, h0, if_false, Bool.not_false, if_true, e]

theorem previous_item_spec {T : Type} {N : Nat} (hN : N < 2 ^ 64) (mem : Nat → msearray T N)
    (this : Nat) (it : ss_iterator_type) (hit : it.over N this) :
    it.previous_item mem =
      if it.m_index = 0 then .error (.out_of_range .previous_item)
      else (mem this).at (it.m_index - 1) := by
  obtain ⟨hown, hle⟩ := hit
  unfold ss_iterator_type.previous_item ss_iterator_type.has_previous
    ss_iterator_type.points_to_beginning
  by_cases h0 : it.m_index = 0
  · simp [h0]
  · have h1 : ¬ (0 = it.m_index) := fun h => h0 h.symm
    have e : to_size_t ((it.m_index : Int) - 1) = it.m_index - 1 := by
      rw [to_size_t_of_range _ (by omega) (by norm_num at hN ⊢; omega)]
      omega
    simp only [h1, h0, if_false, Bool.not_false, if_true, e, hown, msear_pointer.arrow]

theorem points_to_an_item_spec_const (N this : Nat) (it : ss_const_iterator_type) (hit : it.over N this) :
    it.points_to_an_item N = .ok (decide (it.m_index < N)) := by
  obtain ⟨hown, hle⟩ := hit
  unfold ss_const_iterator_type.points_to_an_item
  simp only [hown, msear_pointer.arrow]
  by_cases hlt : it.m_index < N
  · have : 1 ≤ N ∧ it.m_index < N := ⟨by omega, hlt⟩
    simp [this, hlt]
  · have h2 : ¬ (1 ≤ N ∧ it.m_index < N) := fun hh => hlt hh.2
    have h3 : it.m_index = N := by omega
    simp [h2, h3]

theorem points_to_end_marker_spec_const (N this : Nat) (it : ss_const_iterator_type) (hit : it.over N this) :
    it.points_to_end_marker N = .ok (decide (it.m_index = N)) := by
  have h1 := points_to_an_item_spec_const N this it hit
  obtain ⟨hown, hle⟩ := hit
  unfold ss_const_iterator_type.points_to_end_marker
  rw [h1]
  simp only [hown, msear_pointer.arrow]
  by_cases hlt : it.m_index < N
  · have hne : it.m_index ≠ N := by omega
    simp [hlt, hne]
  · have h3 : it.m_index = N := by omega
    simp [h3]

theorem set_to_previous_spec_const (N this : Nat) (hN : N < 2 ^ 64) (it : ss_const_iterator_type)
    (hit : it.over N this) :
    it.set_to_previous =
      if it.m_index = 0 then (.error (.out_of_range .set_to_previous), it)
      else (.ok (), { it with m_index := it.m_index - 1, base := native_add it.base (-1) }) := by
  obtain ⟨_, hle⟩ := hit
  unfold ss_const_iterator_type.set_to_previous ss_const_iterator_type.has_previous
    ss_const_iterator_type.points_to_beginning
  by_cases h0 : it.m_index = 0
  · simp [h0]
  · have h1 : ¬ (0 = it.m_index) := fun h => h0 h.symm
    have e : to_size_t ((it.m_index : Int) - 1) = it.m_index - 1 := by
      rw [to_size_t_of_range _ (by omega) (by norm_num at hN ⊢; omega)]
      omega
    simp only [h1, h0, if_false, Bool.not_false, if_true, e]

theorem previous_item_spec_const {T : Type} {N : Nat} (hN : N < 2 ^ 64) (mem : Nat → msearray T N)
    (this : Nat) (it : ss_const_iterator_type) (hit : it.over N this) :
    it.previous_item mem =
      if it.m_index = 0 then .error (.out_of_range .previous_item)
      else (mem this).at (it.m_index - 1) := by
  obtain ⟨hown, hle⟩ := hit
  unfold ss_const_iterator_type.previous_item ss_const_iterator_type.has_previous
    ss_const_iterator_type.points_to_beginning
  by_cases h0 : it.m_index = 0
  · simp [h0]
  · have h1 : ¬ (0 = it.m_index) := fun h => h0 h.symm
    have e : to_size_t ((it.m_index : Int) - 1) = it.m_index - 1 := by
      rw [to_size_t_of_range _ (by omega) (by norm_num at hN ⊢; omega)]
      omega
    simp only [h1, h0, if_false, Bool.not_false, if_true, e, hown, msear_pointer.arrow]

/-- C11: for an iterator (mutable or read-only) at position `i` in `[0, N]` over a
container of capacity `N` (`N = 0` included), `points_to_an_item()` returns true
iff `i < N` and `points_to_end_marker()` returns true iff `i == N`, so exactly
one of the two is true; `has_next()` returns what `points_to_an_item()` returns. -/
theorem C11_points_to_item_xor_end_marker (N this : Nat)
    (it : ss_iterator_type) (hit : it.over N this)
    (cit : ss_const_iterator_type) (hcit : cit.over N this) :
    (it.points_to_an_item N = .ok (decide (it.position < N)) ∧
      it.points_to_end_marker N = .ok (decide (it.position = N)) ∧
      ((it.points_to_an_item N = .ok true ∧ it.points_to_end_marker N = .ok false) ∨
        (it.points_to_an_item N = .ok false ∧ it.points_to_end_marker N = .ok true)) ∧
      it.has_next N = it.points_to_an_item N) ∧
    (cit.points_to_an_item N = .ok (decide (cit.position < N)) ∧
      cit.points_to_end_marker N = .ok (decide (cit.position = N)) ∧
      ((cit.points_to_an_item N = .ok true ∧ cit.points_to_end_marker N = .ok false) ∨
        (cit.points_to_an_item N = .ok false ∧ cit.points_to_end_marker N = .ok true)) ∧
      cit.has_next N = cit.points_to_an_item N) := by
  have h1 := points_to_an_item_spec N this it hit
  have h2 := points_to_end_marker_spec N this it hit
  have c1 := points_to_an_item_spec_const N this cit hcit
  have c2 := points_to_end_marker_spec_const N this cit hcit
  have hle := hit.2
  have hcle := hcit.2
  simp only [ss_iterator_type.position, ss_const_iterator_type.position]
  refine ⟨⟨h1, h2, ?_, rfl⟩, ⟨c1, c2, ?_, rfl⟩⟩
  · rw [h1, h2]
    by_cases hlt : it.m_index < N
    · have hne : it.m_index ≠ N := by omega
      simp [hlt, hne]
    · have heq : it.m_index = N := by omega
      simp [heq]
  · rw [c1, c2]
    by_cases hlt : cit.m_index < N
    · have hne : cit.m_index ≠ N := by omega
      simp [hlt, hne]
    · have heq : cit.m_index = N := by omega
      simp [heq]

/-- C11 at capacity 0: the iterator at position 0 is at the end marker. -/
theorem C11_points_to_item_xor_end_marker_witness :
    ss_iterator_type.points_to_an_item 0 ⟨some (7, 0), 0, ⟨some 7⟩⟩ = .ok false ∧
    ss_iterator_type.points_to_end_marker 0 ⟨some (7, 0), 0, ⟨some 7⟩⟩ = .ok true :=
  have h := (C11_points_to_item_xor_end_marker 0 7
    ⟨some (7, 0), 0, ⟨some 7⟩⟩ ⟨rfl, by decide⟩
    ⟨some (7, 0), 0, ⟨some 7⟩⟩ ⟨rfl, by decide⟩).1
  ⟨h.1, h.2.1⟩

/-- C12: for an iterator (mutable or read-only) at position `i` in `[0, N]`,
`set_to_previous()` (and the prefix `operator--`, which calls it) fails with
`std::out_of_range` iff `i == 0`; otherwise it succeeds and afterwards
`position() == i - 1`. `has_previous()` is true exactly when `set_to_previous()`
succeeds. -/
theorem C12_set_to_previous_fails_iff_at_beginning (N this : Nat) (hN : N < 2 ^ 64)
    (it : ss_iterator_type) (hit : it.over N this)
    (cit : ss_const_iterator_type) (hcit : cit.over N this) :
    (((it.set_to_previous).1 = .error (.out_of_range .set_to_previous) ↔ it.position = 0) ∧
      (it.position ≠ 0 →
        (it.set_to_previous).1 = .ok () ∧ (it.set_to_previous).2.position = it.position - 1) ∧
      (it.has_previous = true ↔ (it.set_to_previous).1 = .ok ()) ∧
      it.operator_decrement = it.set_to_previous) ∧
    (((cit.set_to_previous).1 = .error (.out_of_range .set_to_previous) ↔ cit.position = 0) ∧
      (cit.position ≠ 0 →
        (cit.set_to_previous).1 = .ok () ∧
        (cit.set_to_previous).2.position = cit.position - 1) ∧
      (cit.has_previous = true ↔ (cit.set_to_previous).1 = .ok ()) ∧
      cit.operator_decrement = cit.set_to_previous) := by
  have e := set_to_previous_spec N this hN it hit
  have ec := set_to_previous_spec_const N this hN cit hcit
  simp only [ss_iterator_type.position, ss_const_iterator_type.position,
    ss_iterator_type.has_previous, ss_iterator_type.points_to_beginning,
    ss_const_iterator_type.has_previous, ss_const_iterator_type.points_to_beginning]
  refine ⟨⟨?_, ?_, ?_, rfl⟩, ⟨?_, ?_, ?_, rfl⟩⟩
  · rw [e]
    by_cases h0 : it.m_index = 0 <;> simp [h0]
  · intro h0
    rw [e]
    simp [h0]
  · rw [e]
    by_cases h0 : it.m_index = 0
    · simp [h0]
    · have h1 : ¬ (0 = it.m_index) := fun h => h0 h.symm
      simp [h0, h1]
  · rw [ec]
    by_cases h0 : cit.m_index = 0 <;> simp [h0]
  · intro h0
    rw [ec]
    simp [h0]
  · rw [ec]
    by_cases h0 : cit.m_index = 0
    · simp [h0]
    · have h1 : ¬ (0 = cit.m_index) := fun h => h0 h.symm
      simp [h0, h1]

/-- C12 at capacity 3: `set_to_previous()` fails at position 0 and moves the
iterator from position 3 to position 2. -/
theorem C12_set_to_previous_fails_iff_at_beginning_witness :
    (ss_iterator_type.set_to_previous ⟨some (7, 0), 0, ⟨some 7⟩⟩).1 =
      .error (.out_of_range .set_to_previous) ∧
    (ss_iterator_type.set_to_previous ⟨some (7, 3), 3, ⟨some 7⟩⟩).2.position = 2 :=
  ⟨(C12_set_to_previous_fails_iff_at_beginning 3 7 (by norm_num)
      ⟨some (7, 0), 0, ⟨some 7⟩⟩ ⟨rfl, by decide⟩
      ⟨some (7, 0), 0, ⟨some 7⟩⟩ ⟨rfl, by decide⟩).1.1.2 rfl,
   ((C12_set_to_previous_fails_iff_at_beginning 3 7 (by norm_num)
      ⟨some (7, 3), 3, ⟨some 7⟩⟩ ⟨rfl, by decide⟩
      ⟨some (7, 3), 3, ⟨some 7⟩⟩ ⟨rfl, by decide⟩).1.2.1 (by decide)).2⟩

/-- C13: for an iterator (mutable or read-only) at position `i` in `[0, N]` over
the container of capacity `N` at address `this`, `previous_item()` fails with
`std::out_of_range` iff `i == 0`; otherwise it returns the element of the
container at index `i - 1`, the last element when `i == N`. The member assigns
nothing, so the iterator is after the call what it was before. -/
theorem C13_previous_item_fails_iff_at_beginning {T : Type} {N : Nat} (hN : N < 2 ^ 64)
    (mem : Nat → msearray T N) (this : Nat)
    (it : ss_iterator_type) (hit : it.over N this)
    (cit : ss_const_iterator_type) (hcit : cit.over N this) :
    ((it.previous_item mem = .error (.out_of_range .previous_item) ↔ it.position = 0) ∧
      (it.position ≠ 0 →
        ∃ h : it.position - 1 < N,
          it.previous_item mem = .ok ((mem this).elems ⟨it.position - 1, h⟩))) ∧
    ((cit.previous_item mem = .error (.out_of_range .previous_item) ↔ cit.position = 0) ∧
      (cit.position ≠ 0 →
        ∃ h : cit.position - 1 < N,
          cit.previous_item mem = .ok ((mem this).elems ⟨cit.position - 1, h⟩))) := by
  rw [previous_item_spec hN mem this it hit, previous_item_spec_const hN mem this cit hcit]
  have hle := hit.2
  have hcle := hcit.2
  simp only [ss_iterator_type.position, ss_const_iterator_type.position]
  constructor
  · constructor
    · by_cases h0 : it.m_index = 0
      · simp [h0]
      · have hlt : it.m_index - 1 < N := by omega
        simp [h0, msearray.«at», hlt]
    · intro h0
      have hlt : it.m_index - 1 < N := by omega
      exact ⟨hlt, by simp [h0, msearray.«at», hlt]⟩
  · constructor
    · by_cases h0 : cit.m_index = 0
      · simp [h0]
      · have hlt : cit.m_index - 1 < N := by omega
        simp [h0, msearray.«at», hlt]
    · intro h0
      have hlt : cit.m_index - 1 < N := by omega
      exact ⟨hlt, by simp [h0, msearray.«at», hlt]⟩

/-- C13 on the container `[11, 12, 13]` at address 7: `previous_item()` fails at
position 0 and reads the last element, 13, at the end marker. -/
theorem C13_previous_item_fails_iff_at_beginning_witness :
    ss_iterator_type.previous_item (fun _ => (⟨![11, 12, 13]⟩ : msearray Nat 3))
      ⟨some (7, 0), 0, ⟨some 7⟩⟩ = .error (.out_of_range .previous_item) ∧
    ss_iterator_type.previous_item (fun _ => (⟨![11, 12, 13]⟩ : msearray Nat 3))
      ⟨some (7, 3), 3, ⟨some 7⟩⟩ = .ok 13 := by
  have h0 := (C13_previous_item_fails_iff_at_beginning (by norm_num)
    (fun _ => (⟨![11, 12, 13]⟩ : msearray Nat 3)) 7
    ⟨some (7, 0), 0, ⟨some 7⟩⟩ ⟨rfl, by decide⟩
    ⟨some (7, 0), 0, ⟨some 7⟩⟩ ⟨rfl, by decide⟩).1.1.2 rfl
  obtain ⟨_, h3⟩ := (C13_previous_item_fails_iff_at_beginning (by norm_num)
    (fun _ => (⟨![11, 12, 13]⟩ : msearray Nat 3)) 7
    ⟨some (7, 3), 3, ⟨some 7⟩⟩ ⟨rfl, by decide⟩
    ⟨some (7, 3), 3, ⟨some 7⟩⟩ ⟨rfl, by decide⟩).1.2 (by decide)
  exact ⟨h0, h3.trans rfl⟩

/-! ## Conversion, construction and the accessors (C14 to C18) -/

/-- C14, the code at a failing input: converting the mutable iterator at position
1 of the container of capacity 3 at address 7 returns the default-constructed
read-only iterator, with a null owner and position 0, where the claim has a
read-only iterator bound to the same container at position 1. -/
theorem C14_conversion_returns_default_iterator :
    ss_iterator_type.operator_ss_const_iterator_type 3 ⟨some (7, 1), 1, ⟨some 7⟩⟩ =
      .ok ⟨none, 0, ⟨none⟩⟩ ∧
    (⟨none, 0, ⟨none⟩⟩ : ss_const_iterator_type).position ≠ 1 ∧
    (⟨none, 0, ⟨none⟩⟩ : ss_const_iterator_type).m_owner_cptr ≠ ⟨some 7⟩ :=
  ⟨rfl, by decide, by decide⟩

/-- C15, the code at a failing input: constructing a container of capacity 3
from the two values `1, 2` reads the initializer list at index 2, past its end,
instead of filling the last slot with the default value. -/
theorem C15_short_initializer_list_read_past_end :
    msearray.from_initializer_list (fun _ => 0 : Fin 3 → Nat) [1, 2] =
      .error .undefined_behavior := by
  simp [msearray.from_initializer_list, msearray.ctor_copy_loop]

/-- C16: `front()` and `back()`, mutable and const, fail with `std::out_of_range`
iff the capacity `N` is 0; for `N >= 1`, `front()` returns the element at index 0
and `back()` the element at index `N - 1`. -/
theorem C16_front_back_fail_iff_empty {T : Type} {N : Nat} (a : msearray T N) :
    ((a.front = .error (.out_of_range .front) ↔ N = 0) ∧
      (a.front_const = .error (.out_of_range .front) ↔ N = 0) ∧
      (a.back = .error (.out_of_range .back) ↔ N = 0) ∧
      (a.back_const = .error (.out_of_range .back) ↔ N = 0)) ∧
    (∀ h : 0 < N,
      a.front = .ok (a.elems ⟨0, h⟩) ∧ a.front_const = .ok (a.elems ⟨0, h⟩) ∧
      a.back = .ok (a.elems ⟨N - 1, Nat.sub_lt h Nat.one_pos⟩) ∧
      a.back_const = .ok (a.elems ⟨N - 1, Nat.sub_lt h Nat.one_pos⟩)) := by
  unfold msearray.front msearray.front_const msearray.back msearray.back_const
  constructor
  · by_cases h : 0 = N
    · subst h
      simp
    · have h2 : N ≠ 0 := fun h0 => h h0.symm
      simp [h, h2]
  · intro h
    have h0 : ¬ (0 = N) := by omega
    simp [h0]

/-- C17: for the container of capacity `N` at address `this`, the mutable
`ss_begin()` returns an iterator bound to it with `position() == 0`, and the
mutable `ss_end()` an iterator bound to it with `position() == N` for which
`points_to_end_marker()` is true; for `N == 0` the two compare equal. -/
theorem C17_ss_begin_and_ss_end (N this : Nat) :
    (∃ b : ss_iterator_type, msearray.ss_begin this = .ok b ∧
      b.m_owner_ptr = ⟨some this⟩ ∧ b.position = 0) ∧
    (∃ e : ss_iterator_type, msearray.ss_end N this = .ok e ∧
      e.m_owner_ptr = ⟨some this⟩ ∧ e.position = N ∧ e.points_to_end_marker N = .ok true) ∧
    (∃ b e : ss_iterator_type, msearray.ss_begin this = .ok b ∧
      msearray.ss_end 0 this = .ok e ∧ b.operator_eq e = true ∧ b.operator_ne e = false) := by
  have he : msearray.ss_end N this = .ok ⟨some (this, (N : Int)), N, ⟨some this⟩⟩ := rfl
  have he0 : msearray.ss_end 0 this = .ok ⟨some (this, ((0 : Nat) : Int)), 0, ⟨some this⟩⟩ := rfl
  refine ⟨⟨_, ss_begin_eq this, rfl, rfl⟩, ⟨_, he, rfl, rfl, ?_⟩,
    ⟨_, _, ss_begin_eq this, he0, ?_, ?_⟩⟩
  · have h := points_to_end_marker_spec N this ⟨some (this, (N : Int)), N, ⟨some this⟩⟩
      ⟨rfl, Nat.le_refl _⟩
    rw [h]
    simp
  · simp [ss_iterator_type.operator_eq]
  · simp [ss_iterator_type.operator_ne, ss_iterator_type.operator_eq]

/-- C18, the code at a failing input: for the container of capacity 3 at address
7, `ss_cbegin()` and `ss_begin() const` return the read-only iterator bound to
it at position 0, but `ss_cend()` and `ss_end() const` call a member the
read-only iterator does not have and return no iterator, where the mutable
`ss_end()` returns the iterator at position 3. -/
theorem C18_read_only_end_accessors_have_no_result :
    msearray.ss_cbegin 7 = .ok ⟨some (7, 0), 0, ⟨some 7⟩⟩ ∧
    msearray.ss_begin_const 7 = .ok ⟨some (7, 0), 0, ⟨some 7⟩⟩ ∧
    msearray.ss_cend 3 7 = none ∧
    msearray.ss_end_const 3 7 = none ∧
    msearray.ss_end 3 7 = .ok ⟨some (7, 3), 3, ⟨some 7⟩⟩ :=
  ⟨rfl, rfl, rfl, rfl, rfl⟩

/-! ## The two iterator classes step alike (C19) -/

theorem points_to_an_item_sim (N : Nat) (it : ss_iterator_type) (cit : ss_const_iterator_type)
    (h : it.m_index = cit.m_index ∧ it.m_owner_ptr = cit.m_owner_cptr) :
    it.points_to_an_item N = cit.points_to_an_item N := by
  unfold ss_iterator_type.points_to_an_item ss_const_iterator_type.points_to_an_item
  rw [h.1, h.2]

theorem points_to_end_marker_sim (N : Nat) (it : ss_iterator_type) (cit : ss_const_iterator_type)
    (h : it.m_index = cit.m_index ∧ it.m_owner_ptr = cit.m_owner_cptr) :
    it.points_to_end_marker N = cit.points_to_end_marker N := by
  unfold ss_iterator_type.points_to_end_marker ss_const_iterator_type.points_to_end_marker
  rw [points_to_an_item_sim N it cit h, h.1, h.2]

theorem set_to_beginning_sim (it : ss_iterator_type) (cit : ss_const_iterator_type)
    (h : it.m_index = cit.m_index ∧ it.m_owner_ptr = cit.m_owner_cptr) :
    ∀ r rc, it.set_to_beginning = r → cit.set_to_beginning = rc →
      r.1 = rc.1 ∧ r.2.m_index = rc.2.m_index ∧ r.2.m_owner_ptr = rc.2.m_owner_cptr := by
  intro r rc hr hrc
  obtain ⟨b, i, p⟩ := it
  obtain ⟨cb, ci, cp⟩ := cit
  obtain ⟨h1, h2⟩ := h
  dsimp only at h1 h2
  subst h1 h2
  unfold ss_iterator_type.set_to_beginning at hr
  unfold ss_const_iterator_type.set_to_beginning at hrc
  dsimp only at hr hrc
  cases hp : p.arrow with
  | error e => rw [hp] at hr hrc; subst hr hrc; exact ⟨rfl, rfl, rfl⟩
  | ok a => rw [hp] at hr hrc; subst hr hrc; exact ⟨rfl, rfl, rfl⟩

theorem set_to_end_marker_sim (N : Nat) (it : ss_iterator_type) (cit : ss_const_iterator_type)
    (h : it.m_index = cit.m_index ∧ it.m_owner_ptr = cit.m_owner_cptr) :
    ∀ r rc, it.set_to_end_marker N = r → cit.set_to_end_marker N = rc →
      r.1 = rc.1 ∧ r.2.m_index = rc.2.m_index ∧ r.2.m_owner_ptr = rc.2.m_owner_cptr := by
  intro r rc hr hrc
  obtain ⟨b, i, p⟩ := it
  obtain ⟨cb, ci, cp⟩ := cit
  obtain ⟨h1, h2⟩ := h
  dsimp only at h1 h2
  subst h1 h2
  unfold ss_iterator_type.set_to_end_marker at hr
  unfold ss_const_iterator_type.set_to_end_marker at hrc
  dsimp only at hr hrc
  cases hp : p.arrow with
  | error e => rw [hp] at hr hrc; subst hr hrc; exact ⟨rfl, rfl, rfl⟩
  | ok a => rw [hp] at hr hrc; subst hr hrc; exact ⟨rfl, rfl, rfl⟩

theorem set_to_next_sim (N : Nat) (it : ss_iterator_type) (cit : ss_const_iterator_type)
    (h : it.m_index = cit.m_index ∧ it.m_owner_ptr = cit.m_owner_cptr) :
    ∀ r rc, it.set_to_next N = r → cit.set_to_next N = rc →
      r.1 = rc.1 ∧ r.2.m_index = rc.2.m_index ∧ r.2.m_owner_ptr = rc.2.m_owner_cptr := by
  intro r rc hr hrc
  have hp := points_to_an_item_sim N it cit h
  unfold ss_iterator_type.set_to_next at hr
  unfold ss_const_iterator_type.set_to_next at hrc
  rw [hp] at hr
  obtain ⟨b, i, p⟩ := it
  obtain ⟨cb, ci, cp⟩ := cit
  obtain ⟨h1, h2⟩ := h
  dsimp only at h1 h2
  subst h1 h2
  dsimp only at hr hrc
  cases hq : ss_const_iterator_type.points_to_an_item N ⟨cb, i, p⟩ with
  | error e => rw [hq] at hr hrc; subst hr hrc; exact ⟨rfl, rfl, rfl⟩
  | ok v =>
    rw [hq] at hr hrc
    cases v with
    | false => subst hr hrc; exact ⟨rfl, rfl, rfl⟩
    | true =>
      dsimp only at hr hrc
      cases ha : p.arrow with
      | error e => rw [ha] at hr hrc; subst hr hrc; exact ⟨rfl, rfl, rfl⟩
      | ok a =>
        rw [ha] at hr hrc
        dsimp only at hr hrc
        split_ifs at hr hrc
        · subst hr hrc; exact ⟨rfl, rfl, rfl⟩
        · subst hr hrc; exact ⟨rfl, rfl, rfl⟩
        · subst hr hrc; exact ⟨rfl, rfl, rfl⟩

theorem set_to_previous_sim (it : ss_iterator_type) (cit : ss_const_iterator_type)
    (h : it.m_index = cit.m_index ∧ it.m_owner_ptr = cit.m_owner_cptr) :
    ∀ r rc, it.set_to_previous = r → cit.set_to_previous = rc →
      r.1 = rc.1 ∧ r.2.m_index = rc.2.m_index ∧ r.2.m_owner_ptr = rc.2.m_owner_cptr := by
  intro r rc hr hrc
  obtain ⟨b, i, p⟩ := it
  obtain ⟨cb, ci, cp⟩ := cit
  obtain ⟨h1, h2⟩ := h
  dsimp only at h1 h2
  subst h1 h2
  unfold ss_iterator_type.set_to_previous ss_iterator_type.has_previous
    ss_iterator_type.points_to_beginning at hr
  unfold ss_const_iterator_type.set_to_previous ss_const_iterator_type.has_previous
    ss_const_iterator_type.points_to_beginning at hrc
  dsimp only at hr hrc
  by_cases h0 : 0 = i
  · simp only [h0, if_true, Bool.not_true, Bool.false_eq_true, if_false] at hr hrc
    subst hr hrc; exact ⟨rfl, rfl, rfl⟩
  · simp only [h0, if_false, Bool.not_false, if_true] at hr hrc
    subst hr hrc; exact ⟨rfl, rfl, rfl⟩

theorem advance_sim (N : Nat) (n : Int) (it : ss_iterator_type) (cit : ss_const_iterator_type)
    (h : it.m_index = cit.m_index ∧ it.m_owner_ptr = cit.m_owner_cptr) :
    ∀ r rc, it.advance N n = r → cit.advance N n = rc →
      r.1 = rc.1 ∧ r.2.m_index = rc.2.m_index ∧ r.2.m_owner_ptr = rc.2.m_owner_cptr := by
  intro r rc hr hrc
  obtain ⟨b, i, p⟩ := it
  obtain ⟨cb, ci, cp⟩ := cit
  obtain ⟨h1, h2⟩ := h
  dsimp only at h1 h2
  subst h1 h2
  unfold ss_iterator_type.advance at hr
  unfold ss_const_iterator_type.advance at hrc
  dsimp only at hr hrc
  cases hp : p.arrow with
  | error e =>
    rw [hp] at hr hrc
    dsimp only at hr hrc
    split_ifs at hr hrc
    · subst hr hrc; exact ⟨rfl, rfl, rfl⟩
    · subst hr hrc; exact ⟨rfl, rfl, rfl⟩
  | ok a =>
    rw [hp] at hr hrc
    dsimp only at hr hrc
    split_ifs at hr hrc
    · subst hr hrc; exact ⟨rfl, rfl, rfl⟩
    · subst hr hrc; exact ⟨rfl, rfl, rfl⟩
    · subst hr hrc; exact ⟨rfl, rfl, rfl⟩

theorem invalidate_inclusive_range_sim (N first last : Nat) (it : ss_iterator_type)
    (cit : ss_const_iterator_type)
    (h : it.m_index = cit.m_index ∧ it.m_owner_ptr = cit.m_owner_cptr) :
    ∀ r rc, it.invalidate_inclusive_range N first last = r →
      cit.invalidate_inclusive_range N first last = rc →
      r.1 = rc.1 ∧ r.2.m_index = rc.2.m_index ∧ r.2.m_owner_ptr = rc.2.m_owner_cptr := by
  intro r rc hr hrc
  unfold ss_iterator_type.invalidate_inclusive_range ss_iterator_type.reset at hr
  unfold ss_const_iterator_type.invalidate_inclusive_range ss_const_iterator_type.reset at hrc
  rw [← h.1] at hrc
  split_ifs at hr hrc
  · exact set_to_end_marker_sim N it cit h r rc hr hrc
  · subst hr hrc; exact ⟨rfl, h.1, h.2⟩

theorem shift_inclusive_range_sim (N first last : Nat) (shift : Int) (it : ss_iterator_type)
    (cit : ss_const_iterator_type)
    (h : it.m_index = cit.m_index ∧ it.m_owner_ptr = cit.m_owner_cptr) :
    ∀ r rc, it.shift_inclusive_range N first last shift = r →
      cit.shift_inclusive_range N first last shift = rc →
      r.1 = rc.1 ∧ r.2.m_index = rc.2.m_index ∧ r.2.m_owner_ptr = rc.2.m_owner_cptr := by
  intro r rc hr hrc
  obtain ⟨b, i, p⟩ := it
  obtain ⟨cb, ci, cp⟩ := cit
  obtain ⟨h1, h2⟩ := h
  dsimp only at h1 h2
  subst h1 h2
  unfold ss_iterator_type.shift_inclusive_range ss_iterator_type.sync_iterator_to_index at hr
  unfold ss_const_iterator_type.shift_inclusive_range
    ss_const_iterator_type.sync_const_iterator_to_index at hrc
  dsimp only at hr hrc
  cases hp : p.arrow with
  | error e =>
    rw [hp] at hr hrc
    dsimp only at hr hrc
    split_ifs at hr hrc
    · subst hr hrc; exact ⟨rfl, rfl, rfl⟩
    · subst hr hrc; exact ⟨rfl, rfl, rfl⟩
    · subst hr hrc; exact ⟨rfl, rfl, rfl⟩
  | ok a =>
    rw [hp] at hr hrc
    dsimp only at hr hrc
    split_ifs at hr hrc
    · subst hr hrc; exact ⟨rfl, rfl, rfl⟩
    · subst hr hrc; exact ⟨rfl, rfl, rfl⟩
    · subst hr hrc; exact ⟨rfl, rfl, rfl⟩
    · subst hr hrc; exact ⟨rfl, rfl, rfl⟩
    · subst hr hrc; exact ⟨rfl, rfl, rfl⟩

theorem call_sim (N : Nat) (c : Call) (it : ss_iterator_type) (cit : ss_const_iterator_type)
    (h : it.m_index = cit.m_index ∧ it.m_owner_ptr = cit.m_owner_cptr) :
    ∀ r rc, it.call N c = r → cit.call N c = rc →
      r.1 = rc.1 ∧ r.2.m_index = rc.2.m_index ∧ r.2.m_owner_ptr = rc.2.m_owner_cptr := by
  intro r rc hr hrc
  cases c with
  | set_to_beginning => exact set_to_beginning_sim it cit h r rc hr hrc
  | set_to_end_marker => exact set_to_end_marker_sim N it cit h r rc hr hrc
  | set_to_next => exact set_to_next_sim N it cit h r rc hr hrc
  | set_to_previous => exact set_to_previous_sim it cit h r rc hr hrc
  | advance n => exact advance_sim N n it cit h r rc hr hrc
  | regress n => exact advance_sim N (to_int64 (-n)) it cit h r rc hr hrc
  | invalidate_inclusive_range f l =>
    exact invalidate_inclusive_range_sim N f l it cit h r rc hr hrc
  | shift_inclusive_range f l s =>
    exact shift_inclusive_range_sim N f l s it cit h r rc hr hrc

theorem trace_sim (N : Nat) (calls : List Call) :
    ∀ (it : ss_iterator_type) (cit : ss_const_iterator_type),
      it.m_index = cit.m_index ∧ it.m_owner_ptr = cit.m_owner_cptr →
      it.trace N calls = cit.trace N calls := by
  induction calls with
  | nil => intro it cit _; rfl
  | cons c calls ih =>
    intro it cit h
    obtain ⟨h1, h2, h3⟩ := call_sim N c it cit h _ _ rfl rfl
    have hobs : (it.call N c).2.observe N = (cit.call N c).2.observe N := by
      unfold ss_iterator_type.observe ss_const_iterator_type.observe
        ss_iterator_type.position ss_const_iterator_type.position
      rw [h2, points_to_an_item_sim N _ _ ⟨h2, h3⟩, points_to_end_marker_sim N _ _ ⟨h2, h3⟩]
    unfold ss_iterator_type.trace ss_const_iterator_type.trace
    rw [h1, hobs, ih _ _ ⟨h2, h3⟩]

/-- C19: the mutable and the read-only iterator implement the same position
state machine. For every capacity `N`, every mutable iterator `it` and read-only
iterator `cit` that start at the same position with the same owner, and every
sequence of calls among `set_to_beginning`, `set_to_end_marker`, `set_to_next`,
`set_to_previous`, `advance`, `regress`, `invalidate_inclusive_range` and
`shift_inclusive_range`, the two succeed or fail on the same calls (with the
same exception) and report equal `position()`, `points_to_an_item()` and
`points_to_end_marker()` after each call. -/
theorem C19_mutable_and_read_only_iterators_agree (N : Nat) (calls : List Call)
    (it : ss_iterator_type) (cit : ss_const_iterator_type)
    (hpos : it.position = cit.position) (hown : it.m_owner_ptr = cit.m_owner_cptr) :
    it.trace N calls = cit.trace N calls :=
  trace_sim N calls it cit ⟨hpos, hown⟩

/-- C19 at capacity 3, from position 1 of the container at address 7: a step
forward, an `advance(5)` that fails, a shift of the range `[0, 3]` by `-2`, two
steps back that fail at position 0, an invalidation of `[0, 0]` and a
`set_to_end_marker()`. -/
theorem C19_mutable_and_read_only_iterators_agree_witness :
    ss_iterator_type.trace 3
        [.set_to_next, .advance 5, .shift_inclusive_range 0 3 (-2), .set_to_previous,
          .set_to_previous, .invalidate_inclusive_range 0 0, .set_to_end_marker]
        ⟨some (7, 1), 1, ⟨some 7⟩⟩ =
      ss_const_iterator_type.trace 3
        [.set_to_next, .advance 5, .shift_inclusive_range 0 3 (-2), .set_to_previous,
          .set_to_previous, .invalidate_inclusive_range 0 0, .set_to_end_marker]
        ⟨some (7, 1), 1, ⟨some 7⟩⟩ :=
  C19_mutable_and_read_only_iterators_agree 3 _ _ _ rfl rfl

/-! ## Signed values into CSize_t (C20) -/

theorem signed_source_facts (S : IntType)
    (hS : S ∈ [IntType.char, IntType.short, IntType.int, IntType.long, IntType.long_long]) :
    S.is_signed = true ∧ S.digits ≤ 63 ∧ S.max ≤ 2 ^ 63 - 1 := by
  simp only [List.mem_cons, List.mem_singleton, List.not_mem_nil, or_false] at hS
  rcases hS with h | h | h | h | h <;> subst h <;> decide

theorem g_assign_check_range_size_t_of_signed (S : IntType) (hs : S.is_signed = true)
    (hd : S.digits ≤ 63) (v : Int) :
    g_assign_check_range IntType.size_t S v =
      if 0 > v then .error (.out_of_range .range_check) else .ok () := by
  have h1 : ¬ (S.digits > 1 + 64) := by omega
  have h2 : sg_can_exceed_upper_bound IntType.size_t S = false := by
    simp [sg_can_exceed_upper_bound, hs, IntType.size_t, h1]
  have h3 : sg_can_exceed_lower_bound IntType.size_t S = true := by
    simp [sg_can_exceed_lower_bound, hs, IntType.size_t]
  have h4 : (0 : Int) = IntType.size_t.lowest := by
    simp [IntType.lowest, IntType.size_t]
  unfold g_assign_check_range
  simp only [h2, h3, Bool.false_or, if_true, Bool.false_eq_true, false_and, if_false, ← h4]

theorem size_t_cast_of_range (v : Int) (h1 : 0 ≤ v) (h2 : v < 2 ^ 64) :
    IntType.size_t.cast v = v := by
  have e : IntType.size_t.cast v = v % 2 ^ 64 := by
    simp [IntType.cast, IntType.size_t]
  rw [e]
  exact Int.emod_eq_of_lt h1 h2

theorem note_value_assignment_eq (check : Bool) (b : TIntBase1) :
    b.note_value_assignment check = ⟨b.m_val, check || b.m_initialized⟩ := by
  cases check <;> simp [TIntBase1.note_value_assignment]

theorem assert_initialized_of_noted (check : Bool) (v : Int) (i : Bool) :
    TIntBase1.assert_initialized check ⟨v, check || i⟩ = .ok () := by
  cases check <;> simp [TIntBase1.assert_initialized]

theorem as_a_size_t_eq (check : Bool) (c : CSize_t) :
    as_a_size_t check (CSize_t.copy check c) = .ok c.m_val := by
  unfold as_a_size_t CSize_t.copy TIntBase1.copy
  simp only [note_value_assignment_eq, assert_initialized_of_noted]

theorem as_a_size_t_of_noted (check : Bool) (v : Int) (i : Bool) :
    as_a_size_t check ⟨⟨v, check || i⟩⟩ = .ok v := by
  unfold as_a_size_t
  simp only [assert_initialized_of_noted]

theorem from_native_spec (check : Bool) (S : IntType) (hs : S.is_signed = true)
    (hd : S.digits ≤ 63) (v : Int) (hv : v ≤ 2 ^ 63 - 1) :
    CSize_t.from_native check S v =
      if 0 > v then .error (.out_of_range .range_check)
      else .ok ⟨⟨v, check || false⟩⟩ := by
  unfold CSize_t.from_native TIntBase1.assign_check_range CSize_t._Ty
  simp only [g_assign_check_range_size_t_of_signed S hs hd v, note_value_assignment_eq]
  by_cases h : 0 > v
  · simp only [h, if_true]
  · have e := size_t_cast_of_range v (by omega) (by norm_num at hv ⊢; omega)
    simp only [h, if_false, e]

theorem assign_native_spec (check : Bool) (S : IntType) (hs : S.is_signed = true)
    (hd : S.digits ≤ 63) (v : Int) (hv : v ≤ 2 ^ 63 - 1) (target : CSize_t) :
    target.assign_native check S v =
      if 0 > v then (.error (.out_of_range .range_check),
        ⟨⟨target.m_val, check || target.m_initialized⟩⟩)
      else (.ok (), ⟨⟨v, check || target.m_initialized⟩⟩) := by
  unfold CSize_t.assign_native TIntBase1.assign_check_range CSize_t._Ty
  simp only [g_assign_check_range_size_t_of_signed S hs hd v, note_value_assignment_eq]
  by_cases h : 0 > v
  · simp only [h, if_true]
  · have e := size_t_cast_of_range v (by omega) (by norm_num at hv ⊢; omega)
    simp only [h, if_false, e]

theorem copied_CInt_converts (check : Bool) (x : CInt) :
    (CInt.copy check x).operator_Ty check = .ok x.m_val := by
  unfold CInt.operator_Ty CInt.copy TIntBase1.copy
  simp only [note_value_assignment_eq, assert_initialized_of_noted]

theorem CInt_operator_Ty_of_ok (check : Bool) (x : CInt)
    (hi : x.toTIntBase1.assert_initialized check = .ok ()) :
    x.operator_Ty check = .ok x.m_val := by
  unfold CInt.operator_Ty
  rw [hi]

theorem from_CInt_spec (check : Bool) (x : CInt)
    (hi : x.toTIntBase1.assert_initialized check = .ok ()) (hx : x.m_val ≤ 2 ^ 63 - 1) :
    CSize_t.from_CInt check x =
      if 0 > x.m_val then .error (.out_of_range .range_check)
      else .ok ⟨⟨x.m_val, check || false⟩⟩ := by
  unfold CSize_t.from_CInt TIntBase1.assign_check_range CSize_t._Ty CInt._Ty
  simp only [CInt_operator_Ty_of_ok check x hi,
    g_assign_check_range_size_t_of_signed IntType.long rfl (Nat.le_refl 63) x.m_val,
    note_value_assignment_eq]
  by_cases h : 0 > x.m_val
  · simp only [h, if_true]
  · have e := size_t_cast_of_range x.m_val (by omega) (by norm_num at hx ⊢; omega)
    simp only [h, if_false, e]

theorem assign_CInt_spec (check : Bool) (x : CInt)
    (hi : x.toTIntBase1.assert_initialized check = .ok ()) (hx : x.m_val ≤ 2 ^ 63 - 1)
    (target : CSize_t) :
    target.assign_CInt check x =
      if 0 > x.m_val then (.error (.out_of_range .range_check),
        ⟨⟨target.m_val, check || target.m_initialized⟩⟩)
      else (.ok (), ⟨⟨x.m_val, check || target.m_initialized⟩⟩) := by
  unfold CSize_t.assign_CInt TIntBase1.assign_check_range CSize_t._Ty CInt._Ty
  simp only [CInt_operator_Ty_of_ok check x hi,
    g_assign_check_range_size_t_of_signed IntType.long rfl (Nat.le_refl 63) x.m_val,
    note_value_assignment_eq]
  by_cases h : 0 > x.m_val
  · simp only [h, if_true]
  · have e := size_t_cast_of_range x.m_val (by omega) (by norm_num at hx ⊢; omega)
    simp only [h, if_false, e]

theorem operator_size_t_of_noted (check : Bool) (v : Int) (i : Bool) :
    CSize_t.operator_size_t check ⟨⟨v, check || i⟩⟩ = .ok v := by
  unfold CSize_t.operator_size_t
  simp only [assert_initialized_of_noted]

theorem copied_CInt_m_val (check : Bool) (x : CInt) : (CInt.copy check x).m_val = x.m_val := by
  cases check <;> rfl

theorem copied_CInt_is_assigned (check : Bool) (x : CInt) :
    (CInt.copy check x).toTIntBase1.assert_initialized check = .ok () := by
  unfold CInt.copy TIntBase1.copy
  simp only [note_value_assignment_eq, assert_initialized_of_noted]

theorem from_CInt_copy_spec (check : Bool) (x : CInt) (hx : x.m_val ≤ 2 ^ 63 - 1) :
    CSize_t.from_CInt check (CInt.copy check x) =
      if 0 > x.m_val then .error (.out_of_range .range_check)
      else .ok ⟨⟨x.m_val, check || false⟩⟩ := by
  rw [from_CInt_spec check _ (copied_CInt_is_assigned check x)
    (by rw [copied_CInt_m_val]; exact hx), copied_CInt_m_val]

theorem assign_CInt_copy_spec (check : Bool) (x : CInt) (hx : x.m_val ≤ 2 ^ 63 - 1)
    (target : CSize_t) :
    target.assign_CInt check (CInt.copy check x) =
      if 0 > x.m_val then (.error (.out_of_range .range_check),
        ⟨⟨target.m_val, check || target.m_initialized⟩⟩)
      else (.ok (), ⟨⟨x.m_val, check || target.m_initialized⟩⟩) := by
  rw [assign_CInt_spec check _ (copied_CInt_is_assigned check x)
    (by rw [copied_CInt_m_val]; exact hx), copied_CInt_m_val]

theorem signed_value_into_CSize_t_direct (check : Bool) (S : IntType)
    (hS : S ∈ [IntType.char, IntType.short, IntType.int, IntType.long, IntType.long_long])
    (v : Int) (hv : v ≤ S.max) (x : CInt) (hx : x.m_val ≤ CInt._Ty.max) (target : CSize_t) :
    (v < 0 →
      CSize_t.from_native check S v = .error (.out_of_range .range_check) ∧
      (target.assign_native check S v).1 = .error (.out_of_range .range_check)) ∧
    (0 ≤ v →
      (∃ c : CSize_t, CSize_t.from_native check S v = .ok c ∧
        as_a_size_t check (CSize_t.copy check c) = .ok v ∧ c.operator_size_t check = .ok v) ∧
      (target.assign_native check S v).1 = .ok () ∧
      as_a_size_t check (CSize_t.copy check (target.assign_native check S v).2) = .ok v ∧
      (target.assign_native check S v).2.operator_size_t check = .ok v) ∧
    (x.m_val < 0 →
      CSize_t.from_CInt check (CInt.copy check x) = .error (.out_of_range .range_check) ∧
      (target.assign_CInt check (CInt.copy check x)).1 =
        .error (.out_of_range .range_check)) ∧
    (0 ≤ x.m_val →
      (∃ c : CSize_t, CSize_t.from_CInt check (CInt.copy check x) = .ok c ∧
        as_a_size_t check (CSize_t.copy check c) = .ok x.m_val ∧
        c.operator_size_t check = .ok x.m_val) ∧
      (target.assign_CInt check (CInt.copy check x)).1 = .ok () ∧
      as_a_size_t check (CSize_t.copy check (target.assign_CInt check (CInt.copy check x)).2) =
        .ok x.m_val ∧
      (target.assign_CInt check (CInt.copy check x)).2.operator_size_t check =
        .ok x.m_val) := by
  obtain ⟨hs, hd, hmax⟩ := signed_source_facts S hS
  have hv63 : v ≤ 2 ^ 63 - 1 := le_trans hv hmax
  have hx63 : x.m_val ≤ 2 ^ 63 - 1 := hx
  rw [from_native_spec check S hs hd v hv63, assign_native_spec check S hs hd v hv63 target,
    from_CInt_copy_spec check x hx63, assign_CInt_copy_spec check x hx63 target]
  refine ⟨?_, ?_, ?_, ?_⟩
  · intro h
    have h0 : 0 > v := h
    simp only [h0, if_true, and_self]
  · intro h
    have h0 : ¬ (0 > v) := by omega
    simp only [h0, if_false]
    exact ⟨⟨_, rfl, as_a_size_t_eq check _, operator_size_t_of_noted check v false⟩, trivial,
      as_a_size_t_eq check _, operator_size_t_of_noted check v target.m_initialized⟩
  · intro h
    have h0 : 0 > x.m_val := h
    simp only [h0, if_true, and_self]
  · intro h
    have h0 : ¬ (0 > x.m_val) := by omega
    simp only [h0, if_false]
    exact ⟨⟨_, rfl, as_a_size_t_eq check _, operator_size_t_of_noted check x.m_val false⟩, trivial,
      as_a_size_t_eq check _, operator_size_t_of_noted check x.m_val target.m_initialized⟩

/-- C20 does not hold of the code for the copy-initialization `CSize_t s = -2;`,
the example in the comment on the two classes: in either configuration it raises
nothing, and `s` holds `2 ^ 64 - 2`, which `as_a_size_t(s)` and the explicit
`size_t` conversion return. The direct-initialization `CSize_t s(-2);` and the
assignment `s = -2;` select the `int` overloads and fail with the range error. -/
theorem C20_copy_initialization_from_negative_value_returns :
    (CSize_t.copy_initialize true (-2) = .ok ⟨⟨2 ^ 64 - 2, true⟩⟩ ∧
      CSize_t.copy_initialize false (-2) = .ok ⟨⟨2 ^ 64 - 2, false⟩⟩) ∧
    (as_a_size_t true (CSize_t.copy true ⟨⟨2 ^ 64 - 2, true⟩⟩) = .ok (2 ^ 64 - 2) ∧
      CSize_t.operator_size_t true ⟨⟨2 ^ 64 - 2, true⟩⟩ = .ok (2 ^ 64 - 2)) ∧
    (CSize_t.from_native true IntType.int (-2) = .error (.out_of_range .range_check) ∧
      (CSize_t.assign_native true IntType.int (-2) CSize_t.ctor).1 =
        .error (.out_of_range .range_check)) :=
  ⟨⟨rfl, rfl⟩, ⟨rfl, rfl⟩, ⟨rfl, rfl⟩⟩

/-! ## The range check against the destination type (C21) -/

theorem g_assign_check_range_exact (sd ss : Bool) (bd bs : Nat)
    (hbd : bd ∈ [8, 16, 32, 64]) (hbs : bs ∈ [8, 16, 32, 64]) (x : Int)
    (hx1 : (IntType.of_width ss bs).lowest ≤ x) (hx2 : x ≤ (IntType.of_width ss bs).max) :
    g_assign_check_range (IntType.of_width sd bd) (IntType.of_width ss bs) x =
      if x < (IntType.of_width sd bd).lowest ∨ x > (IntType.of_width sd bd).max then
        .error (.out_of_range .range_check)
      else .ok () := by
  simp only [List.mem_cons, List.mem_singleton, List.not_mem_nil, or_false] at hbd hbs
  rcases hbd with rfl | rfl | rfl | rfl <;> rcases hbs with rfl | rfl | rfl | rfl <;>
    cases sd <;> cases ss <;>
    simp [g_assign_check_range, sg_can_exceed_upper_bound, sg_can_exceed_lower_bound,
      IntType.of_width, IntType.cast, IntType.max, IntType.lowest] at hx1 hx2 ⊢ <;>
    (try split_ifs) <;> first | rfl | omega

/-- C21: for every pair of standard integer types `Source` and `Dest` (signed or
unsigned, of 8, 16, 32 or 64 bits, in two's complement) and every value `x` of
`Source`, `g_assign_check_range<Dest, Source>(x)` throws iff `x < lowest(Dest)` or
`x > max(Dest)` as mathematical integers, and returns otherwise: it rejects no
value that fits `Dest` and accepts none that does not. -/
theorem C21_range_check_is_exact (dest_signed source_signed : Bool) (dest_bits source_bits : Nat)
    (hd : dest_bits ∈ [8, 16, 32, 64]) (hs : source_bits ∈ [8, 16, 32, 64]) (x : Int)
    (hx1 : (IntType.of_width source_signed source_bits).lowest ≤ x)
    (hx2 : x ≤ (IntType.of_width source_signed source_bits).max) :
    (g_assign_check_range (IntType.of_width dest_signed dest_bits)
        (IntType.of_width source_signed source_bits) x = .error (.out_of_range .range_check) ↔
      (x < (IntType.of_width dest_signed dest_bits).lowest ∨
        x > (IntType.of_width dest_signed dest_bits).max)) ∧
    (g_assign_check_range (IntType.of_width dest_signed dest_bits)
        (IntType.of_width source_signed source_bits) x = .ok () ↔
      ((IntType.of_width dest_signed dest_bits).lowest ≤ x ∧
        x ≤ (IntType.of_width dest_signed dest_bits).max)) := by
  rw [g_assign_check_range_exact dest_signed source_signed dest_bits source_bits hd hs x hx1 hx2]
  by_cases h : x < (IntType.of_width dest_signed dest_bits).lowest ∨
      x > (IntType.of_width dest_signed dest_bits).max
  · simp only [h, if_true, true_iff, true_and]
    constructor
    · intro hh; exact nomatch hh
    · intro hh
      rcases h with h | h
      · exact absurd hh.1 (not_le.mpr h)
      · exact absurd hh.2 (not_le.mpr h)
  · simp only [h, if_false, iff_false, true_iff]
    constructor
    · intro hh; exact nomatch hh
    · exact ⟨not_lt.mp (fun h1 => h (Or.inl h1)), not_lt.mp (fun h1 => h (Or.inr h1))⟩

/-- C21 for the `int` value `-1` checked against `size_t`, which throws, and the
`unsigned char` value 200 checked against `short`, which returns. -/
theorem C21_range_check_is_exact_witness :
    g_assign_check_range (IntType.of_width false 64) (IntType.of_width true 32) (-1) =
      .error (.out_of_range .range_check) ∧
    g_assign_check_range (IntType.of_width true 16) (IntType.of_width false 8) 200 = .ok () :=
  ⟨(C21_range_check_is_exact false true 64 32 (by decide) (by decide) (-1)
      (by decide) (by decide)).1.2 (by decide),
   (C21_range_check_is_exact true false 16 8 (by decide) (by decide) 200
      (by decide) (by decide)).2.2 (by decide)⟩

/-! ## Subtraction of checked scalars (C22, C23, C24) -/

theorem assert_initialized_of_assigned (check : Bool) (b : TIntBase1)
    (h : b.m_initialized = true) : b.assert_initialized check = .ok () := by
  cases check <;> simp [TIntBase1.assert_initialized, h]

theorem long_cast_of_range (v : Int) (h1 : -2 ^ 63 ≤ v) (h2 : v ≤ 2 ^ 63 - 1) :
    IntType.long.cast v = v := by
  have e : IntType.long.cast v = (v + 2 ^ 63) % 2 ^ 64 - 2 ^ 63 := by
    simp [IntType.cast, IntType.long]
  rw [e]
  norm_num at h1 h2 ⊢
  omega

theorem native_range (S : IntType)
    (hS : S ∈ [IntType.char, IntType.short, IntType.int, IntType.long, IntType.long_long,
      IntType.size_t]) :
    -2 ^ 63 ≤ S.lowest ∧ S.max ≤ 2 ^ 64 - 1 ∧ (S.is_signed = true → S.max ≤ 2 ^ 63 - 1) := by
  simp only [List.mem_cons, List.mem_singleton, List.not_mem_nil, or_false] at hS
  rcases hS with h | h | h | h | h | h <;> subst h <;> decide

theorem g_assign_check_range_long (S : IntType)
    (hS : S ∈ [IntType.char, IntType.short, IntType.int, IntType.long, IntType.long_long,
      IntType.size_t])
    (x : Int) (hx1 : S.lowest ≤ x) (hx2 : x ≤ S.max) :
    g_assign_check_range IntType.long S x =
      if x > 2 ^ 63 - 1 then .error (.out_of_range .range_check) else .ok () := by
  simp only [List.mem_cons, List.mem_singleton, List.not_mem_nil, or_false] at hS
  rcases hS with h | h | h | h | h | h <;> subst h <;>
    simp [g_assign_check_range, sg_can_exceed_upper_bound, sg_can_exceed_lower_bound,
      IntType.char, IntType.short, IntType.int, IntType.long, IntType.long_long, IntType.size_t,
      IntType.cast, IntType.max, IntType.lowest] at hx1 hx2 ⊢ <;>
    (try split_ifs) <;> first | rfl | omega

theorem CInt_from_native_spec (check : Bool) (S : IntType)
    (hS : S ∈ [IntType.char, IntType.short, IntType.int, IntType.long, IntType.long_long,
      IntType.size_t])
    (x : Int) (hx1 : S.lowest ≤ x) (hx2 : x ≤ S.max) :
    CInt.from_native check S x =
      if x > 2 ^ 63 - 1 then .error (.out_of_range .range_check)
      else .ok ⟨⟨x, check || false⟩⟩ := by
  have hr := native_range S hS
  unfold CInt.from_native TIntBase1.assign_check_range CInt._Ty
  simp only [g_assign_check_range_long S hS x hx1 hx2, note_value_assignment_eq]
  by_cases h : x > 2 ^ 63 - 1
  · simp only [h, if_true]
  · have e := long_cast_of_range x (le_trans hr.1 hx1) (not_lt.mp h)
    simp only [h, if_false, e]

theorem CInt_from_long (check : Bool) (v : Int) (h1 : -2 ^ 63 ≤ v) (h2 : v ≤ 2 ^ 63 - 1) :
    CInt.from_native check IntType.long v = .ok ⟨⟨v, check || false⟩⟩ := by
  have h := CInt_from_native_spec check IntType.long (by decide) v
    (by simpa [IntType.lowest, IntType.long] using h1)
    (by simpa [IntType.max, IntType.long] using h2)
  rw [h]
  have h3 : ¬ (v > 2 ^ 63 - 1) := not_lt.mpr h2
  simp only [h3, if_false]

theorem CInt_from_size_t (check : Bool) (v : Int) (h1 : 0 ≤ v) (h2 : v < 2 ^ 64) :
    CInt.from_native check IntType.size_t v =
      if v > 2 ^ 63 - 1 then .error (.out_of_range .range_check)
      else .ok ⟨⟨v, check || false⟩⟩ :=
  CInt_from_native_spec check IntType.size_t (by decide) v
    (by simpa [IntType.lowest, IntType.size_t] using h1)
    (by
      have : v ≤ 2 ^ 64 - 1 := by norm_num at h2 ⊢; omega
      simpa [IntType.max, IntType.size_t] using this)

theorem CInt_operator_minus_spec (check : Bool) (a b : CInt) (ha : a.m_initialized = true)
    (h1 : -2 ^ 63 ≤ a.m_val - b.m_val) (h2 : a.m_val - b.m_val ≤ 2 ^ 63 - 1) :
    a.operator_minus check b = .ok ⟨⟨a.m_val - b.m_val, check || false⟩⟩ := by
  unfold CInt.operator_minus CInt._Ty
  rw [assert_initialized_of_assigned check _ ha, long_cast_of_range _ h1 h2]
  exact CInt_from_long check _ h1 h2

theorem CInt_operator_minus_assign_spec (check : Bool) (a b : CInt) (ha : a.m_initialized = true)
    (h1 : -2 ^ 63 ≤ a.m_val - b.m_val) (h2 : a.m_val - b.m_val ≤ 2 ^ 63 - 1) :
    a.operator_minus_assign check b = (.ok (), ⟨⟨a.m_val - b.m_val, a.m_initialized⟩⟩) := by
  have hl : ¬ (0 ≤ IntType.long.lowest ∧ b.m_val > a.m_val) := by
    intro h
    have : IntType.long.lowest = -2 ^ 63 := by simp [IntType.lowest, IntType.long]
    rw [this] at h
    norm_num at h
  unfold CInt.operator_minus_assign CInt._Ty
  rw [assert_initialized_of_assigned check _ ha, long_cast_of_range _ h1 h2]
  simp only [hl, if_false]

theorem CSize_t_operator_minus_assign_spec (check : Bool) (a b : CSize_t)
    (ha : a.m_initialized = true) (ha2 : a.m_val < 2 ^ 64) (hb1 : 0 ≤ b.m_val) :
    a.operator_minus_assign check b =
      if b.m_val > a.m_val then (.error (.out_of_range .range_check), a)
      else (.ok (), ⟨⟨a.m_val - b.m_val, a.m_initialized⟩⟩) := by
  have hl : (0 : Int) ≤ IntType.size_t.lowest := by simp [IntType.lowest, IntType.size_t]
  unfold CSize_t.operator_minus_assign CSize_t._Ty
  rw [assert_initialized_of_assigned check _ ha]
  by_cases h : b.m_val > a.m_val
  · simp only [hl, h, and_self, if_true]
  · have e := size_t_cast_of_range (a.m_val - b.m_val) (by omega) (by omega)
    simp only [h, and_false, if_false, e]

theorem CSize_t_operator_minus_spec (check : Bool) (a b : CSize_t) (ha : a.m_initialized = true)
    (ha1 : 0 ≤ a.m_val) (ha2 : a.m_val ≤ 2 ^ 63 - 1) (hb1 : 0 ≤ b.m_val)
    (hb2 : b.m_val ≤ 2 ^ 63 - 1) :
    a.operator_minus check b = .ok ⟨⟨a.m_val - b.m_val, check || false⟩⟩ := by
  have h3 : ¬ (a.m_val > 2 ^ 63 - 1) := not_lt.mpr ha2
  have h4 : ¬ (b.m_val > 2 ^ 63 - 1) := not_lt.mpr hb2
  unfold CSize_t.operator_minus
  rw [assert_initialized_of_assigned check _ ha,
    CInt_from_size_t check a.m_val ha1 (by norm_num at ha2 ⊢; omega),
    CInt_from_size_t check b.m_val hb1 (by norm_num at hb2 ⊢; omega)]
  simp only [h3, h4, if_false]
  unfold CInt.operator_minus CInt._Ty
  have hr1 : -2 ^ 63 ≤ a.m_val - b.m_val := by norm_num at ha2 hb2 ⊢; omega
  have hr2 : a.m_val - b.m_val ≤ 2 ^ 63 - 1 := by norm_num at ha2 hb2 ⊢; omega
  simp only [assert_initialized_of_noted, long_cast_of_range _ hr1 hr2]
  exact CInt_from_long check _ hr1 hr2

theorem CSize_t_operator_minus_overflow (check : Bool) (a b : CSize_t)
    (ha : a.m_initialized = true) (ha1 : 0 ≤ a.m_val) (ha2 : a.m_val < 2 ^ 64)
    (hb1 : 0 ≤ b.m_val) (hb2 : b.m_val < 2 ^ 64)
    (h : a.m_val > 2 ^ 63 - 1 ∨ b.m_val > 2 ^ 63 - 1) :
    a.operator_minus check b = .error (.out_of_range .range_check) := by
  unfold CSize_t.operator_minus
  rw [assert_initialized_of_assigned check _ ha, CInt_from_size_t check a.m_val ha1 ha2,
    CInt_from_size_t check b.m_val hb1 hb2]
  by_cases h3 : a.m_val > 2 ^ 63 - 1
  · simp only [h3, if_true]
  · have h4 : b.m_val > 2 ^ 63 - 1 := h.resolve_left h3
    simp only [h3, h4, if_false, if_true]

/-- C22: for `CSize_t` values `a` (assigned) and `b`, in either configuration, the
compound subtraction `a -= b` fails with the range error iff `b > a`, and `a` is
then what it was; otherwise it succeeds and `a` holds exactly `a - b`, never a
value reduced modulo `2 ^ 64`. -/
theorem C22_CSize_t_minus_assign_checks_underflow (check : Bool) (a b : CSize_t)
    (ha : a.m_initialized = true) (ha2 : a.m_val < 2 ^ 64) (hb1 : 0 ≤ b.m_val) :
    ((a.operator_minus_assign check b).1 = .error (.out_of_range .range_check) ↔
      b.m_val > a.m_val) ∧
    (b.m_val > a.m_val → (a.operator_minus_assign check b).2 = a) ∧
    (b.m_val ≤ a.m_val →
      (a.operator_minus_assign check b).1 = .ok () ∧
      (a.operator_minus_assign check b).2.m_val = a.m_val - b.m_val) := by
  rw [CSize_t_operator_minus_assign_spec check a b ha ha2 hb1]
  by_cases h : b.m_val > a.m_val
  · have h2 : ¬ (b.m_val ≤ a.m_val) := not_le.mpr h
    simp [h, h2]
  · have h2 : b.m_val ≤ a.m_val := not_lt.mp h
    simp [h, h2]

/-- C22 in the debug configuration: `CSize_t(3) -= CSize_t(7)` fails and leaves 3;
`CSize_t(30) -= CSize_t(7)` leaves 23. -/
theorem C22_CSize_t_minus_assign_checks_underflow_witness :
    (CSize_t.operator_minus_assign true ⟨⟨3, true⟩⟩ ⟨⟨7, true⟩⟩).1 =
      .error (.out_of_range .range_check) ∧
    (CSize_t.operator_minus_assign true ⟨⟨3, true⟩⟩ ⟨⟨7, true⟩⟩).2 = ⟨⟨3, true⟩⟩ ∧
    (CSize_t.operator_minus_assign true ⟨⟨30, true⟩⟩ ⟨⟨7, true⟩⟩).2.m_val = 23 :=
  have h := C22_CSize_t_minus_assign_checks_underflow true ⟨⟨3, true⟩⟩ ⟨⟨7, true⟩⟩ rfl
    (by decide) (by decide)
  have h2 := C22_CSize_t_minus_assign_checks_underflow true ⟨⟨30, true⟩⟩ ⟨⟨7, true⟩⟩ rfl
    (by decide) (by decide)
  ⟨h.1.2 (by decide), h.2.1 (by decide), (h2.2.2 (by decide)).2⟩

/-- C23 fails as stated: in both configurations `CSize_t(3) - CSize_t(7)` raises
nothing and returns the `CInt` holding `-4`. -/
theorem C23_CSize_t_binary_minus_counterexample :
    CSize_t.operator_minus true ⟨⟨3, true⟩⟩ ⟨⟨7, true⟩⟩ = .ok ⟨⟨-4, true⟩⟩ ∧
    CSize_t.operator_minus false ⟨⟨3, false⟩⟩ ⟨⟨7, false⟩⟩ = .ok ⟨⟨-4, false⟩⟩ :=
  ⟨rfl, rfl⟩

/-- C23, amended: for `CSize_t` values `a` (assigned) and `b`, the binary
subtraction `a - b` returns a `CInt`. When both values are at most the maximum of
the base type of `CInt` it raises nothing and the result holds the mathematical
difference `a − b`, a negative one when `b > a`; it raises the range error
exactly when one of the two values exceeds that maximum. -/
theorem C23_CSize_t_binary_minus_returns_signed_difference (check : Bool) (a b : CSize_t)
    (ha : a.m_initialized = true) (ha1 : 0 ≤ a.m_val) (ha2 : a.m_val < 2 ^ 64)
    (hb1 : 0 ≤ b.m_val) (hb2 : b.m_val < 2 ^ 64) :
    (a.m_val ≤ CInt._Ty.max ∧ b.m_val ≤ CInt._Ty.max →
      ∃ c : CInt, a.operator_minus check b = .ok c ∧ c.m_val = a.m_val - b.m_val) ∧
    (a.m_val > CInt._Ty.max ∨ b.m_val > CInt._Ty.max →
      a.operator_minus check b = .error (.out_of_range .range_check)) := by
  have hm : CInt._Ty.max = 2 ^ 63 - 1 := by decide
  rw [hm]
  constructor
  · rintro ⟨h1, h2⟩
    exact ⟨_, CSize_t_operator_minus_spec check a b ha ha1 h1 hb1 h2, rfl⟩
  · intro h
    exact CSize_t_operator_minus_overflow check a b ha ha1 ha2 hb1 hb2 h

/-- C23, amended, in the debug configuration: `CSize_t(3) - CSize_t(7)` is the
`CInt` holding `-4`. -/
theorem C23_CSize_t_binary_minus_returns_signed_difference_witness :
    ∃ c : CInt, CSize_t.operator_minus true ⟨⟨3, true⟩⟩ ⟨⟨7, true⟩⟩ = .ok c ∧
      c.m_val = (3 : Int) - 7 :=
  (C23_CSize_t_binary_minus_returns_signed_difference true ⟨⟨3, true⟩⟩ ⟨⟨7, true⟩⟩ rfl
    (by decide) (by decide) (by decide) (by decide)).1 ⟨by decide, by decide⟩

/-- C24: for `CInt` values `a` (assigned) and `b` whose mathematical difference
fits the base type, in either configuration, `a - b` and `a -= b` raise nothing
and yield exactly `a − b`, negative results included. -/
theorem C24_CInt_subtraction_is_exact (check : Bool) (a b : CInt)
    (ha : a.m_initialized = true)
    (h1 : CInt._Ty.lowest ≤ a.m_val - b.m_val) (h2 : a.m_val - b.m_val ≤ CInt._Ty.max) :
    (∃ c : CInt, a.operator_minus check b = .ok c ∧ c.m_val = a.m_val - b.m_val) ∧
    (a.operator_minus_assign check b).1 = .ok () ∧
    (a.operator_minus_assign check b).2.m_val = a.m_val - b.m_val := by
  have hm : CInt._Ty.max = 2 ^ 63 - 1 := by decide
  have hl : CInt._Ty.lowest = -2 ^ 63 := by decide
  rw [hm] at h2
  rw [hl] at h1
  rw [CInt_operator_minus_assign_spec check a b ha h1 h2]
  exact ⟨⟨_, CInt_operator_minus_spec check a b ha h1 h2, rfl⟩, rfl, rfl⟩

/-- C24 in the debug configuration: `CInt(3) - CInt(7)` and `CInt(3) -= CInt(7)`
both give `-4`. -/
theorem C24_CInt_subtraction_is_exact_witness :
    (∃ c : CInt, CInt.operator_minus true ⟨⟨3, true⟩⟩ ⟨⟨7, true⟩⟩ = .ok c ∧
      c.m_val = (3 : Int) - 7) ∧
    (CInt.operator_minus_assign true ⟨⟨3, true⟩⟩ ⟨⟨7, true⟩⟩).1 = .ok () ∧
    (CInt.operator_minus_assign true ⟨⟨3, true⟩⟩ ⟨⟨7, true⟩⟩).2.m_val = (3 : Int) - 7 :=
  C24_CInt_subtraction_is_exact true ⟨⟨3, true⟩⟩ ⟨⟨7, true⟩⟩ rfl (by decide) (by decide)

/-! ## Comparisons and subtraction across the two families (C25, C26) -/

theorem signed_native_facts (S : IntType)
    (hS : S ∈ [IntType.int, IntType.long, IntType.long_long]) :
    S ∈ [IntType.char, IntType.short, IntType.int, IntType.long, IntType.long_long,
      IntType.size_t] ∧ S.max ≤ 2 ^ 63 - 1 := by
  simp only [List.mem_cons, List.mem_singleton, List.not_mem_nil, or_false] at hS
  rcases hS with h | h | h <;> subst h <;> decide

theorem CInt_from_signed_native (check : Bool) (S : IntType)
    (hS : S ∈ [IntType.int, IntType.long, IntType.long_long])
    (x : Int) (hx1 : S.lowest ≤ x) (hx2 : x ≤ S.max) :
    CInt.from_native check S x = .ok ⟨⟨x, check || false⟩⟩ := by
  obtain ⟨h6, hmax⟩ := signed_native_facts S hS
  rw [CInt_from_native_spec check S h6 x hx1 hx2]
  have h : ¬ (x > 2 ^ 63 - 1) := not_lt.mpr (le_trans hx2 hmax)
  simp only [h, if_false]

theorem CInt_compare_spec (check : Bool) (op : Cmp) (a x : CInt)
    (ha : a.toTIntBase1.assert_initialized check = .ok ()) :
    a.compare check op x = .ok (op.eval a.m_val x.m_val) := by
  unfold CInt.compare
  rw [ha]

theorem CSize_t_compare_CInt_spec (check : Bool) (op : Cmp) (a : CSize_t) (x : CInt)
    (ha : a.m_initialized = true) (ha1 : 0 ≤ a.m_val) (ha2 : a.m_val < 2 ^ 64) :
    a.compare_CInt check op x =
      if a.m_val > 2 ^ 63 - 1 then .error (.out_of_range .range_check)
      else .ok (op.eval a.m_val x.m_val) := by
  unfold CSize_t.compare_CInt
  rw [assert_initialized_of_assigned check _ ha, CInt_from_size_t check a.m_val ha1 ha2]
  by_cases h : a.m_val > 2 ^ 63 - 1
  · simp only [h, if_true]
  · simp only [h, if_false]
    exact CInt_compare_spec check op _ x (assert_initialized_of_noted check _ _)

theorem CSize_t_compare_native_spec (check : Bool) (op : Cmp) (a : CSize_t)
    (ha : a.m_initialized = true) (ha1 : 0 ≤ a.m_val) (ha2 : a.m_val < 2 ^ 64)
    (S : IntType) (hS : S ∈ [IntType.int, IntType.long, IntType.long_long])
    (x : Int) (hx1 : S.lowest ≤ x) (hx2 : x ≤ S.max) :
    a.compare_native check op S x =
      if a.m_val > 2 ^ 63 - 1 then .error (.out_of_range .range_check)
      else .ok (op.eval a.m_val x) := by
  unfold CSize_t.compare_native
  rw [assert_initialized_of_assigned check _ ha, CInt_from_signed_native check S hS x hx1 hx2]
  exact CSize_t_compare_CInt_spec check op a _ ha ha1 ha2

theorem CInt_compare_size_t_spec (check : Bool) (op : Cmp) (c : CInt)
    (hc : c.toTIntBase1.assert_initialized check = .ok ())
    (v : Int) (hv1 : 0 ≤ v) (hv2 : v < 2 ^ 64) :
    c.compare_native check op IntType.size_t v =
      if v > 2 ^ 63 - 1 then .error (.out_of_range .range_check)
      else .ok (op.eval c.m_val v) := by
  unfold CInt.compare_native
  rw [hc, CInt_from_size_t check v hv1 hv2]
  by_cases h : v > 2 ^ 63 - 1
  · simp only [h, if_true]
  · simp only [h, if_false]
    exact CInt_compare_spec check op c _ hc

theorem compare_native_CSize_t_spec (check : Bool) (op : Cmp) (a : CSize_t)
    (ha : a.m_initialized = true) (ha1 : 0 ≤ a.m_val) (ha2 : a.m_val < 2 ^ 64)
    (S : IntType) (hS : S ∈ [IntType.int, IntType.long, IntType.long_long])
    (x : Int) (hx1 : S.lowest ≤ x) (hx2 : x ≤ S.max) :
    compare_native_CSize_t check op S x a =
      if a.m_val > 2 ^ 63 - 1 then .error (.out_of_range .range_check)
      else .ok (op.eval x a.m_val) := by
  unfold compare_native_CSize_t
  rw [assert_initialized_of_assigned check _ ha, CInt_from_signed_native check S hS x hx1 hx2,
    as_a_size_t_eq]
  exact CInt_compare_size_t_spec check op _ (assert_initialized_of_noted check _ _) a.m_val
    ha1 ha2

theorem CSize_t_compares_with_signed_natives (check : Bool) (op : Cmp)
    (a : CSize_t) (ha : a.m_initialized = true) (ha1 : 0 ≤ a.m_val) (ha2 : a.m_val < 2 ^ 64)
    (T : SignedNative) (hT : T = .int ∨ T = .long ∨ T = .long_long)
    (x : Int) (hx1 : T.type.lowest ≤ x) (hx2 : x ≤ T.type.max) :
    (a.m_val ≤ CInt._Ty.max →
      a.compare_native check op T.type x = .ok (op.eval a.m_val x) ∧
      (T ≠ .long →
        compare_signed_native_CSize_t check op T x a = some (.ok (op.eval x a.m_val)))) ∧
    (a.m_val > CInt._Ty.max →
      a.compare_native check op T.type x = .error (.out_of_range .range_check) ∧
      (T ≠ .long →
        compare_signed_native_CSize_t check op T x a =
          some (.error (.out_of_range .range_check)))) ∧
    (T = .long → compare_signed_native_CSize_t check op T x a = none) := by
  have hm : CInt._Ty.max = 2 ^ 63 - 1 := by decide
  have hS : T.type ∈ [IntType.int, IntType.long, IntType.long_long] := by
    rcases hT with h | h | h <;> subst h <;> decide
  have hfree : T ≠ .long →
      compare_signed_native_CSize_t check op T x a =
        some (compare_native_CSize_t check op T.type x a) := by
    intro hne
    rcases hT with h | h | h
    · subst h; rfl
    · exact absurd h hne
    · subst h; rfl
  rw [hm, CSize_t_compare_native_spec check op a ha ha1 ha2 T.type hS x hx1 hx2]
  refine ⟨?_, ?_, ?_⟩
  · intro h
    have h2 : ¬ (a.m_val > 2 ^ 63 - 1) := not_lt.mpr h
    refine ⟨by simp only [h2, if_false], fun hne => ?_⟩
    rw [hfree hne, compare_native_CSize_t_spec check op a ha ha1 ha2 T.type hS x hx1 hx2]
    simp only [h2, if_false]
  · intro h
    refine ⟨by simp only [h, if_true], fun hne => ?_⟩
    rw [hfree hne, compare_native_CSize_t_spec check op a ha ha1 ha2 T.type hS x hx1 hx2]
    simp only [h, if_true]
  · intro h
    subst h
    rfl

/-- C25 does not hold of the code for a left operand of type `long`: with
`long x = -1` and the assigned `CSize_t(5)`, the mirrored `x < a` has no function
to call, since the free operators with a `CSize_t` on the right are declared for
`size_t`, `int` and `long long` on the left and a `long` converts to each of them
alike. With `x` an `int` or a `long long` the expression is the mathematical
comparison, true, and the member `a < x` takes a `long` and returns false. -/
theorem C25_long_left_operand_selects_no_overload :
    compare_signed_native_CSize_t true .lt .long (-1) ⟨⟨5, true⟩⟩ = none ∧
    compare_signed_native_CSize_t false .lt .long (-1) ⟨⟨5, true⟩⟩ = none ∧
    compare_signed_native_CSize_t true .lt .int (-1) ⟨⟨5, true⟩⟩ = some (.ok true) ∧
    compare_signed_native_CSize_t true .lt .long_long (-1) ⟨⟨5, true⟩⟩ = some (.ok true) ∧
    CSize_t.compare_native true .lt ⟨⟨5, true⟩⟩ SignedNative.long.type (-1) = .ok false :=
  ⟨rfl, rfl, rfl, rfl, rfl⟩

/-- C27: a default-constructed `CInt` or `CSize_t` holds 0 and a default-constructed
`CBool` holds false; in the release configuration (use-before-set checking
compiled out) converting it to its native value returns 0, respectively false. -/
theorem C27_default_constructed_reads_zero_in_release :
    (CInt.ctor.m_val = 0 ∧ CSize_t.ctor.m_val = 0 ∧ CBool.ctor.m_val = false) ∧
    CInt.ctor.operator_Ty false = .ok 0 ∧
    CSize_t.ctor.operator_size_t false = .ok 0 ∧
    as_a_size_t false CSize_t.ctor = .ok 0 ∧
    CBool.ctor.operator_bool false = .ok false :=
  ⟨⟨rfl, rfl, rfl⟩, rfl, rfl, rfl, rfl⟩

theorem CInt_operator_Ty_of_noted (check : Bool) (v : Int) (i : Bool) :
    CInt.operator_Ty check ⟨⟨v, check || i⟩⟩ = .ok v := by
  unfold CInt.operator_Ty
  simp only [assert_initialized_of_noted]

/-- C29, the code at a failing input, in the debug configuration: after the
copy-assignment `t = s` of the assigned `CSize_t` `s` holding 5 to the
default-constructed `t`, `t` holds 5 but is not marked initialized, and reading it
fails the check; the same assignment on `CInt` and on `CBool` marks the target
and the read succeeds. -/
theorem C29_CSize_t_copy_assignment_leaves_target_unset :
    (CSize_t.ctor.assign ⟨⟨5, true⟩⟩).m_val = 5 ∧
    (CSize_t.ctor.assign ⟨⟨5, true⟩⟩).m_initialized = false ∧
    (CSize_t.ctor.assign ⟨⟨5, true⟩⟩).operator_size_t true = .error .assert_failure ∧
    (CInt.ctor.assign true ⟨⟨5, true⟩⟩).operator_Ty true = .ok 5 ∧
    (CBool.ctor.assign true ⟨true, true⟩).operator_bool true = .ok true :=
  ⟨rfl, rfl, rfl, rfl, rfl⟩

theorem assert_initialized_of_unset (b : TIntBase1) (h : b.m_initialized = false) :
    b.assert_initialized true = .error .assert_failure := by
  simp [TIntBase1.assert_initialized, h]

/-- C30 fails as stated: in the debug configuration, with the left operand `a`
assigned (holding 3) and the right operand `b` default-constructed and never
assigned, `a + b`, `a - b`, `a < b`, `a == b` and `a += b` on `CInt`, and `a + b`,
`a < b` and `a -= b` on `CSize_t`, all succeed, reading 0 from `b`. -/
theorem C30_right_operand_unchecked_counterexample :
    CInt.operator_plus true ⟨⟨3, true⟩⟩ CInt.ctor = .ok ⟨⟨3, true⟩⟩ ∧
    CInt.operator_minus true ⟨⟨3, true⟩⟩ CInt.ctor = .ok ⟨⟨3, true⟩⟩ ∧
    CInt.compare true .lt ⟨⟨3, true⟩⟩ CInt.ctor = .ok false ∧
    CInt.compare true .eq ⟨⟨3, true⟩⟩ CInt.ctor = .ok false ∧
    CInt.operator_plus_assign true ⟨⟨3, true⟩⟩ CInt.ctor = (.ok (), ⟨⟨3, true⟩⟩) ∧
    CSize_t.operator_plus true ⟨⟨3, true⟩⟩ CSize_t.ctor = .ok ⟨⟨3, true⟩⟩ ∧
    CSize_t.compare true .lt ⟨⟨3, true⟩⟩ CSize_t.ctor = .ok false ∧
    CSize_t.operator_minus_assign true ⟨⟨3, true⟩⟩ CSize_t.ctor = (.ok (), ⟨⟨3, true⟩⟩) :=
  ⟨rfl, rfl, rfl, rfl, rfl, rfl, rfl, rfl⟩

/-- C30, amended: in the debug configuration, each member binary arithmetic,
comparison and compound-assignment operator of `CInt` and `CSize_t` taking two
checked scalars (`+`, `-`, the six comparisons, `+=`, `-=`) fails the
use-before-set check whenever its left operand has never been assigned, leaving
it as it was; it does not check the right operand, whose stored value it reads
whether or not that operand was ever assigned. -/
theorem C30_left_operand_checked_right_operand_not (op : Cmp) (a b : CInt) (sa sb : CSize_t) :
    (a.m_initialized = false →
      a.operator_plus true b = .error .assert_failure ∧
      a.operator_minus true b = .error .assert_failure ∧
      a.compare true op b = .error .assert_failure ∧
      a.operator_plus_assign true b = (.error .assert_failure, a) ∧
      a.operator_minus_assign true b = (.error .assert_failure, a)) ∧
    (sa.m_initialized = false →
      sa.operator_plus true sb = .error .assert_failure ∧
      sa.operator_minus true sb = .error .assert_failure ∧
      sa.compare true op sb = .error .assert_failure ∧
      sa.operator_plus_assign true sb = (.error .assert_failure, sa) ∧
      sa.operator_minus_assign true sb = (.error .assert_failure, sa)) ∧
    (a.operator_plus true b = a.operator_plus true ⟨⟨b.m_val, true⟩⟩ ∧
      a.operator_minus true b = a.operator_minus true ⟨⟨b.m_val, true⟩⟩ ∧
      a.compare true op b = a.compare true op ⟨⟨b.m_val, true⟩⟩ ∧
      a.operator_plus_assign true b = a.operator_plus_assign true ⟨⟨b.m_val, true⟩⟩ ∧
      a.operator_minus_assign true b = a.operator_minus_assign true ⟨⟨b.m_val, true⟩⟩) ∧
    (sa.operator_plus true sb = sa.operator_plus true ⟨⟨sb.m_val, true⟩⟩ ∧
      sa.operator_minus true sb = sa.operator_minus true ⟨⟨sb.m_val, true⟩⟩ ∧
      sa.compare true op sb = sa.compare true op ⟨⟨sb.m_val, true⟩⟩ ∧
      sa.operator_plus_assign true sb = sa.operator_plus_assign true ⟨⟨sb.m_val, true⟩⟩ ∧
      sa.operator_minus_assign true sb =
        sa.operator_minus_assign true ⟨⟨sb.m_val, true⟩⟩) := by
  refine ⟨?_, ?_, ⟨rfl, rfl, rfl, rfl, rfl⟩, ⟨rfl, rfl, rfl, rfl, rfl⟩⟩
  · intro h
    have e := assert_initialized_of_unset a.toTIntBase1 h
    unfold CInt.operator_plus CInt.operator_minus CInt.compare CInt.operator_plus_assign
      CInt.operator_minus_assign
    rw [e]
    exact ⟨rfl, rfl, rfl, rfl, rfl⟩
  · intro h
    have e := assert_initialized_of_unset sa.toTIntBase1 h
    unfold CSize_t.operator_plus CSize_t.operator_minus CSize_t.compare
      CSize_t.operator_plus_assign CSize_t.operator_minus_assign
    rw [e]
    exact ⟨rfl, rfl, rfl, rfl, rfl⟩

/-- C30, amended, at concrete operands: with the default-constructed `CInt` on the
left, `a + b` and `a < b` fail the check; with it on the right of the assigned
`CInt` holding 3, `a + b` holds 3. -/
theorem C30_left_operand_checked_right_operand_not_witness :
    CInt.operator_plus true CInt.ctor ⟨⟨3, true⟩⟩ = .error .assert_failure ∧
    CInt.compare true .lt CInt.ctor ⟨⟨3, true⟩⟩ = .error .assert_failure ∧
    CInt.operator_plus true ⟨⟨3, true⟩⟩ CInt.ctor = .ok ⟨⟨3, true⟩⟩ :=
  have h := (C30_left_operand_checked_right_operand_not .lt CInt.ctor ⟨⟨3, true⟩⟩
    CSize_t.ctor ⟨⟨3, true⟩⟩).1 rfl
  have h2 := (C30_left_operand_checked_right_operand_not .lt ⟨⟨3, true⟩⟩ CInt.ctor
    CSize_t.ctor CSize_t.ctor).2.2.1.1
  ⟨h.1, h.2.2.1, h2.trans rfl⟩

/-! ## Sums and products of CSize_t (C31) -/

theorem CSize_t_from_size_t (check : Bool) (z : Int) :
    CSize_t.from_native check IntType.size_t (IntType.size_t.cast z) =
      .ok ⟨⟨z % 2 ^ 64, check || false⟩⟩ := by
  have e : IntType.size_t.cast z = z % 2 ^ 64 := by simp [IntType.cast, IntType.size_t]
  have h1 : (0 : Int) ≤ z % 2 ^ 64 := Int.emod_nonneg _ (by norm_num)
  have h2 : z % 2 ^ 64 < 2 ^ 64 := Int.emod_lt_of_pos _ (by norm_num)
  have hg : g_assign_check_range IntType.size_t IntType.size_t (z % 2 ^ 64) = .ok () := by
    simp [g_assign_check_range, sg_can_exceed_upper_bound, sg_can_exceed_lower_bound,
      IntType.size_t]
  unfold CSize_t.from_native TIntBase1.assign_check_range CSize_t._Ty
  rw [e]
  simp only [hg, note_value_assignment_eq, size_t_cast_of_range _ h1 h2]

theorem copy_initialize_of_negative (check : Bool) (v : Int) (h1 : -2 ^ 63 ≤ v) (h2 : v < 0) :
    CSize_t.copy_initialize check v = .ok ⟨⟨v + 2 ^ 64, check || false⟩⟩ ∧
    as_a_size_t check (CSize_t.copy check ⟨⟨v + 2 ^ 64, check || false⟩⟩) = .ok (v + 2 ^ 64) := by
  have e : v % 2 ^ 64 = v + 2 ^ 64 := by
    norm_num at h1 ⊢
    omega
  refine ⟨?_, as_a_size_t_eq check _⟩
  unfold CSize_t.copy_initialize
  rw [CSize_t_from_size_t check v, e]

theorem CSize_t_operator_plus_spec (check : Bool) (a b : CSize_t) (ha : a.m_initialized = true) :
    a.operator_plus check b = .ok ⟨⟨(a.m_val + b.m_val) % 2 ^ 64, check || false⟩⟩ := by
  unfold CSize_t.operator_plus CSize_t._Ty
  rw [assert_initialized_of_assigned check _ ha]
  exact CSize_t_from_size_t check _

theorem CSize_t_operator_multiply_spec (check : Bool) (a b : CSize_t)
    (ha : a.m_initialized = true) :
    a.operator_multiply check b = .ok ⟨⟨(a.m_val * b.m_val) % 2 ^ 64, check || false⟩⟩ := by
  unfold CSize_t.operator_multiply CSize_t._Ty
  rw [assert_initialized_of_assigned check _ ha]
  exact CSize_t_from_size_t check _

theorem CSize_t_operator_plus_assign_spec (check : Bool) (a b : CSize_t)
    (ha : a.m_initialized = true) :
    a.operator_plus_assign check b =
      (.ok (), ⟨⟨(a.m_val + b.m_val) % 2 ^ 64, a.m_initialized⟩⟩) := by
  have e : IntType.size_t.cast (a.m_val + b.m_val) = (a.m_val + b.m_val) % 2 ^ 64 := by
    simp [IntType.cast, IntType.size_t]
  unfold CSize_t.operator_plus_assign CSize_t._Ty
  rw [assert_initialized_of_assigned check _ ha, e]

/-- C31 fails as stated: in the debug configuration, with both operands assigned,
`CSize_t(2^64 - 1) + CSize_t(1)` returns the `CSize_t` holding 0, `+=` with the
same operands leaves 0, and `CSize_t(2^32) * CSize_t(2^32)` returns the `CSize_t`
holding 0; none of them raises anything. -/
theorem C31_CSize_t_sum_and_product_counterexample :
    CSize_t.operator_plus true ⟨⟨2 ^ 64 - 1, true⟩⟩ ⟨⟨1, true⟩⟩ = .ok ⟨⟨0, true⟩⟩ ∧
    CSize_t.operator_plus_assign true ⟨⟨2 ^ 64 - 1, true⟩⟩ ⟨⟨1, true⟩⟩ =
      (.ok (), ⟨⟨0, true⟩⟩) ∧
    CSize_t.operator_multiply true ⟨⟨2 ^ 32, true⟩⟩ ⟨⟨2 ^ 32, true⟩⟩ = .ok ⟨⟨0, true⟩⟩ :=
  ⟨rfl, rfl, rfl⟩

/-- C31, amended: for `CSize_t` values `a` (assigned) and `b`, in either
configuration, `a + b`, `a += b` and `a * b` raise nothing and yield the
mathematical sum or product reduced modulo `2 ^ 64`, which is the exact result
iff that result is below `2 ^ 64`. -/
theorem C31_CSize_t_sum_and_product_wrap (check : Bool) (a b : CSize_t)
    (ha : a.m_initialized = true) (ha1 : 0 ≤ a.m_val) (hb1 : 0 ≤ b.m_val) :
    (∃ c : CSize_t, a.operator_plus check b = .ok c ∧
      c.m_val = (a.m_val + b.m_val) % 2 ^ 64 ∧
      (c.m_val = a.m_val + b.m_val ↔ a.m_val + b.m_val < 2 ^ 64)) ∧
    ((a.operator_plus_assign check b).1 = .ok () ∧
      (a.operator_plus_assign check b).2.m_val = (a.m_val + b.m_val) % 2 ^ 64 ∧
      ((a.operator_plus_assign check b).2.m_val = a.m_val + b.m_val ↔
        a.m_val + b.m_val < 2 ^ 64)) ∧
    (∃ c : CSize_t, a.operator_multiply check b = .ok c ∧
      c.m_val = (a.m_val * b.m_val) % 2 ^ 64 ∧
      (c.m_val = a.m_val * b.m_val ↔ a.m_val * b.m_val < 2 ^ 64)) := by
  have key : ∀ z : Int, 0 ≤ z → (z % 2 ^ 64 = z ↔ z < 2 ^ 64) := by
    intro z hz
    constructor
    · intro h
      rw [← h]
      exact Int.emod_lt_of_pos _ (by norm_num)
    · intro h
      exact Int.emod_eq_of_lt hz h
  have hs : 0 ≤ a.m_val + b.m_val := add_nonneg ha1 hb1
  have hp : 0 ≤ a.m_val * b.m_val := mul_nonneg ha1 hb1
  rw [CSize_t_operator_plus_assign_spec check a b ha]
  exact ⟨⟨_, CSize_t_operator_plus_spec check a b ha, rfl, key _ hs⟩,
    ⟨rfl, rfl, key _ hs⟩,
    ⟨_, CSize_t_operator_multiply_spec check a b ha, rfl, key _ hp⟩⟩

/-- C31, amended, in the debug configuration: `CSize_t(2^64 - 1) + CSize_t(2)` is
the `CSize_t` holding the sum modulo `2 ^ 64`, and `CSize_t(6) * CSize_t(7)` is
exact. -/
theorem C31_CSize_t_sum_and_product_wrap_witness :
    (∃ c : CSize_t, CSize_t.operator_plus true ⟨⟨2 ^ 64 - 1, true⟩⟩ ⟨⟨2, true⟩⟩ = .ok c ∧
      c.m_val = ((2 ^ 64 - 1 : Int) + 2) % 2 ^ 64 ∧
      (c.m_val = (2 ^ 64 - 1 : Int) + 2 ↔ (2 ^ 64 - 1 : Int) + 2 < 2 ^ 64)) ∧
    (∃ c : CSize_t, CSize_t.operator_multiply true ⟨⟨6, true⟩⟩ ⟨⟨7, true⟩⟩ = .ok c ∧
      c.m_val = ((6 : Int) * 7) % 2 ^ 64 ∧
      (c.m_val = (6 : Int) * 7 ↔ (6 : Int) * 7 < 2 ^ 64)) :=
  ⟨(C31_CSize_t_sum_and_product_wrap true ⟨⟨2 ^ 64 - 1, true⟩⟩ ⟨⟨2, true⟩⟩ rfl
      (by decide) (by decide)).1,
   (C31_CSize_t_sum_and_product_wrap true ⟨⟨6, true⟩⟩ ⟨⟨7, true⟩⟩ rfl
      (by decide) (by decide)).2.2⟩

/-! ## Copies of a never-assigned scalar (C32) -/

/-- C32 fails as stated: in the debug configuration, reading a default-constructed
`CInt`, `CSize_t` or `CBool` fails the use-before-set check, but a copy constructed
from it reads as 0 (or `false`), and so does a default-constructed `CInt` or
`CBool` after a copy assignment from it; constructing the copy and assigning it
are functions that return without a check. -/
theorem C32_copy_of_never_assigned_counterexample :
    (CInt.ctor.operator_Ty true = .error .assert_failure ∧
      (CInt.copy true CInt.ctor).operator_Ty true = .ok 0 ∧
      (CInt.ctor.assign true CInt.ctor).operator_Ty true = .ok 0) ∧
    (CSize_t.ctor.operator_size_t true = .error .assert_failure ∧
      (CSize_t.copy true CSize_t.ctor).operator_size_t true = .ok 0) ∧
    (CBool.ctor.operator_bool true = .error .assert_failure ∧
      (CBool.copy true CBool.ctor).operator_bool true = .ok false ∧
      (CBool.ctor.assign true CBool.ctor).operator_bool true = .ok false) :=
  ⟨⟨rfl, rfl, rfl⟩, ⟨rfl, rfl⟩, ⟨rfl, rfl, rfl⟩⟩

/-- C32, amended: in the debug configuration, a `CInt`, `CSize_t` or `CBool`
copy-constructed from a checked scalar `x`, and a `CInt` or `CBool` copy-assigned
from one, is marked as assigned whether or not `x` ever was: the copy raises
nothing, and reading the copy afterwards succeeds and returns the stored value
of `x`. -/
theorem C32_copy_marks_the_copy_assigned (x t : CInt) (y : CSize_t) (b c : CBool) :
    ((CInt.copy true x).operator_Ty true = .ok x.m_val ∧
      (t.assign true x).operator_Ty true = .ok x.m_val) ∧
    (CSize_t.copy true y).operator_size_t true = .ok y.m_val ∧
    ((CBool.copy true b).operator_bool true = .ok b.m_val ∧
      (c.assign true b).operator_bool true = .ok b.m_val) :=
  ⟨⟨rfl, rfl⟩, rfl, ⟨rfl, rfl⟩⟩

/-! ## The null-checked pointer wrappers (C33) -/

theorem msear_pointer_spec {α : Type} (mem : Nat → α) (p : msear_pointer) :
    (p.m_ptr = none →
      p.deref mem = .error (.out_of_range .null_deref) ∧
      p.arrow = .error (.out_of_range .null_deref)) ∧
    (∀ a, p.m_ptr = some a → p.deref mem = .ok (mem a) ∧ p.arrow = .ok a) := by
  constructor
  · intro h
    simp [msear_pointer.deref, msear_pointer.arrow, h]
  · intro a h
    simp [msear_pointer.deref, msear_pointer.arrow, h]

theorem TSaferPtr_spec {α : Type} (check : Bool) (mem : Nat → α) (q : TSaferPtr)
    (hq : check = true → q.m_initialized = true) :
    (q.m_ptr = none →
      q.deref check mem = .error (.out_of_range .safer_ptr_null_deref) ∧
      q.arrow check = .error (.out_of_range .safer_ptr_null_deref)) ∧
    (∀ a, q.m_ptr = some a → q.deref check mem = .ok (mem a) ∧ q.arrow check = .ok a) := by
  have hi : q.assert_initialized check = .ok () := by
    cases check
    · simp [TSaferPtr.assert_initialized]
    · simp [TSaferPtr.assert_initialized, hq rfl]
  constructor
  · intro h
    simp [TSaferPtr.deref, TSaferPtr.arrow, h, hi]
  · intro a h
    simp [TSaferPtr.deref, TSaferPtr.arrow, h, hi]

theorem TSaferPtrForLegacy_spec {α : Type} (check : Bool) (mem : Nat → α)
    (r : TSaferPtrForLegacy) (hr : check = true → r.m_initialized = true) :
    (r.m_ptr = none →
      r.deref check mem = .error (.out_of_range .safer_ptr_for_legacy_null_deref) ∧
      r.arrow check = .error (.out_of_range .safer_ptr_for_legacy_null_deref)) ∧
    (∀ a, r.m_ptr = some a → r.deref check mem = .ok (mem a) ∧ r.arrow check = .ok a) := by
  have hi : r.assert_initialized check = .ok () := by
    cases check
    · simp [TSaferPtrForLegacy.assert_initialized]
    · simp [TSaferPtrForLegacy.assert_initialized, hr rfl]
  constructor
  · intro h
    simp [TSaferPtrForLegacy.deref, TSaferPtrForLegacy.arrow, h, hi]
  · intro a h
    simp [TSaferPtrForLegacy.deref, TSaferPtrForLegacy.arrow, h, hi]

theorem fails_iff_none {β : Type} (o : Option Nat) (x : Except Exn β) (e0 : Exn)
    (h1 : o = none → x = .error e0) (h2 : ∀ a, o = some a → ∃ v, x = .ok v) :
    (∃ e, x = .error e) ↔ o = none := by
  constructor
  · rintro ⟨e, he⟩
    cases ho : o with
    | none => rfl
    | some a =>
      obtain ⟨v, hv⟩ := h2 a ho
      rw [hv] at he
      exact nomatch he
  · intro h
    exact ⟨e0, h1 h⟩

/-- C33: for an `msear_pointer` `p`, and for a `TSaferPtr` `q` and a
`TSaferPtrForLegacy` `r` that have been assigned (which matters in the debug
configuration only), `operator*` and `operator->` fail iff the held pointer is
null, the failure being their `std::out_of_range`; otherwise `operator*` returns
the referent and `operator->` the held pointer. A default-constructed wrapper of
each class holds null, and a wrapper constructed from a pointer, or assigned one
by `operator=` or `raw_pointer`, is assigned and holds that pointer. -/
theorem C33_null_checked_pointers_fail_iff_null {α : Type} (check : Bool) (mem : Nat → α)
    (p : msear_pointer) (q : TSaferPtr) (r : TSaferPtrForLegacy)
    (hq : check = true → q.m_initialized = true)
    (hr : check = true → r.m_initialized = true) :
    ((((∃ e, p.deref mem = .error e) ↔ p.m_ptr = none) ∧
        ((∃ e, p.arrow = .error e) ↔ p.m_ptr = none)) ∧
      (p.m_ptr = none →
        p.deref mem = .error (.out_of_range .null_deref) ∧
        p.arrow = .error (.out_of_range .null_deref)) ∧
      (∀ a, p.m_ptr = some a → p.deref mem = .ok (mem a) ∧ p.arrow = .ok a)) ∧
    ((((∃ e, q.deref check mem = .error e) ↔ q.m_ptr = none) ∧
        ((∃ e, q.arrow check = .error e) ↔ q.m_ptr = none)) ∧
      (q.m_ptr = none →
        q.deref check mem = .error (.out_of_range .safer_ptr_null_deref) ∧
        q.arrow check = .error (.out_of_range .safer_ptr_null_deref)) ∧
      (∀ a, q.m_ptr = some a → q.deref check mem = .ok (mem a) ∧ q.arrow check = .ok a)) ∧
    ((((∃ e, r.deref check mem = .error e) ↔ r.m_ptr = none) ∧
        ((∃ e, r.arrow check = .error e) ↔ r.m_ptr = none)) ∧
      (r.m_ptr = none →
        r.deref check mem = .error (.out_of_range .safer_ptr_for_legacy_null_deref) ∧
        r.arrow check = .error (.out_of_range .safer_ptr_for_legacy_null_deref)) ∧
      (∀ a, r.m_ptr = some a → r.deref check mem = .ok (mem a) ∧ r.arrow check = .ok a)) ∧
    (({} : msear_pointer).m_ptr = none ∧ TSaferPtr.ctor.m_ptr = none ∧
      TSaferPtrForLegacy.ctor.m_ptr = none) ∧
    (∀ ptr : Option Nat,
      ((TSaferPtr.from_ptr check ptr).m_ptr = ptr ∧
        (check = true → (TSaferPtr.from_ptr check ptr).m_initialized = true)) ∧
      ((q.assign_ptr check ptr).m_ptr = ptr ∧
        (check = true → (q.assign_ptr check ptr).m_initialized = true)) ∧
      ((q.set_raw_pointer check ptr).m_ptr = ptr ∧
        (check = true → (q.set_raw_pointer check ptr).m_initialized = true)) ∧
      ((TSaferPtrForLegacy.from_ptr check ptr).m_ptr = ptr ∧
        (check = true → (TSaferPtrForLegacy.from_ptr check ptr).m_initialized = true)) ∧
      ((r.assign_ptr check ptr).m_ptr = ptr ∧
        (check = true → (r.assign_ptr check ptr).m_initialized = true)) ∧
      ((r.set_raw_pointer check ptr).m_ptr = ptr ∧
        (check = true → (r.set_raw_pointer check ptr).m_initialized = true))) := by
  have hp := msear_pointer_spec mem p
  have hq2 := TSaferPtr_spec check mem q hq
  have hr2 := TSaferPtrForLegacy_spec check mem r hr
  refine ⟨⟨⟨?_, ?_⟩, hp⟩, ⟨⟨?_, ?_⟩, hq2⟩, ⟨⟨?_, ?_⟩, hr2⟩, ⟨rfl, rfl, rfl⟩, ?_⟩
  · exact fails_iff_none _ _ _ (fun h => (hp.1 h).1) (fun a h => ⟨_, (hp.2 a h).1⟩)
  · exact fails_iff_none _ _ _ (fun h => (hp.1 h).2) (fun a h => ⟨_, (hp.2 a h).2⟩)
  · exact fails_iff_none _ _ _ (fun h => (hq2.1 h).1) (fun a h => ⟨_, (hq2.2 a h).1⟩)
  · exact fails_iff_none _ _ _ (fun h => (hq2.1 h).2) (fun a h => ⟨_, (hq2.2 a h).2⟩)
  · exact fails_iff_none _ _ _ (fun h => (hr2.1 h).1) (fun a h => ⟨_, (hr2.2 a h).1⟩)
  · exact fails_iff_none _ _ _ (fun h => (hr2.1 h).2) (fun a h => ⟨_, (hr2.2 a h).2⟩)
  · intro ptr
    refine ⟨⟨?_, ?_⟩, ⟨?_, ?_⟩, ⟨?_, ?_⟩, ⟨?_, ?_⟩, ⟨?_, ?_⟩, ⟨?_, ?_⟩⟩ <;>
      first
      | (intro hc; subst hc; rfl)
      | (cases check <;> rfl)

/-- C33 in the debug configuration, with the store that holds `10 * a` at address
`a`: a `TSaferPtr` constructed from the address 4 dereferences to 40 and
`operator->` returns 4; one constructed from `nullptr` fails with
`std::out_of_range`. -/
theorem C33_null_checked_pointers_fail_iff_null_witness :
    (TSaferPtr.deref true (fun a => 10 * a) (TSaferPtr.from_ptr true (some 4)) = .ok (10 * 4) ∧
      TSaferPtr.arrow true (TSaferPtr.from_ptr true (some 4)) = .ok 4) ∧
    (TSaferPtr.deref true (fun a => 10 * a) (TSaferPtr.from_ptr true none) =
        .error (.out_of_range .safer_ptr_null_deref) ∧
      TSaferPtr.arrow true (TSaferPtr.from_ptr true none) =
        .error (.out_of_range .safer_ptr_null_deref)) :=
  ⟨(C33_null_checked_pointers_fail_iff_null true (fun a => 10 * a) {}
      (TSaferPtr.from_ptr true (some 4)) (TSaferPtrForLegacy.from_ptr true none)
      (fun _ => rfl) (fun _ => rfl)).2.1.2.2 4 rfl,
   (C33_null_checked_pointers_fail_iff_null true (fun a => 10 * a) {}
      (TSaferPtr.from_ptr true none) (TSaferPtrForLegacy.from_ptr true none)
      (fun _ => rfl) (fun _ => rfl)).2.1.2.1 rfl⟩

/-! ## The native cursor stays in step with the index (C34) -/

theorem eq_of_over_in_sync (N this : Nat) (it : ss_iterator_type) (h1 : it.over N this)
    (h2 : it.in_sync this) :
    it = ⟨some (this, (it.m_index : Int)), it.m_index, ⟨some this⟩⟩ := by
  obtain ⟨b, i, o⟩ := it
  obtain ⟨ho, _⟩ := h1
  unfold ss_iterator_type.in_sync at h2
  dsimp only at ho h2 ⊢
  rw [ho, h2]

theorem set_to_next_at_end (N this : Nat) (b : native_iterator) :
    ss_iterator_type.set_to_next N ⟨b, N, ⟨some this⟩⟩ =
      (.error (.out_of_range .set_to_next), ⟨b, N, ⟨some this⟩⟩) := by
  simp [ss_iterator_type.set_to_next, ss_iterator_type.points_to_an_item, msear_pointer.arrow]

theorem shift_inclusive_range_rederives (N this first last : Nat) (shift : Int)
    (it : ss_iterator_type) (hown : it.m_owner_ptr = ⟨some this⟩) :
    ∀ r, it.shift_inclusive_range N first last shift = r → r.1 = .ok () →
      (first ≤ it.m_index ∧ it.m_index ≤ last →
        r.2.base = native_add (native_begin this) (to_int64 (r.2.m_index : Int))) ∧
      (¬ (first ≤ it.m_index ∧ it.m_index ≤ last) → r.2 = it) := by
  intro r hr hok
  unfold ss_iterator_type.shift_inclusive_range ss_iterator_type.sync_iterator_to_index at hr
  dsimp only at hr
  have hp : it.m_owner_ptr.arrow = .ok this := by rw [hown]; rfl
  rw [hp] at hr
  dsimp only at hr
  split_ifs at hr with h1 h2 h3 h4
  · subst hr; exact nomatch hok
  · subst hr; exact nomatch hok
  · subst hr
    exact ⟨fun _ => rfl, fun hn => absurd ⟨h1.1, h1.2⟩ hn⟩
  · subst hr; exact nomatch hok
  · subst hr
    exact ⟨fun hh => absurd ⟨hh.1, hh.2⟩ h1, fun _ => rfl⟩

theorem call_in_sync (N this : Nat) (hN : N < 2 ^ 63) (i : Nat) (hi : i ≤ N) (c : Call)
    (hc : ∀ n, c = .advance n → -2 ^ 63 ≤ n ∧ n < 2 ^ 63) :
    ∀ r, ss_iterator_type.call N c ⟨some (this, (i : Int)), i, ⟨some this⟩⟩ = r →
      r.1 = .ok () → ∃ j, j ≤ N ∧ r.2 = ⟨some (this, (j : Int)), j, ⟨some this⟩⟩ := by
  have hover : ss_iterator_type.over N this ⟨some (this, (i : Int)), i, ⟨some this⟩⟩ :=
    ⟨rfl, hi⟩
  have hN64 : N < 2 ^ 64 := lt_trans hN (by norm_num)
  have hNi : (N : Int) < 2 ^ 63 := by exact_mod_cast hN
  have hadv : ∀ n : Int, -2 ^ 63 ≤ n → n < 2 ^ 63 →
      ∀ r, ss_iterator_type.advance N n ⟨some (this, (i : Int)), i, ⟨some this⟩⟩ = r →
        r.1 = .ok () → ∃ j, j ≤ N ∧ r.2 = ⟨some (this, (j : Int)), j, ⟨some this⟩⟩ := by
    intro n hn1 hn2 r hr hok
    rw [advance_spec N hN n hn1 (le_of_lt hn2) this _ hover] at hr
    dsimp only at hr
    split_ifs at hr with hb
    · subst hr
      refine ⟨((i : Int) + n).toNat, by omega, ?_⟩
      have e : ((((i : Int) + n).toNat : Nat) : Int) = (i : Int) + n := Int.toNat_of_nonneg hb.1
      simp only [native_add, Option.map_some', e]
    · subst hr; exact nomatch hok
  intro r hr hok
  cases c with
  | set_to_beginning =>
    subst hr
    exact ⟨0, Nat.zero_le _, rfl⟩
  | set_to_end_marker =>
    subst hr
    exact ⟨N, Nat.le_refl _, rfl⟩
  | set_to_next =>
    have e : ss_iterator_type.call N .set_to_next ⟨some (this, (i : Int)), i, ⟨some this⟩⟩ =
        ss_iterator_type.set_to_next N ⟨some (this, (i : Int)), i, ⟨some this⟩⟩ := rfl
    rw [e] at hr
    by_cases hlt : i < N
    · rw [set_to_next_at_item N this i hN64 hlt] at hr
      subst hr
      exact ⟨i + 1, hlt, rfl⟩
    · have hiN : i = N := by omega
      subst hiN
      rw [set_to_next_at_end] at hr
      subst hr
      exact nomatch hok
  | set_to_previous =>
    have e : ss_iterator_type.call N .set_to_previous ⟨some (this, (i : Int)), i, ⟨some this⟩⟩ =
        ss_iterator_type.set_to_previous ⟨some (this, (i : Int)), i, ⟨some this⟩⟩ := rfl
    rw [e, set_to_previous_spec N this hN64 _ hover] at hr
    dsimp only at hr
    split_ifs at hr with h0
    · subst hr; exact nomatch hok
    · subst hr
      refine ⟨i - 1, by omega, ?_⟩
      have e2 : (i : Int) + -1 = ((i - 1 : Nat) : Int) := by omega
      simp only [native_add, Option.map_some', e2]
  | advance n =>
    obtain ⟨hn1, hn2⟩ := hc n rfl
    exact hadv n hn1 hn2 r hr hok
  | regress n =>
    have h1 : -2 ^ 63 ≤ to_int64 (-n) := by
      unfold to_int64
      norm_num
      omega
    have h2 : to_int64 (-n) < 2 ^ 63 := by
      unfold to_int64
      norm_num
      omega
    exact hadv (to_int64 (-n)) h1 h2 r hr hok
  | invalidate_inclusive_range f l =>
    have e : ss_iterator_type.call N (.invalidate_inclusive_range f l)
          ⟨some (this, (i : Int)), i, ⟨some this⟩⟩ =
        ss_iterator_type.invalidate_inclusive_range N f l
          ⟨some (this, (i : Int)), i, ⟨some this⟩⟩ := rfl
    rw [e, invalidate_inclusive_range_spec N this f l _ hover] at hr
    dsimp only at hr
    split_ifs at hr with h1
    · subst hr
      exact ⟨N, Nat.le_refl _, rfl⟩
    · subst hr
      exact ⟨i, hi, rfl⟩
  | shift_inclusive_range f l shift =>
    have e : ss_iterator_type.call N (.shift_inclusive_range f l shift)
          ⟨some (this, (i : Int)), i, ⟨some this⟩⟩ =
        ss_iterator_type.shift_inclusive_range N f l shift
          ⟨some (this, (i : Int)), i, ⟨some this⟩⟩ := rfl
    rw [e] at hr
    obtain ⟨hk1, hk2⟩ := shift_inclusive_range_keeps N f l shift _ hi r hr
    obtain ⟨hs1, hs2⟩ := shift_inclusive_range_rederives N this f l shift _ rfl r hr hok
    by_cases hin : f ≤ i ∧ i ≤ l
    · have hb := hs1 hin
      refine ⟨r.2.m_index, hk1, ?_⟩
      have e3 : to_int64 (r.2.m_index : Int) = r.2.m_index :=
        to_int64_of_range _ (by norm_num; omega) (by omega)
      rw [e3] at hb
      obtain ⟨r1, ⟨b, j, o⟩⟩ := r
      dsimp only at hb hk2 ⊢
      rw [hb, hk2]
      simp [native_add, native_begin]
    · rw [hs2 hin]
      exact ⟨i, hi, rfl⟩

/-- C34: with the inherited native cursor modelled as an offset from the owner's
`begin()`, for a container of capacity `N` at address `this`: the iterators that
`ss_begin()` and `ss_end()` return have the cursor at offset `m_index`; every call
of `set_to_beginning`, `set_to_end_marker`, `set_to_next`, `set_to_previous`,
`advance`, `regress`, `invalidate_inclusive_range` and `shift_inclusive_range`
that returns, made on an iterator of that container whose cursor is at offset
`m_index`, leaves the cursor at offset `m_index` (the argument of `advance` being
a signed 64-bit value); so does an assignment from such an iterator. A
`shift_inclusive_range` that moves the iterator sets the cursor to
`begin() + m_index` whatever the cursor was before. -/
theorem C34_native_cursor_in_sync_with_index (N this : Nat) (hN : N < 2 ^ 63) :
    (∃ it, msearray.ss_begin this = .ok it ∧ it.over N this ∧ it.in_sync this) ∧
    (∃ it, msearray.ss_end N this = .ok it ∧ it.over N this ∧ it.in_sync this) ∧
    (∀ (it : ss_iterator_type) (c : Call), it.over N this → it.in_sync this →
      (∀ n, c = .advance n → -2 ^ 63 ≤ n ∧ n < 2 ^ 63) →
      (it.call N c).1 = .ok () →
      (it.call N c).2.over N this ∧ (it.call N c).2.in_sync this) ∧
    (∀ it rhs : ss_iterator_type, rhs.over N this → rhs.in_sync this →
      (it.assign rhs).over N this ∧ (it.assign rhs).in_sync this) ∧
    (∀ (it : ss_iterator_type) (index_of_first index_of_last : Nat) (shift : Int),
      it.over N this → index_of_first ≤ it.m_index → it.m_index ≤ index_of_last →
      (it.shift_inclusive_range N index_of_first index_of_last shift).1 = .ok () →
      (it.shift_inclusive_range N index_of_first index_of_last shift).2.base =
          native_add (native_begin this)
            ((it.shift_inclusive_range N index_of_first index_of_last shift).2.m_index : Int) ∧
        (it.shift_inclusive_range N index_of_first index_of_last shift).2.in_sync this) := by
  refine ⟨⟨_, ss_begin_eq this, ⟨rfl, Nat.zero_le _⟩, rfl⟩,
    ⟨⟨some (this, (N : Int)), N, ⟨some this⟩⟩, rfl, ⟨rfl, Nat.le_refl _⟩, rfl⟩, ?_, ?_, ?_⟩
  · intro it c hover hsync hc hok
    have e := eq_of_over_in_sync N this it hover hsync
    have key : ∀ r, it.call N c = r → r.1 = .ok () →
        r.2.over N this ∧ r.2.in_sync this := by
      intro r hr hrok
      rw [e] at hr
      obtain ⟨j, hj, hj2⟩ := call_in_sync N this hN it.m_index hover.2 c hc r hr hrok
      rw [hj2]
      exact ⟨⟨rfl, hj⟩, rfl⟩
    exact key _ rfl hok
  · intro it rhs hover hsync
    have e := eq_of_over_in_sync N this rhs hover hsync
    rw [e]
    exact ⟨⟨rfl, hover.2⟩, rfl⟩
  · intro it f l shift hover h1 h2 hok
    have key : ∀ r, it.shift_inclusive_range N f l shift = r → r.1 = .ok () →
        r.2.base = native_add (native_begin this) (r.2.m_index : Int) ∧
        r.2.in_sync this := by
      intro r hr hrok
      obtain ⟨hk1, _⟩ := shift_inclusive_range_keeps N f l shift it hover.2 r hr
      have hb := (shift_inclusive_range_rederives N this f l shift it hover.1 r hr hrok).1
        ⟨h1, h2⟩
      have hNi : (N : Int) < 2 ^ 63 := by exact_mod_cast hN
      have e3 : to_int64 (r.2.m_index : Int) = r.2.m_index :=
        to_int64_of_range _ (by norm_num; omega) (by omega)
      rw [e3] at hb
      refine ⟨hb, ?_⟩
      unfold ss_iterator_type.in_sync
      rw [hb]
      simp [native_add, native_begin]
    exact key _ rfl hok

/-- C34 at capacity 3, for the container at address 7: from position 1 with the
cursor at offset 1, `advance(2)` leaves position 3 with the cursor at offset 3;
from position 3 with a stale cursor at offset 0, `shift_inclusive_range(2, 4, -1)`
leaves position 2 with the cursor at `begin() + 2`. -/
theorem C34_native_cursor_in_sync_with_index_witness :
    ((ss_iterator_type.call 3 (.advance 2) ⟨some (7, 1), 1, ⟨some 7⟩⟩).2.over 3 7 ∧
      (ss_iterator_type.call 3 (.advance 2) ⟨some (7, 1), 1, ⟨some 7⟩⟩).2.in_sync 7) ∧
    ((ss_iterator_type.shift_inclusive_range 3 2 4 (-1) ⟨some (7, 0), 3, ⟨some 7⟩⟩).2.base =
        native_add (native_begin 7)
          ((ss_iterator_type.shift_inclusive_range 3 2 4 (-1)
            ⟨some (7, 0), 3, ⟨some 7⟩⟩).2.m_index : Int) ∧
      (ss_iterator_type.shift_inclusive_range 3 2 4 (-1)
        ⟨some (7, 0), 3, ⟨some 7⟩⟩).2.in_sync 7) :=
  have h := C34_native_cursor_in_sync_with_index 3 7 (by norm_num)
  ⟨h.2.2.1 ⟨some (7, 1), 1, ⟨some 7⟩⟩ (.advance 2) ⟨rfl, by decide⟩ rfl
      (fun n hn => by cases hn; exact ⟨by norm_num, by norm_num⟩) rfl,
   h.2.2.2.2 ⟨some (7, 0), 3, ⟨some 7⟩⟩ 2 4 (-1) ⟨rfl, by decide⟩ (by decide) (by decide) rfl⟩

/-! ## The difference of two iterators (C35) -/

theorem to_int32_of_range (z : Int) (h1 : -2 ^ 31 ≤ z) (h2 : z < 2 ^ 31) : to_int32 z = z := by
  unfold to_int32
  norm_num at h1 h2 ⊢
  omega

theorem difference_spec (N this : Nat) (hN : N < 2 ^ 31) (a b : ss_iterator_type)
    (ha : a.over N this) (ha2 : a.in_sync this) (hb : b.over N this) (hb2 : b.in_sync this) :
    a.difference N b = .ok ((a.m_index : Int) - (b.m_index : Int)) := by
  have ea := eq_of_over_in_sync N this a ha ha2
  have eb := eq_of_over_in_sync N this b hb hb2
  have hNi : (N : Int) < 2 ^ 31 := by exact_mod_cast hN
  have e32 : to_int32 (N : Int) = N := to_int32_of_range _ (by norm_num; omega) hNi
  have hle : (N : Int) ≥ (a.m_index : Int) - (b.m_index : Int) := by
    have := ha.2
    omega
  rw [ea, eb]
  unfold ss_iterator_type.difference
  simp only [ne_eq, not_true_eq_false, if_false, native_sub, msear_pointer.arrow, e32, hle,
    if_true]

theorem operator_plus_unfold :
    @ss_iterator_type.operator_plus = fun N n it =>
      let retval : ss_iterator_type := {}
      let retval := { retval with m_owner_ptr := it.m_owner_ptr }
      let retval := retval.assign it
      ss_iterator_type.operator_plus.match_1 (fun _ => Except Exn ss_iterator_type)
        (retval.advance N n) (fun e _ => .error e) (fun _ retval => .ok retval) := by
  delta ss_iterator_type.operator_plus
  with_reducible rfl

theorem operator_plus_of_advance (N : Nat) (n : Int) (it : ss_iterator_type)
    (p : Except Exn Unit × ss_iterator_type) (hp : it.advance N n = p) :
    it.operator_plus N n =
      ss_iterator_type.operator_plus.match_1 (fun _ => Except Exn ss_iterator_type)
        p (fun e _ => .error e) (fun _ retval => .ok retval) := by
  have h := congrFun (congrFun (congrFun operator_plus_unfold N) n) it
  have ha : ss_iterator_type.assign
      { base := ({} : ss_iterator_type).base, m_index := ({} : ss_iterator_type).m_index,
        m_owner_ptr := it.m_owner_ptr } it = it := rfl
  have hq : ss_iterator_type.advance N n (ss_iterator_type.assign
      { base := ({} : ss_iterator_type).base, m_index := ({} : ss_iterator_type).m_index,
        m_owner_ptr := it.m_owner_ptr } it) = p := by
    rw [ha]
    exact hp
  with_reducible exact h.trans (congrArg
    (fun q => ss_iterator_type.operator_plus.match_1 (fun _ => Except Exn ss_iterator_type)
        q (fun e _ => .error e) (fun _ retval => .ok retval)) hq)

theorem operator_plus_spec (N this : Nat) (hN : N < 2 ^ 63) (n : Int) (hn1 : -2 ^ 63 ≤ n)
    (hn2 : n < 2 ^ 63) (it : ss_iterator_type) (hit : it.over N this) :
    it.operator_plus N n =
      if 0 ≤ (it.m_index : Int) + n ∧ (it.m_index : Int) + n ≤ N then
        .ok { it with m_index := ((it.m_index : Int) + n).toNat, base := native_add it.base n }
      else .error (.out_of_range .advance) := by
  have e := advance_spec N hN n hn1 (le_of_lt hn2) this it hit
  by_cases h : 0 ≤ (it.m_index : Int) + n ∧ (it.m_index : Int) + n ≤ N
  · rw [if_pos h] at e ⊢
    exact operator_plus_of_advance N n it _ e
  · rw [if_neg h] at e ⊢
    exact operator_plus_of_advance N n it _ e

theorem difference_after_operator_plus (N this : Nat) (hN : N < 2 ^ 31) (n : Int)
    (it : ss_iterator_type) (hit : it.over N this) (hs : it.in_sync this)
    (hb : 0 ≤ (it.m_index : Int) + n ∧ (it.m_index : Int) + n ≤ N) :
    ∃ r : ss_iterator_type, it.operator_plus N n = .ok r ∧
      (r.position : Int) = (it.position : Int) + n ∧ r.difference N it = .ok n := by
  have hN63 : N < 2 ^ 63 := lt_trans hN (by norm_num)
  have hNi : (N : Int) < 2 ^ 31 := by exact_mod_cast hN
  have hi : it.m_index ≤ N := hit.2
  have e := operator_plus_spec N this hN63 n (by norm_num; omega) (by norm_num; omega) it hit
  rw [if_pos hb] at e
  have hcast : ((((it.m_index : Int) + n).toNat : Nat) : Int) = (it.m_index : Int) + n :=
    Int.toNat_of_nonneg hb.1
  have hover : ss_iterator_type.over N this
      { it with m_index := ((it.m_index : Int) + n).toNat, base := native_add it.base n } :=
    ⟨hit.1, by dsimp only; omega⟩
  have hsync : ss_iterator_type.in_sync this
      { it with m_index := ((it.m_index : Int) + n).toNat, base := native_add it.base n } := by
    unfold ss_iterator_type.in_sync at hs ⊢
    dsimp only
    rw [hs, hcast]
    rfl
  have hpos : ∀ x : ss_iterator_type, x.position = x.m_index := fun _ => rfl
  refine ⟨{ it with m_index := ((it.m_index : Int) + n).toNat, base := native_add it.base n },
    e, ?_, ?_⟩
  · rw [hpos, hpos]
    exact hcast
  · rw [difference_spec N this hN _ it hover hsync hit hs]
    dsimp only
    rw [hcast]
    have h3 : (it.m_index : Int) + n - (it.m_index : Int) = n := by omega
    rw [h3]

/-- C35 does not hold of the code for a container of `2 ^ 31` elements, here at
address 7. The iterator `it` that `ss_begin()` returns is over the container with
its cursor at offset `m_index`, and `it + 0` succeeds and returns an equal
iterator; the differences `it - it` and `(it + 0) - it` are both 0, which the size
is not below, but the assertion compares the difference with the size cast to
`int`, which is `-2 ^ 31`, and fails. -/
theorem C35_difference_asserts_on_large_container :
    msearray.ss_begin 7 = .ok ⟨some (7, 0), 0, ⟨some 7⟩⟩ ∧
    ss_iterator_type.over (2 ^ 31) 7 ⟨some (7, 0), 0, ⟨some 7⟩⟩ ∧
    ss_iterator_type.in_sync 7 ⟨some (7, 0), 0, ⟨some 7⟩⟩ ∧
    to_int32 ((2 ^ 31 : Nat) : Int) = -2 ^ 31 ∧
    ss_iterator_type.difference (2 ^ 31) ⟨some (7, 0), 0, ⟨some 7⟩⟩
      ⟨some (7, 0), 0, ⟨some 7⟩⟩ = .error .assert_failure ∧
    ss_iterator_type.operator_plus (2 ^ 31) 0 ⟨some (7, 0), 0, ⟨some 7⟩⟩ =
      .ok ⟨some (7, 0), 0, ⟨some 7⟩⟩ :=
  ⟨rfl, ⟨rfl, Nat.zero_le _⟩, rfl, by decide, rfl, rfl⟩

/-! ## Failing calls leave the iterator as it was (C36) -/

theorem set_to_next_atomic (N : Nat) (it : ss_iterator_type) :
    ∀ r, it.set_to_next N = r → ∀ e, r.1 = .error e → r.2 = it := by
  intro r hr e he
  unfold ss_iterator_type.set_to_next ss_iterator_type.points_to_an_item at hr
  cases hp : it.m_owner_ptr.arrow with
  | error e1 =>
    simp only [hp] at hr
    subst hr
    rfl
  | ok a =>
    simp only [hp] at hr
    by_cases h1 : 1 ≤ N ∧ it.m_index < N
    · have h2 : (it.m_index + 1) % 2 ^ 64 ≤ it.m_index + 1 := Nat.mod_le _ _
      have h3 : ¬ (N < (it.m_index + 1) % 2 ^ 64) := by omega
      simp only [h1, and_self, if_true, h3, if_false, ite_self] at hr
      subst hr
      exact nomatch he
    · simp only [h1, if_false] at hr
      by_cases h4 : it.m_index = N
      · simp only [h4, if_true] at hr
        subst hr
        rfl
      · simp only [h4, if_false] at hr
        subst hr
        rfl

theorem set_to_previous_atomic (it : ss_iterator_type) :
    ∀ r, it.set_to_previous = r → ∀ e, r.1 = .error e → r.2 = it := by
  intro r hr e he
  unfold ss_iterator_type.set_to_previous at hr
  split_ifs at hr
  · subst hr; exact nomatch he
  · subst hr; rfl

theorem advance_atomic (N : Nat) (n : Int) (it : ss_iterator_type) :
    ∀ r, it.advance N n = r → ∀ e, r.1 = .error e → r.2 = it := by
  intro r hr e he
  unfold ss_iterator_type.advance at hr
  dsimp only at hr
  cases hp : it.m_owner_ptr.arrow with
  | error e1 =>
    rw [hp] at hr
    dsimp only at hr
    split_ifs at hr
    · subst hr; rfl
    · subst hr; rfl
  | ok a =>
    rw [hp] at hr
    dsimp only at hr
    split_ifs at hr with h1 h2
    · subst hr; rfl
    · subst hr; rfl
    · subst hr; exact nomatch he

theorem shift_inclusive_range_atomic (N first last : Nat) (shift : Int) (it : ss_iterator_type) :
    ∀ r, it.shift_inclusive_range N first last shift = r → ∀ e, r.1 = .error e → r.2 = it := by
  intro r hr e he
  unfold ss_iterator_type.shift_inclusive_range ss_iterator_type.sync_iterator_to_index at hr
  dsimp only at hr
  cases hp : it.m_owner_ptr.arrow with
  | error e1 =>
    rw [hp] at hr
    dsimp only at hr
    split_ifs at hr
    · subst hr; rfl
    · subst hr; rfl
    · subst hr; rfl
  | ok a =>
    rw [hp] at hr
    dsimp only at hr
    split_ifs at hr with h1 h2 h3 h4
    · subst hr; rfl
    · subst hr; rfl
    · subst hr; exact nomatch he
    · exact absurd (Nat.le_of_not_lt h3) h4
    · subst hr; exact nomatch he

/-- C36: for a mutable iterator in any state, over a container of any capacity
`N`, and any arguments: a call of `set_to_next`, `set_to_previous`, `advance`,
`regress` or `shift_inclusive_range` that fails, with whatever error, leaves the
iterator exactly as it was before the call: position, native cursor and owner.
The bodies of `item` and `previous_item` assign to no member, and the model gives
them the iterator as an argument only, so a call of either, failing or not,
leaves the iterator as it was. -/
theorem C36_failing_calls_leave_the_iterator_unchanged (N : Nat) (it : ss_iterator_type)
    (e : Exn) :
    ((it.set_to_next N).1 = .error e → (it.set_to_next N).2 = it) ∧
    ((it.set_to_previous).1 = .error e → (it.set_to_previous).2 = it) ∧
    (∀ n : Int, (it.advance N n).1 = .error e → (it.advance N n).2 = it) ∧
    (∀ n : Int, (it.regress N n).1 = .error e → (it.regress N n).2 = it) ∧
    (∀ (index_of_first index_of_last : Nat) (shift : Int),
      (it.shift_inclusive_range N index_of_first index_of_last shift).1 = .error e →
      (it.shift_inclusive_range N index_of_first index_of_last shift).2 = it) :=
  ⟨fun h => set_to_next_atomic N it _ rfl e h,
   fun h => set_to_previous_atomic it _ rfl e h,
   fun n h => advance_atomic N n it _ rfl e h,
   fun n h => advance_atomic N (to_int64 (-n)) it _ rfl e h,
   fun f l shift h => shift_inclusive_range_atomic N f l shift it _ rfl e h⟩

/-- C36 at capacity 3, from position 1 of the container at address 7, with the
cursor at offset 1: `advance(5)` fails with `std::out_of_range` and leaves the
iterator as it was; so does `shift_inclusive_range(0, 3, -2)`. -/
theorem C36_failing_calls_leave_the_iterator_unchanged_witness :
    ((ss_iterator_type.advance 3 5 ⟨some (7, 1), 1, ⟨some 7⟩⟩).1 =
        .error (.out_of_range .advance) ∧
      (ss_iterator_type.advance 3 5 ⟨some (7, 1), 1, ⟨some 7⟩⟩).2 =
        ⟨some (7, 1), 1, ⟨some 7⟩⟩) ∧
    ((ss_iterator_type.shift_inclusive_range 3 0 3 (-2) ⟨some (7, 1), 1, ⟨some 7⟩⟩).1 =
        .error (.out_of_range .shift_inclusive_range) ∧
      (ss_iterator_type.shift_inclusive_range 3 0 3 (-2) ⟨some (7, 1), 1, ⟨some 7⟩⟩).2 =
        ⟨some (7, 1), 1, ⟨some 7⟩⟩) :=
  ⟨⟨rfl, (C36_failing_calls_leave_the_iterator_unchanged 3 ⟨some (7, 1), 1, ⟨some 7⟩⟩
      (.out_of_range .advance)).2.2.1 5 rfl⟩,
   ⟨rfl, (C36_failing_calls_leave_the_iterator_unchanged 3 ⟨some (7, 1), 1, ⟨some 7⟩⟩
      (.out_of_range .shift_inclusive_range)).2.2.2.2 0 3 (-2) rfl⟩⟩

/-! ## regress undoes advance (C37) -/

theorem native_add_add_neg (c : native_iterator) (n : Int) :
    native_add (native_add c n) (-n) = c := by
  cases c with
  | none => rfl
  | some p =>
    obtain ⟨a, j⟩ := p
    simp [native_add]

theorem advance_then_back (N this : Nat) (hN : N < 2 ^ 63) (it : ss_iterator_type)
    (hit : it.over N this) (n : Int)
    (hb : 0 ≤ (it.m_index : Int) + n ∧ (it.m_index : Int) + n ≤ N) :
    ∃ it1 : ss_iterator_type, it.advance N n = (.ok (), it1) ∧
      it1.m_index = ((it.m_index : Int) + n).toNat ∧ it1.advance N (-n) = (.ok (), it) ∧
      to_int64 (-n) = -n := by
  obtain ⟨b, i, o⟩ := it
  have ho : o = ⟨some this⟩ := hit.1
  subst ho
  have hi : i ≤ N := hit.2
  have hNi : (N : Int) < 2 ^ 63 := by exact_mod_cast hN
  dsimp only at hb
  have hn1 : -2 ^ 63 ≤ n := by norm_num at hNi ⊢; omega
  have hn2 : n ≤ 2 ^ 63 := by norm_num at hNi ⊢; omega
  have hm1 : -2 ^ 63 ≤ -n := by norm_num at hNi ⊢; omega
  have hm2 : -n ≤ 2 ^ 63 := by norm_num at hNi ⊢; omega
  have hm3 : -n < 2 ^ 63 := by norm_num at hNi ⊢; omega
  have e1 := advance_spec N hN n hn1 hn2 this ⟨b, i, ⟨some this⟩⟩ hit
  rw [if_pos hb] at e1
  have hover1 : ss_iterator_type.over N this
      ⟨native_add b n, ((i : Int) + n).toNat, ⟨some this⟩⟩ := ⟨rfl, by dsimp only; omega⟩
  have e2 := advance_spec N hN (-n) hm1 hm2 this _ hover1
  have hcast : ((((i : Int) + n).toNat : Nat) : Int) = (i : Int) + n := Int.toNat_of_nonneg hb.1
  have hb2 : 0 ≤ ((((i : Int) + n).toNat : Nat) : Int) + -n ∧
      ((((i : Int) + n).toNat : Nat) : Int) + -n ≤ N := by
    rw [hcast]
    constructor
    · omega
    · omega
  dsimp only at e2
  rw [if_pos hb2] at e2
  have hback : (((((i : Int) + n).toNat : Nat) : Int) + -n).toNat = i := by
    rw [hcast]
    omega
  rw [hback, native_add_add_neg] at e2
  exact ⟨_, e1, rfl, e2, to_int64_of_range _ hm1 hm3⟩

theorem advance_then_back_results (N this : Nat) (hN : N < 2 ^ 63) (it : ss_iterator_type)
    (hit : it.over N this) (n : Int)
    (hb : 0 ≤ (it.m_index : Int) + n ∧ (it.m_index : Int) + n ≤ N) :
    ∀ p, it.advance N n = p → ∀ q, p.2.advance N (-n) = q →
      p.1 = .ok () ∧ (p.2.position : Int) = (it.position : Int) + n ∧
        q.1 = .ok () ∧ q.2 = it := by
  intro p hp q hq
  obtain ⟨it1, e1, e3, e2, _⟩ := advance_then_back N this hN it hit n hb
  rw [e1] at hp
  subst hp
  have hq2 : it1.advance N (-n) = q := hq
  rw [e2] at hq2
  subst hq2
  refine ⟨rfl, ?_, rfl, rfl⟩
  have h1 : ∀ x : ss_iterator_type, x.position = x.m_index := fun _ => rfl
  rw [h1, h1]
  dsimp only
  rw [e3]
  exact Int.toNat_of_nonneg hb.1

/-- C37: for a mutable iterator over a container of capacity `N` and a signed
64-bit offset `n`: `regress(n)` is `advance(-n)`, with the negation formed on 64
bits (the mathematical `-n` unless `n` is the lowest value), and `+= n`, `-= n`
are `advance(n)`, `regress(n)`. At position `i` with `0 <= i + n <= N`,
`advance(n)` succeeds and moves to `i + n`, and `regress(n)` after it succeeds and
leaves the iterator exactly as it was at first (position, native cursor, owner);
likewise `+= n` followed by `-= n`. With `0 <= i - n <= N`, `regress(n)` followed
by `advance(n)` does the same. -/
theorem C37_regress_undoes_advance (N this : Nat) (hN : N < 2 ^ 63) (it : ss_iterator_type)
    (hit : it.over N this) (n : Int) :
    (it.regress N n = it.advance N (to_int64 (-n)) ∧
      it.operator_plus_assign N n = it.advance N n ∧
      it.operator_minus_assign N n = it.regress N n) ∧
    (-2 ^ 63 < n → n < 2 ^ 63 → it.regress N n = it.advance N (-n)) ∧
    (0 ≤ (it.position : Int) + n ∧ (it.position : Int) + n ≤ N →
      ((it.advance N n).1 = .ok () ∧
        ((it.advance N n).2.position : Int) = (it.position : Int) + n ∧
        ((it.advance N n).2.regress N n).1 = .ok () ∧
        ((it.advance N n).2.regress N n).2 = it) ∧
      ((it.operator_plus_assign N n).1 = .ok () ∧
        ((it.operator_plus_assign N n).2.operator_minus_assign N n).1 = .ok () ∧
        ((it.operator_plus_assign N n).2.operator_minus_assign N n).2 = it)) ∧
    (0 ≤ (it.position : Int) - n ∧ (it.position : Int) - n ≤ N →
      (it.regress N n).1 = .ok () ∧
      ((it.regress N n).2.position : Int) = (it.position : Int) - n ∧
      ((it.regress N n).2.advance N n).1 = .ok () ∧
      ((it.regress N n).2.advance N n).2 = it) := by
  have hNi : (N : Int) < 2 ^ 63 := by exact_mod_cast hN
  have hi : it.m_index ≤ N := hit.2
  have hreg : ∀ (x : ss_iterator_type) (m : Int),
      x.regress N m = x.advance N (to_int64 (-m)) := fun _ _ => rfl
  have hpa : ∀ (x : ss_iterator_type) (m : Int),
      x.operator_plus_assign N m = x.advance N m := fun _ _ => rfl
  have hma : ∀ (x : ss_iterator_type) (m : Int),
      x.operator_minus_assign N m = x.advance N (to_int64 (-m)) := fun _ _ => rfl
  refine ⟨⟨rfl, rfl, rfl⟩, ?_, ?_, ?_⟩
  · intro h1 h2
    rw [hreg, to_int64_of_range (-n) (by omega) (by omega)]
  · intro hb
    have hb2 : 0 ≤ (it.m_index : Int) + n ∧ (it.m_index : Int) + n ≤ N := hb
    have e4 : to_int64 (-n) = -n :=
      to_int64_of_range (-n) (by norm_num; omega) (by norm_num; omega)
    have key := advance_then_back_results N this hN it hit n hb2 (it.advance N n) rfl
      ((it.advance N n).2.advance N (-n)) rfl
    have hr1 : (it.advance N n).2.regress N n = (it.advance N n).2.advance N (-n) := by
      rw [hreg, e4]
    have hr2 : (it.operator_plus_assign N n).2.operator_minus_assign N n =
        (it.advance N n).2.advance N (-n) := by
      rw [hma, e4, hpa]
    rw [hr1, hr2, hpa]
    exact ⟨key, key.1, key.2.2⟩
  · intro hb
    have hb2 : 0 ≤ (it.m_index : Int) + -n ∧ (it.m_index : Int) + -n ≤ N := by
      have h1 : (it.position : Int) = it.m_index := rfl
      rw [h1] at hb
      constructor
      · omega
      · omega
    have e4 : to_int64 (-n) = -n :=
      to_int64_of_range (-n) (by norm_num; omega) (by norm_num; omega)
    have key := advance_then_back_results N this hN it hit (-n) hb2 (it.advance N (-n)) rfl
      ((it.advance N (-n)).2.advance N (- -n)) rfl
    have h5 : (it.position : Int) + -n = (it.position : Int) - n := by omega
    rw [neg_neg, h5] at key
    rw [hreg, e4]
    exact key

/-- C37 at capacity 3, from position 1 of the container at address 7:
`advance(2)` and then `regress(2)` both succeed and restore the iterator. -/
theorem C37_regress_undoes_advance_witness :
    (ss_iterator_type.advance 3 2 ⟨some (7, 1), 1, ⟨some 7⟩⟩).1 = .ok () ∧
    (((ss_iterator_type.advance 3 2 ⟨some (7, 1), 1, ⟨some 7⟩⟩).2.position : Nat) : Int) =
      ((ss_iterator_type.position ⟨some (7, 1), 1, ⟨some 7⟩⟩ : Nat) : Int) + 2 ∧
    ((ss_iterator_type.advance 3 2 ⟨some (7, 1), 1, ⟨some 7⟩⟩).2.regress 3 2).1 = .ok () ∧
    ((ss_iterator_type.advance 3 2 ⟨some (7, 1), 1, ⟨some 7⟩⟩).2.regress 3 2).2 =
      ⟨some (7, 1), 1, ⟨some 7⟩⟩ :=
  ((C37_regress_undoes_advance 3 7 (by norm_num) ⟨some (7, 1), 1, ⟨some 7⟩⟩ ⟨rfl, by decide⟩
    2).2.2.1 ⟨by decide, by decide⟩).1

/-! ## Decrement of CSize_t (C38) -/

theorem CSize_t_operator_minus_int_one (check : Bool) (a : CSize_t)
    (ha : a.m_initialized = true) (ha1 : 0 ≤ a.m_val) (ha2 : a.m_val < 2 ^ 64) :
    a.operator_minus_native check IntType.int 1 =
      if a.m_val > 2 ^ 63 - 1 then .error (.out_of_range .range_check)
      else .ok ⟨⟨a.m_val - 1, check || false⟩⟩ := by
  have h1 : CInt.from_native check IntType.int 1 = .ok ⟨⟨1, check || false⟩⟩ := by
    rw [CInt_from_native_spec check IntType.int (by decide) 1 (by decide) (by decide)]
    simp
  unfold CSize_t.operator_minus_native CSize_t.operator_minus_CInt
  rw [assert_initialized_of_assigned check _ ha, h1]
  dsimp only
  rw [CInt_from_size_t check a.m_val ha1 ha2]
  by_cases h : a.m_val > 2 ^ 63 - 1
  · simp only [h, if_true]
  · simp only [h, if_false]
    have hr1 : -2 ^ 63 ≤ a.m_val - 1 := by norm_num; omega
    have hr2 : a.m_val - 1 ≤ 2 ^ 63 - 1 := by norm_num at h ⊢; omega
    unfold CInt.operator_minus CInt._Ty
    simp only [assert_initialized_of_noted, long_cast_of_range _ hr1 hr2]
    exact CInt_from_long check _ hr1 hr2

theorem CSize_t_operator_decrement_spec (check : Bool) (a : CSize_t)
    (ha : a.m_initialized = true) (ha1 : 0 ≤ a.m_val) (ha2 : a.m_val < 2 ^ 64) :
    a.operator_decrement check =
      if a.m_val > 2 ^ 63 - 1 ∨ a.m_val = 0 then (.error (.out_of_range .range_check), a)
      else (.ok (), ⟨⟨a.m_val - 1, true⟩⟩) := by
  have hl : (0 : Int) ≤ CSize_t._Ty.lowest := by decide
  obtain ⟨⟨v, i⟩⟩ := a
  dsimp only at ha ha1 ha2 ⊢
  subst ha
  unfold CSize_t.operator_decrement
  rw [assert_initialized_of_assigned check _ rfl, if_pos hl]
  dsimp only
  rw [CSize_t_operator_minus_int_one check ⟨⟨v, true⟩⟩ rfl ha1 ha2]
  dsimp only
  by_cases h : v > 2 ^ 63 - 1
  · simp only [h, if_true, true_or]
  · simp only [h, if_false, false_or]
    rw [assign_CInt_spec check ⟨⟨v - 1, check || false⟩⟩ (assert_initialized_of_noted check _ _)
      (by dsimp only; omega)]
    dsimp only
    by_cases h0 : v = 0
    · subst h0
      simp
    · have h2 : ¬ (0 > v - 1) := by omega
      simp only [h2, h0, if_false, Bool.or_true]

theorem CSize_t_operator_post_decrement_spec (check : Bool) (a : CSize_t)
    (ha : a.m_initialized = true) (ha1 : 0 ≤ a.m_val) (ha2 : a.m_val < 2 ^ 64) :
    a.operator_post_decrement check =
      if a.m_val > 2 ^ 63 - 1 ∨ a.m_val = 0 then (.error (.out_of_range .range_check), a)
      else (.ok ⟨⟨a.m_val, check || false⟩⟩, ⟨⟨a.m_val - 1, true⟩⟩) := by
  unfold CSize_t.operator_post_decrement
  rw [assert_initialized_of_assigned check _ ha,
    CSize_t_operator_decrement_spec check a ha ha1 ha2]
  by_cases h : a.m_val > 2 ^ 63 - 1 ∨ a.m_val = 0
  · simp only [h, if_true]
  · simp only [h, if_false, CSize_t.copy, TIntBase1.copy, note_value_assignment_eq]

/-- C38 does not hold of the code for the assigned `CSize_t` holding `2 ^ 63`, in
either configuration: the value is not 0, but `--a` fails with the range error
and leaves `a` holding `2 ^ 63`, because `(*this) - 1` converts the value to a
`CInt` first; `a--` fails in the same way. The compound subtraction
`a -= CSize_t(1)` of the same class returns and leaves `2 ^ 63 - 1`. -/
theorem C38_decrement_fails_above_the_signed_maximum :
    (CSize_t.operator_decrement true ⟨⟨2 ^ 63, true⟩⟩ =
        (.error (.out_of_range .range_check), ⟨⟨2 ^ 63, true⟩⟩) ∧
      CSize_t.operator_decrement false ⟨⟨2 ^ 63, true⟩⟩ =
        (.error (.out_of_range .range_check), ⟨⟨2 ^ 63, true⟩⟩)) ∧
    (CSize_t.operator_post_decrement true ⟨⟨2 ^ 63, true⟩⟩ =
        (.error (.out_of_range .range_check), ⟨⟨2 ^ 63, true⟩⟩) ∧
      CSize_t.operator_post_decrement false ⟨⟨2 ^ 63, true⟩⟩ =
        (.error (.out_of_range .range_check), ⟨⟨2 ^ 63, true⟩⟩)) ∧
    CSize_t.operator_minus_assign true ⟨⟨2 ^ 63, true⟩⟩ ⟨⟨1, true⟩⟩ =
      (.ok (), ⟨⟨2 ^ 63 - 1, true⟩⟩) :=
  ⟨⟨rfl, rfl⟩, ⟨rfl, rfl⟩, rfl⟩

/-! ## A range-checked assignment that fails (C39) -/

theorem CSize_t_assign_native_failed (check : Bool) (_Tz : IntType) (x : Int) (t : CSize_t) :
    ∀ r, t.assign_native check _Tz x = r → ∀ e, r.1 = .error e →
      r.2 = ⟨⟨t.m_val, check || t.m_initialized⟩⟩ := by
  intro r hr e he
  unfold CSize_t.assign_native TIntBase1.assign_check_range at hr
  cases hg : g_assign_check_range CSize_t._Ty _Tz x with
  | error e1 =>
    simp only [hg, note_value_assignment_eq] at hr
    subst hr
    rfl
  | ok u =>
    simp only [hg] at hr
    subst hr
    exact nomatch he

theorem CInt_assign_native_failed (check : Bool) (_Tz : IntType) (x : Int) (t : CInt) :
    ∀ r, t.assign_native check _Tz x = r → ∀ e, r.1 = .error e →
      r.2 = ⟨⟨t.m_val, check || t.m_initialized⟩⟩ := by
  intro r hr e he
  unfold CInt.assign_native TIntBase1.assign_check_range at hr
  cases hg : g_assign_check_range CInt._Ty _Tz x with
  | error e1 =>
    simp only [hg, note_value_assignment_eq] at hr
    subst hr
    rfl
  | ok u =>
    simp only [hg] at hr
    subst hr
    exact nomatch he

theorem CSize_t_assign_CInt_failed (check : Bool) (arg : CInt)
    (hi : arg.toTIntBase1.assert_initialized check = .ok ()) (t : CSize_t) :
    ∀ r, t.assign_CInt check arg = r → ∀ e, r.1 = .error e →
      r.2 = ⟨⟨t.m_val, check || t.m_initialized⟩⟩ := by
  intro r hr e he
  unfold CSize_t.assign_CInt TIntBase1.assign_check_range at hr
  simp only [CInt_operator_Ty_of_ok check arg hi] at hr
  cases hg : g_assign_check_range CSize_t._Ty CInt._Ty arg.m_val with
  | error e1 =>
    simp only [hg, note_value_assignment_eq] at hr
    subst hr
    rfl
  | ok u =>
    simp only [hg] at hr
    subst hr
    exact nomatch he

theorem assert_initialized_cases (check : Bool) (b : TIntBase1) :
    b.assert_initialized check = .ok () ∨
    b.assert_initialized check = .error .assert_failure := by
  unfold TIntBase1.assert_initialized
  cases check <;> cases b.m_initialized <;> simp

theorem CSize_t_assign_CInt_unassigned (check : Bool) (arg : CInt)
    (hi : arg.toTIntBase1.assert_initialized check = .error .assert_failure) (t : CSize_t) :
    t.assign_CInt check arg = (.error .assert_failure, t) := by
  unfold CSize_t.assign_CInt CInt.operator_Ty
  rw [hi]

theorem CSize_t_assign_CInt_range_failed (check : Bool) (arg : CInt) (t : CSize_t) :
    ∀ r, t.assign_CInt check arg = r → r.1 = .error (.out_of_range .range_check) →
      r.2 = ⟨⟨t.m_val, check || t.m_initialized⟩⟩ := by
  intro r hr he
  rcases assert_initialized_cases check arg.toTIntBase1 with hi | hi
  · exact CSize_t_assign_CInt_failed check arg hi t r hr _ he
  · rw [CSize_t_assign_CInt_unassigned check arg hi t] at hr
    subst hr
    exact nomatch he

theorem read_after_noted (check : Bool) (v : Int) (i : Bool) :
    CSize_t.operator_size_t check ⟨⟨v, check || i⟩⟩ = .ok v ∧
    CInt.operator_Ty check ⟨⟨v, check || i⟩⟩ = .ok v :=
  ⟨operator_size_t_of_noted check v i, CInt_operator_Ty_of_noted check v i⟩

/-- C39 fails as stated: in the debug configuration, assigning the `int` value
`-1`, or a `CInt` holding `-1`, to a default-constructed `CSize_t` fails with the
range error and leaves the value 0 but sets the flag, and the `size_t` conversion
of the target then returns 0; so does assigning the `size_t` value `2 ^ 63` to a
default-constructed `CInt`. Before the assignment the read fails. -/
theorem C39_failed_assignment_counterexample :
    (CSize_t.ctor.operator_size_t true = .error .assert_failure ∧
      CSize_t.ctor.assign_native true IntType.int (-1) =
        (.error (.out_of_range .range_check), ⟨⟨0, true⟩⟩) ∧
      (CSize_t.ctor.assign_native true IntType.int (-1)).2.operator_size_t true = .ok 0 ∧
      CSize_t.ctor.assign_CInt true ⟨⟨-1, true⟩⟩ =
        (.error (.out_of_range .range_check), ⟨⟨0, true⟩⟩)) ∧
    (CInt.ctor.operator_Ty true = .error .assert_failure ∧
      CInt.ctor.assign_native true IntType.size_t (2 ^ 63) =
        (.error (.out_of_range .range_check), ⟨⟨0, true⟩⟩) ∧
      (CInt.ctor.assign_native true IntType.size_t (2 ^ 63)).2.operator_Ty true = .ok 0) :=
  ⟨⟨rfl, rfl, rfl, rfl⟩, ⟨rfl, rfl, rfl⟩⟩

/-- C39, amended: an assignment to a `CSize_t` or a `CInt` from a native integer,
or to a `CSize_t` from a `CInt`, that fails leaves the stored value of the target
unchanged; in the debug configuration the target is marked as assigned, since the
assignment is noted before the range is checked, and in the release configuration
the target is exactly as before. In both, reading the target after the failed
assignment returns the old value, 0 for a never-assigned target. The `CInt`
argument is an lvalue `arg`, copied into the parameter, for a failure of any
kind, or any parameter object `tmp`, a temporary included, for the range error. -/
theorem C39_failed_assignment_keeps_value_and_notes_assignment (check : Bool)
    (_Tz : IntType) (x : Int) (arg tmp : CInt) (t : CSize_t) (c : CInt) (e : Exn) :
    ((t.assign_native check _Tz x).1 = .error e →
      (t.assign_native check _Tz x).2 = ⟨⟨t.m_val, check || t.m_initialized⟩⟩ ∧
      (t.assign_native check _Tz x).2.operator_size_t check = .ok t.m_val) ∧
    ((t.assign_CInt check (CInt.copy check arg)).1 = .error e →
      (t.assign_CInt check (CInt.copy check arg)).2 =
        ⟨⟨t.m_val, check || t.m_initialized⟩⟩ ∧
      (t.assign_CInt check (CInt.copy check arg)).2.operator_size_t check = .ok t.m_val) ∧
    ((c.assign_native check _Tz x).1 = .error e →
      (c.assign_native check _Tz x).2 = ⟨⟨c.m_val, check || c.m_initialized⟩⟩ ∧
      (c.assign_native check _Tz x).2.operator_Ty check = .ok c.m_val) ∧
    ((t.assign_CInt check tmp).1 = .error (.out_of_range .range_check) →
      (t.assign_CInt check tmp).2 = ⟨⟨t.m_val, check || t.m_initialized⟩⟩ ∧
      (t.assign_CInt check tmp).2.operator_size_t check = .ok t.m_val) := by
  refine ⟨fun h => ?_, fun h => ?_, fun h => ?_, fun h => ?_⟩
  · have h1 := CSize_t_assign_native_failed check _Tz x t _ rfl e h
    rw [h1]
    exact ⟨rfl, (read_after_noted check _ _).1⟩
  · have h1 := CSize_t_assign_CInt_failed check (CInt.copy check arg)
      (copied_CInt_is_assigned check arg) t _ rfl e h
    rw [h1]
    exact ⟨rfl, (read_after_noted check _ _).1⟩
  · have h1 := CInt_assign_native_failed check _Tz x c _ rfl e h
    rw [h1]
    exact ⟨rfl, (read_after_noted check _ _).2⟩
  · have h1 := CSize_t_assign_CInt_range_failed check tmp t _ rfl h
    rw [h1]
    exact ⟨rfl, (read_after_noted check _ _).1⟩

/-- C39, amended, in the debug configuration: assigning the `int` value `-1` to an
assigned `CSize_t` holding 5 fails and leaves it holding 5, and in the release
configuration a default-constructed `CSize_t` is exactly as before. -/
theorem C39_failed_assignment_keeps_value_and_notes_assignment_witness :
    ((CSize_t.assign_native true IntType.int (-1) ⟨⟨5, true⟩⟩).2 = ⟨⟨5, true⟩⟩ ∧
      (CSize_t.assign_native true IntType.int (-1) ⟨⟨5, true⟩⟩).2.operator_size_t true =
        .ok 5) ∧
    ((CSize_t.assign_native false IntType.int (-1) CSize_t.ctor).2 = CSize_t.ctor ∧
      (CSize_t.assign_native false IntType.int (-1) CSize_t.ctor).2.operator_size_t false =
        .ok 0) :=
  ⟨(C39_failed_assignment_keeps_value_and_notes_assignment true IntType.int (-1) CInt.ctor
      CInt.ctor ⟨⟨5, true⟩⟩ CInt.ctor (.out_of_range .range_check)).1 rfl,
   (C39_failed_assignment_keeps_value_and_notes_assignment false IntType.int (-1) CInt.ctor
      CInt.ctor CSize_t.ctor CInt.ctor (.out_of_range .range_check)).1 rfl⟩

/-! ## The two bound predicates of the range check (C40) -/

/-- C40: for every pair of standard integer types `Source` and `Dest` (signed or
unsigned, of 8, 16, 32 or 64 bits, in two's complement, `digits` being the number
of value bits), `sg_can_exceed_upper_bound<Dest, Source>()` is true iff
`max(Source) > max(Dest)`, and `sg_can_exceed_lower_bound<Dest, Source>()` is true
iff `lowest(Source) < lowest(Dest)`. -/
theorem C40_bound_predicates_compare_the_limits (dest_signed source_signed : Bool)
    (dest_bits source_bits : Nat)
    (hd : dest_bits ∈ [8, 16, 32, 64]) (hs : source_bits ∈ [8, 16, 32, 64]) :
    (sg_can_exceed_upper_bound (IntType.of_width dest_signed dest_bits)
        (IntType.of_width source_signed source_bits) = true ↔
      (IntType.of_width source_signed source_bits).max >
        (IntType.of_width dest_signed dest_bits).max) ∧
    (sg_can_exceed_lower_bound (IntType.of_width dest_signed dest_bits)
        (IntType.of_width source_signed source_bits) = true ↔
      (IntType.of_width source_signed source_bits).lowest <
        (IntType.of_width dest_signed dest_bits).lowest) := by
  simp only [List.mem_cons, List.mem_singleton, List.not_mem_nil, or_false] at hd hs
  rcases hd with rfl | rfl | rfl | rfl <;> rcases hs with rfl | rfl | rfl | rfl <;>
    cases dest_signed <;> cases source_signed <;> decide

/-- C40 for `Source = long long` and `Dest = unsigned int`, where both predicates
are true, and for `Source = unsigned char` and `Dest = short`, where both are
false. -/
theorem C40_bound_predicates_compare_the_limits_witness :
    (sg_can_exceed_upper_bound (IntType.of_width false 32) (IntType.of_width true 64) = true ∧
      sg_can_exceed_lower_bound (IntType.of_width false 32) (IntType.of_width true 64) = true) ∧
    (¬ sg_can_exceed_upper_bound (IntType.of_width true 16) (IntType.of_width false 8) = true ∧
      ¬ sg_can_exceed_lower_bound (IntType.of_width true 16) (IntType.of_width false 8) = true) :=
  have h1 := C40_bound_predicates_compare_the_limits false true 32 64 (by decide) (by decide)
  have h2 := C40_bound_predicates_compare_the_limits true false 16 8 (by decide) (by decide)
  ⟨⟨h1.1.2 (by decide), h1.2.2 (by decide)⟩,
   ⟨fun h => absurd (h2.1.1 h) (by decide), fun h => absurd (h2.2.1 h) (by decide)⟩⟩

end mse
